import Mathlib

/-!
# wb-mqtt-serial: Modbus wire codec, RTU executor, device queries and serial client

A shallow embedding of `src/modbus_common.cpp` (with the status enumeration of
`src/types.h`), of the queries of `src/ir_device_query.cpp` and of the client of
`src/serial_client.cpp`.  Bytes are natural numbers below 256, buffers are lists of
bytes, fixed-width machine arithmetic is written out with explicit `%`.  A read outside
a buffer yields 0 and a write outside a buffer is dropped; the theorems state the
buffer lengths under which every access is inside the buffer.  Exceptions are `Except`
results, failed assertions are `none`, and the calls of callbacks and hooks are kept as
lists in the state.
-/

set_option autoImplicit false

/-! ## types.h -/

/-- Status of a query, `enum class EQueryStatus` of `src/types.h`. -/
inductive EQueryStatus
  | OK
  | UNKNOWN_ERROR
  | DEVICE_TRANSIENT_ERROR
  | DEVICE_PERMANENT_ERROR
  deriving DecidableEq, Repr

/-! ## Exceptions -/

/-- The exception classes thrown by the codec and the executor.
`TInvalidCRCError` and `TMalformedResponseError` are declared in
`modbus_common.cpp` as subclasses of `TSerialDeviceTransientErrorException`. -/
inductive TException
  | TSerialDeviceException (message : String)
  | TSerialDeviceTransientErrorException (message : String)
  | TSerialDevicePermanentRegisterException (message : String)
  | TInvalidCRCError
  | TMalformedResponseError (what : String)
  deriving DecidableEq, Repr

namespace TException

/-- The string handed to the base-class constructor. -/
def message : TException → String
  | TSerialDeviceException m => m
  | TSerialDeviceTransientErrorException m => m
  | TSerialDevicePermanentRegisterException m => m
  | TInvalidCRCError => "invalid crc"
  | TMalformedResponseError w => "malformed response: " ++ w

/-- Whether `catch (TSerialDeviceTransientErrorException&)` catches the exception. -/
def isTransient : TException → Bool
  | TSerialDeviceTransientErrorException _ => true
  | TInvalidCRCError => true
  | TMalformedResponseError _ => true
  | _ => false

/-- Whether `catch (const TInvalidCRCError &)` catches the exception. -/
def isInvalidCRC : TException → Bool
  | TInvalidCRCError => true
  | _ => false

/-- Whether `catch (const TMalformedResponseError &)` catches the exception. -/
def isMalformedResponse : TException → Bool
  | TMalformedResponseError _ => true
  | _ => false

end TException

/-- The rendering `what()` of the serial-device exception classes as the tests of
`src/test/modbus_test.cpp` observe it: the constructor message behind a fixed
lead-in.  The classes themselves are declared outside `src/`; the executor takes
the rendering as an argument. -/
def serialProtocolWhat (message : String) : String :=
  "Serial protocol error: " ++ message

/-! ## CRC-16 -/

/-- One bit step of the reflected CRC-16 with polynomial 0xA001. -/
def crc16Step (c : Nat) : Nat :=
  if c % 2 = 1 then (c / 2) ^^^ 0xA001 else c / 2

/-- Reflected CRC-16 of a byte sequence, start value 0xFFFF. -/
def crc16Reflected (data : List Nat) : Nat :=
  data.foldl (fun c b => crc16Step (crc16Step (crc16Step (crc16Step
    (crc16Step (crc16Step (crc16Step (crc16Step (c ^^^ (b % 256)))))))))) 0xFFFF

/-- Modelled from the spec: `CRC16::CalculateCRC16` of the absent `crc16.h`, the
CRC-16 with polynomial 0xA001 whose low byte goes first on the wire.  The frame
composers store the returned value high byte first, so the returned value is
the reflected CRC with its two bytes exchanged. -/
def CalculateCRC16 (data : List Nat) : Nat :=
  let c := crc16Reflected data
  (c % 256) * 256 + c / 256

/-! ## Modbus protocol declarations -/

namespace Modbus

def MAX_READ_BITS : Nat := 2000
def MAX_WRITE_BITS : Nat := 1968
def MAX_READ_REGISTERS : Nat := 125
def MAX_WRITE_REGISTERS : Nat := 123
def MAX_RW_WRITE_REGISTERS : Nat := 121

def EXCEPTION_RESPONSE_PDU_SIZE : Nat := 2
def WRITE_RESPONSE_PDU_SIZE : Nat := 5

def ERR_NONE : Nat := 0x0
def ERR_ILLEGAL_FUNCTION : Nat := 0x1
def ERR_ILLEGAL_DATA_ADDRESS : Nat := 0x2
def ERR_ILLEGAL_DATA_VALUE : Nat := 0x3
def ERR_SERVER_DEVICE_FAILURE : Nat := 0x4
def ERR_ACKNOWLEDGE : Nat := 0x5
def ERR_SERVER_DEVICE_BUSY : Nat := 0x6
def ERR_MEMORY_PARITY_ERROR : Nat := 0x8
def ERR_GATEWAY_PATH_UNAVAILABLE : Nat := 0xA
def ERR_GATEWAY_TARGET_DEVICE_FAILED_TO_RESPOND : Nat := 0xB

/-- Modelled from the spec: the register kinds of the absent `modbus_common.h`
(single-bit-writable, single-bit-readable, 16-bit read/write, 16-bit
read/write-single, 16-bit read/write-multi, 16-bit read-only). -/
inductive RegisterType
  | REG_HOLDING
  | REG_INPUT
  | REG_COIL
  | REG_DISCRETE
  | REG_HOLDING_SINGLE
  | REG_HOLDING_MULTI
  deriving DecidableEq, Repr

/-- What the codec reads of a query entry: `GetType()`, `GetStart()` (32 bit
unsigned), `GetCount()` and `GetTypeName()`. -/
structure TIRDeviceQueryEntry where
  RegType : RegisterType
  Start : Nat
  Count : Nat
  TypeName : String
  deriving DecidableEq, Repr

/-- A write entry: a query entry with its `Values`. -/
structure TIRDeviceWriteQueryEntry extends TIRDeviceQueryEntry where
  Values : List Nat
  deriving DecidableEq, Repr

end Modbus

/-! ## General utilities -/

/-- Byte `i` of a buffer. -/
def byteAt (buf : List Nat) (i : Nat) : Nat := buf.getD i 0

/-- Write a 16-bit value to a byte array in big-endian order:
`dst[0] = val >> 8; dst[1] = val` with `val` converted to `uint16_t`. -/
def WriteAs2Bytes (buf : List Nat) (dst : Nat) (val : Nat) : List Nat :=
  let v := val % 65536
  (buf.set dst ((v / 256) % 256)).set (dst + 1) (v % 256)

/-- `IsPacking(PProtocolRegister reg)`: true if a multi write needs to be done. -/
def IsPackingReg (reg : Modbus.TIRDeviceQueryEntry) : Bool :=
  reg.RegType == Modbus.RegisterType.REG_HOLDING_MULTI

/-- `IsPacking(const TIRDeviceQueryEntry & entry)`. -/
def IsPacking (entry : Modbus.TIRDeviceQueryEntry) : Bool :=
  (entry.RegType == Modbus.RegisterType.REG_HOLDING_MULTI) ||
  ((entry.RegType == Modbus.RegisterType.REG_HOLDING) && decide (entry.Count > 1))

/-- `IsSingleBitType(const TIRDeviceQueryEntry & entry)`. -/
def IsSingleBitType (entry : Modbus.TIRDeviceQueryEntry) : Bool :=
  (entry.RegType == Modbus.RegisterType.REG_COIL) ||
  (entry.RegType == Modbus.RegisterType.REG_DISCRETE)

/-- `ToQueryStatus(Modbus::ModbusError errorCode)`: the switch over the error code. -/
def ToQueryStatus (errorCode : Nat) : EQueryStatus :=
  if errorCode = Modbus.ERR_NONE then EQueryStatus.OK
  else if errorCode = Modbus.ERR_ILLEGAL_DATA_ADDRESS ∨
          errorCode = Modbus.ERR_ILLEGAL_DATA_VALUE ∨
          errorCode = Modbus.ERR_ILLEGAL_FUNCTION then
    EQueryStatus.DEVICE_PERMANENT_ERROR
  else EQueryStatus.DEVICE_TRANSIENT_ERROR

/-! ## Modbus protocol common utilities -/

namespace Modbus

def EXCEPTION_BIT : Nat := 128

def FN_READ_COILS : Nat := 0x1
def FN_READ_DISCRETE : Nat := 0x2
def FN_READ_HOLDING : Nat := 0x3
def FN_READ_INPUT : Nat := 0x4
def FN_WRITE_SINGLE_COIL : Nat := 0x5
def FN_WRITE_SINGLE_REGISTER : Nat := 0x6
def FN_WRITE_MULTIPLE_COILS : Nat := 0xF
def FN_WRITE_MULTIPLE_REGISTERS : Nat := 0x10

inductive OperationType
  | OP_READ
  | OP_WRITE
  deriving DecidableEq, Repr

/-- `IsException(pdu)`: `pdu[0] & EXCEPTION_BIT`. -/
def IsException (pdu : List Nat) : Bool :=
  (byteAt pdu 0) &&& EXCEPTION_BIT != 0

/-- Returns the modbus exception code if there is any, otherwise 0. -/
def GetExceptionCode (pdu : List Nat) : Nat :=
  if IsException pdu then byteAt pdu 1 else 0

/-- Choose the function code for a modbus request; `none` is the failed
`assert(false)` behind the switch. -/
def GetFunction (entry : TIRDeviceQueryEntry) (op : OperationType) : Option Nat :=
  match entry.RegType, op with
  | RegisterType.REG_HOLDING_SINGLE, OperationType.OP_READ => some FN_READ_HOLDING
  | RegisterType.REG_HOLDING_MULTI, OperationType.OP_READ => some FN_READ_HOLDING
  | RegisterType.REG_HOLDING, OperationType.OP_READ => some FN_READ_HOLDING
  | RegisterType.REG_HOLDING_SINGLE, OperationType.OP_WRITE =>
      some (if IsPacking entry then FN_WRITE_MULTIPLE_REGISTERS else FN_WRITE_SINGLE_REGISTER)
  | RegisterType.REG_HOLDING_MULTI, OperationType.OP_WRITE =>
      some (if IsPacking entry then FN_WRITE_MULTIPLE_REGISTERS else FN_WRITE_SINGLE_REGISTER)
  | RegisterType.REG_HOLDING, OperationType.OP_WRITE =>
      some (if IsPacking entry then FN_WRITE_MULTIPLE_REGISTERS else FN_WRITE_SINGLE_REGISTER)
  | RegisterType.REG_INPUT, OperationType.OP_READ => some FN_READ_INPUT
  | RegisterType.REG_INPUT, OperationType.OP_WRITE => none
  | RegisterType.REG_COIL, OperationType.OP_READ => some FN_READ_COILS
  | RegisterType.REG_COIL, OperationType.OP_WRITE =>
      some (if IsPacking entry then FN_WRITE_MULTIPLE_COILS else FN_WRITE_SINGLE_COIL)
  | RegisterType.REG_DISCRETE, OperationType.OP_READ => some FN_READ_DISCRETE
  | RegisterType.REG_DISCRETE, OperationType.OP_WRITE => none

/-- Throws a C++ exception on a modbus error code.  `is_transient` is never
cleared, so every thrown exception is the transient one. -/
def ThrowIfModbusException (code : Nat) : Except TException Unit :=
  if code = 0 then Except.ok ()
  else
    let message : String :=
      if code = ERR_ILLEGAL_FUNCTION then "illegal function"
      else if code = ERR_ILLEGAL_DATA_ADDRESS then "illegal data address"
      else if code = ERR_ILLEGAL_DATA_VALUE then "illegal data value"
      else if code = ERR_SERVER_DEVICE_FAILURE then "server device failure"
      else if code = ERR_ACKNOWLEDGE then "long operation (acknowledge)"
      else if code = ERR_SERVER_DEVICE_BUSY then "server device is busy"
      else if code = ERR_MEMORY_PARITY_ERROR then "memory parity error"
      else if code = ERR_GATEWAY_PATH_UNAVAILABLE then "gateway path is unavailable"
      else if code = ERR_GATEWAY_TARGET_DEVICE_FAILED_TO_RESPOND then
        "gateway target device failed to respond"
      else "invalid modbus error code (" ++ toString code ++ ")"
    Except.error (TException.TSerialDeviceTransientErrorException message)

/-- `GetByteCount(entry)`; `std::ceil(static_cast<float>(count) / 8)` is
`(count + 7) / 8` for every count a `float` holds exactly. -/
def GetByteCount (entry : TIRDeviceWriteQueryEntry) : Nat :=
  if IsSingleBitType entry.toTIRDeviceQueryEntry then (entry.Count + 7) / 8
  else entry.Count * 2

/-- Number of bytes needed to hold the request. -/
def InferWriteRequestPDUSize (entry : TIRDeviceWriteQueryEntry) : Nat :=
  if IsPacking entry.toTIRDeviceQueryEntry then 6 + GetByteCount entry else 5

/-- Number of requests needed to write the register. -/
def InferWriteRequestsCount (entry : TIRDeviceWriteQueryEntry) : Nat :=
  if IsPacking entry.toTIRDeviceQueryEntry then 1 else entry.Count

/-- Number of bytes needed to hold the response.  The source declares the argument as
a write entry and calls the function with read entries; type and count are all it reads. -/
def InferReadResponsePDUSize (entry : TIRDeviceQueryEntry) : Nat :=
  if IsSingleBitType entry then 2 + (entry.Count + 7) / 8
  else 2 + entry.Count * 2

/-- `ReadResponsePDUSize(pdu)`: the data byte count is the second byte of the PDU. -/
def ReadResponsePDUSize (pdu : List Nat) : Nat :=
  if IsException pdu then EXCEPTION_RESPONSE_PDU_SIZE else byteAt pdu 1 + 2

/-- `WriteResponsePDUSize(pdu)`. -/
def WriteResponsePDUSize (pdu : List Nat) : Nat :=
  if IsException pdu then EXCEPTION_RESPONSE_PDU_SIZE else WRITE_RESPONSE_PDU_SIZE

/-- `entry.GetStart() + shift`: 32-bit unsigned arithmetic. -/
def shiftedStart (entry : TIRDeviceQueryEntry) (shift : Int) : Nat :=
  (((entry.Start : Int) + shift) % 4294967296).toNat

/-- Fills the PDU at offset `pdu` of `buf` with the read request data. -/
def ComposeReadRequestPDU (buf : List Nat) (pdu : Nat) (entry : TIRDeviceQueryEntry)
    (shift : Int) : Option (List Nat) :=
  match GetFunction entry OperationType.OP_READ with
  | none => none
  | some fn =>
    let buf := buf.set pdu fn
    let buf := WriteAs2Bytes buf (pdu + 1) (shiftedStart entry shift)
    some (WriteAs2Bytes buf (pdu + 3) entry.Count)

/-- `coils[iBit] = b` on a `std::bitset<8>` held as a number. -/
def bitsetSet (coils iBit : Nat) (b : Bool) : Nat :=
  if b then coils ||| (1 <<< iBit) else coils ^^^ (coils &&& (1 <<< iBit))

/-- The body of the `iByte` loop of the coil branch: the inner loop runs `iBit`
from `iByte * 8` while `iBit < bitCount`, `bitCount = min(Values.size(), 8)`. -/
def packCoilByte (values : List Nat) (iByte : Nat) : Nat :=
  let bitCount := min values.length 8
  ((List.range bitCount).filter (fun iBit => decide (iByte * 8 ≤ iBit))).foldl
    (fun coils iBit => bitsetSet coils iBit (values.getD iBit 0 != 0)) 0

/-- Fills the PDU at offset `pdu` of `buf` with the multiple-write request data. -/
def ComposeMultipleWriteRequestPDU (buf : List Nat) (pdu : Nat)
    (entry : TIRDeviceWriteQueryEntry) (shift : Int) : Option (List Nat) :=
  match GetFunction entry.toTIRDeviceQueryEntry OperationType.OP_WRITE with
  | none => none
  | some fn =>
    let buf := buf.set pdu fn
    let buf := WriteAs2Bytes buf (pdu + 1) (shiftedStart entry.toTIRDeviceQueryEntry shift)
    let buf := WriteAs2Bytes buf (pdu + 3) entry.Count
    let byteCount := GetByteCount entry
    let buf := buf.set (pdu + 5) (byteCount % 256)
    if IsSingleBitType entry.toTIRDeviceQueryEntry then
      some ((List.range byteCount).foldl
        (fun b iByte => b.set (pdu + 6 + iByte) (packCoilByte entry.Values iByte % 256)) buf)
    else
      some ((List.range entry.Values.length).foldl
        (fun b i => WriteAs2Bytes b (pdu + 6 + i * 2) ((entry.Values.getD i 0) % 65536)) buf)

/-- Fills the PDU at offset `pdu` of `buf` with the single-write request data;
`value` is a `uint16_t`. -/
def ComposeSingleWriteRequestPDU (buf : List Nat) (pdu : Nat)
    (entry : TIRDeviceWriteQueryEntry) (value : Nat) (shift : Int) : Option (List Nat) :=
  let value := value % 65536
  let value :=
    if entry.RegType = RegisterType.REG_COIL then (if value ≠ 0 then 0xFF * 256 else 0x00)
    else value
  match GetFunction entry.toTIRDeviceQueryEntry OperationType.OP_WRITE with
  | none => none
  | some fn =>
    let buf := buf.set pdu fn
    let buf := WriteAs2Bytes buf (pdu + 1) (shiftedStart entry.toTIRDeviceQueryEntry shift)
    some (WriteAs2Bytes buf (pdu + 3) value)

/-- The coil branch of `ParseReadResponse`: each data byte yields
`min(coil_count, 8)` destination elements, bit 0 first. -/
def decodeCoils : List Nat → Nat → List Nat
  | [], _ => []
  | b :: rest, coil_count =>
    let coils_in_byte := min coil_count 8
    (List.range coils_in_byte).map (fun i => if (b % 256).testBit i then 1 else 0)
      ++ decodeCoils rest (coil_count - coils_in_byte)

/-- The word branch of `ParseReadResponse`: `byte_count / 2` big-endian words. -/
def decodeWords (data : List Nat) (byte_count : Nat) : List Nat :=
  (List.range (byte_count / 2)).map
    (fun i => ((byteAt data (2 * i) * 256) ||| byteAt data (2 * i + 1)) % 65536)

/-- Parses a modbus read response: the status stored into the entry, and either
the exception thrown or the decoded destination elements. -/
def ParseReadResponse (pdu : List Nat) (entry : TIRDeviceQueryEntry) :
    EQueryStatus × Except TException (List Nat) :=
  let exception_code := GetExceptionCode pdu
  let status := ToQueryStatus exception_code
  match ThrowIfModbusException exception_code with
  | Except.error e => (status, Except.error e)
  | Except.ok _ =>
    let byte_count := byteAt pdu 1
    let data := (List.range byte_count).map (fun k => byteAt pdu (2 + k))
    if IsSingleBitType entry then (status, Except.ok (decodeCoils data entry.Count))
    else (status, Except.ok (decodeWords data byte_count))

/-- Checks a modbus response on write. -/
def ParseWriteResponse (pdu : List Nat) : Except TException Unit :=
  ThrowIfModbusException (GetExceptionCode pdu)

end Modbus

/-! ## Modbus RTU protocol utilities -/

/-- What the executor observes of the transport port: the requests handed to
`WriteBytes`, the number of `SkipNoise` calls and the number of guard sleeps. -/
structure TPort where
  written : List (List Nat)
  skipNoiseCalls : Nat
  sleeps : Nat
  deriving DecidableEq, Repr

namespace TPort

def WriteBytes (port : TPort) (request : List Nat) : TPort :=
  { port with written := port.written ++ [request] }

/-- `SkipNoise`; a failure inside it is caught and logged by every caller. -/
def SkipNoise (port : TPort) : TPort :=
  { port with skipNoiseCalls := port.skipNoiseCalls + 1 }

/-- `if (config->GuardInterval.count()) port->Sleep(config->GuardInterval)`. -/
def guardSleep (port : TPort) (guardInterval : Nat) : TPort :=
  if guardInterval ≠ 0 then { port with sleeps := port.sleeps + 1 } else port

end TPort

/-- What one `ReadFrame` call does: it returns `rc` and leaves `buf` in the
response buffer, or it throws. -/
inductive TReadFrame
  | returned (rc : Int) (buf : List Nat)
  | raised (e : TException)
  deriving DecidableEq, Repr

/-- How a call ends: it returns, it throws, or an `assert` fails. -/
inductive TOutcome
  | returned
  | raised (e : TException)
  | aborted
  deriving DecidableEq, Repr

/-- The response buffer of `size` bytes after `ReadFrame` left `buf` in it. -/
def responseBuffer (size : Nat) (buf : List Nat) : List Nat :=
  (buf ++ List.replicate size 0).take size

namespace ModbusRTU

/-- Which of the two response types `CheckResponse` is instantiated with:
`TReadResponse` (a vector) or `TWriteResponse` (an array of 8 bytes). -/
inductive TResponseKind
  | TReadResponse
  | TWriteResponse
  deriving DecidableEq, Repr

/-- Number of bytes in the ADU that are not in the PDU (slave id and CRC). -/
def DATA_SIZE : Nat := 3

/-- Size of `TWriteResponse` and of `TReadRequest`. -/
def WRITE_RESPONSE_SIZE : Nat := 8

/-- `PDU(msg)`: the message from its second byte on. -/
def PDU (msg : List Nat) : List Nat := msg.drop 1

def InferWriteRequestSize (reg : Modbus.TIRDeviceWriteQueryEntry) : Nat :=
  Modbus.InferWriteRequestPDUSize reg + DATA_SIZE

def InferReadResponseSize (entry : Modbus.TIRDeviceQueryEntry) : Nat :=
  Modbus.InferReadResponsePDUSize entry + DATA_SIZE

/-- The frame-complete predicate `ExpectNBytes(n)`. -/
def ExpectNBytes (n : Int) (buf : List Nat) (size : Int) : Bool :=
  if size < 2 then false
  else if Modbus.IsException (PDU buf) then
    decide (size ≥ ((Modbus.EXCEPTION_RESPONSE_PDU_SIZE + DATA_SIZE : Nat) : Int))
  else decide (size ≥ n)

/-- `ComposeReadRequest(req, entry, slaveId, shift)`; `crc` is `CRC16::CalculateCRC16`. -/
def ComposeReadRequest (crc : List Nat → Nat) (entry : Modbus.TIRDeviceQueryEntry)
    (slaveId : Nat) (shift : Int) : Option (List Nat) :=
  let req := (List.replicate 8 0).set 0 (slaveId % 256)
  match Modbus.ComposeReadRequestPDU req 1 entry shift with
  | none => none
  | some req => some (WriteAs2Bytes req 6 (crc (req.take 6) % 65536))

/-- The loop of `ComposeWriteRequests` from request `size - remaining` on;
`value` is the 64-bit value left to send. -/
def composeWriteRequestsFrom (crc : List Nat → Nat) (reg : Modbus.TIRDeviceWriteQueryEntry)
    (slaveId : Nat) (shift : Int) (size : Nat) : Nat → Nat → Option (List (List Nat))
  | 0, _ => some []
  | remaining + 1, value =>
    let i := size - (remaining + 1)
    let req := (List.replicate (InferWriteRequestSize reg) 0).set 0 (slaveId % 256)
    let composed :=
      if IsPackingReg reg.toTIRDeviceQueryEntry then
        Modbus.ComposeMultipleWriteRequestPDU req 1 reg shift
      else
        Modbus.ComposeSingleWriteRequestPDU req 1 reg (value % 65536)
          (shift + (size : Int) - (i : Int) - 1)
    let value := if IsPackingReg reg.toTIRDeviceQueryEntry then value else value / 65536
    match composed with
    | none => none
    | some req =>
      let req := WriteAs2Bytes req (req.length - 2) (crc (req.take (req.length - 2)) % 65536)
      match composeWriteRequestsFrom crc reg slaveId shift size remaining value with
      | none => none
      | some rest => some (req :: rest)

/-- `ComposeWriteRequests(requests, reg, slaveId, value, shift)`; the register is
handed to the codec as a write entry (address as start, quantity as count). -/
def ComposeWriteRequests (crc : List Nat → Nat) (reg : Modbus.TIRDeviceWriteQueryEntry)
    (slaveId : Nat) (value : Nat) (shift : Int) : Option (List (List Nat)) :=
  let size := Modbus.InferWriteRequestsCount reg
  composeWriteRequestsFrom crc reg slaveId shift size size (value % 18446744073709551616)

/-- `GetResponsePDUSize(res)`, one overload per response type. -/
def GetResponsePDUSize : TResponseKind → List Nat → Nat
  | TResponseKind.TReadResponse, res => Modbus.ReadResponsePDUSize (PDU res)
  | TResponseKind.TWriteResponse, res => Modbus.WriteResponsePDUSize (PDU res)

/-- `CheckResponse(req, res)`: the four checks in source order.  `res.size() - 2`
is `size_t` arithmetic. -/
def CheckResponse (crc : List Nat → Nat) (kind : TResponseKind) (req res : List Nat) :
    Except TException Unit :=
  let pdu_size := GetResponsePDUSize kind res
  if pdu_size ≥ (18446744073709551616 + res.length - 2) % 18446744073709551616 then
    Except.error (TException.TMalformedResponseError "invalid data size")
  else
    let c := (byteAt res (pdu_size + 1) * 256 + byteAt res (pdu_size + 2)) % 65536
    if c ≠ crc (res.take (pdu_size + 1)) % 65536 then
      Except.error TException.TInvalidCRCError
    else
      let requestSlaveId := byteAt req 0
      let responseSlaveId := byteAt res 0
      if requestSlaveId ≠ responseSlaveId then
        Except.error (TException.TSerialDeviceTransientErrorException
          "request and response slave id mismatch")
      else
        let requestFunctionCode := byteAt (PDU req) 0
        let responseFunctionCode := byteAt (PDU res) 0 &&& 127
        if requestFunctionCode ≠ responseFunctionCode then
          Except.error (TException.TSerialDeviceTransientErrorException
            "request and response function code mismatch")
        else Except.ok ()

/-- The request loop of `WriteRegister`; `readFrame i` is what the `i`-th
`ReadFrame` call of the invocation does. -/
def writeRequests (crc : List Nat → Nat) (guardInterval : Nat) (readFrame : Nat → TReadFrame) :
    List (List Nat) → Nat → TPort → TPort × Except TException Unit
  | [], _, port => (port, Except.ok ())
  | request :: rest, i, port =>
    let port := (port.guardSleep guardInterval).WriteBytes request
    match readFrame i with
    | TReadFrame.raised e => (port, Except.error e)
    | TReadFrame.returned rc buf =>
      let response := responseBuffer WRITE_RESPONSE_SIZE buf
      if rc > 0 then
        let checked :=
          match CheckResponse crc TResponseKind.TWriteResponse request response with
          | Except.error e => Except.error e
          | Except.ok _ => Modbus.ParseWriteResponse (PDU response)
        match checked with
        | Except.error e =>
          if e.isInvalidCRC then (port.SkipNoise, Except.error e)
          else if e.isMalformedResponse then (port.SkipNoise, Except.error e)
          else (port, Except.error e)
        | Except.ok _ => writeRequests crc guardInterval readFrame rest (i + 1) port
      else (port, Except.ok ())

/-- `WriteRegister(port, slaveId, reg, value, shift)`.  `what` renders an
exception message as `e.what()` does. -/
def WriteRegister (crc : List Nat → Nat) (what : String → String) (guardInterval : Nat)
    (readFrame : Nat → TReadFrame) (port : TPort) (slaveId : Nat)
    (reg : Modbus.TIRDeviceWriteQueryEntry) (value : Nat) (shift : Int) : TPort × TOutcome :=
  match ComposeWriteRequests crc reg slaveId value shift with
  | none => (port, TOutcome.aborted)
  | some requests =>
    match writeRequests crc guardInterval readFrame requests 0 port with
    | (port, Except.ok _) => (port, TOutcome.returned)
    | (port, Except.error e) =>
      if e.isTransient then
        let exception_message := ": " ++ what e.message
        (port, TOutcome.raised (TException.TSerialDeviceTransientErrorException
          ("failed to write " ++ reg.TypeName ++ " @ " ++ toString reg.Start
            ++ exception_message)))
      else (port, TOutcome.raised e)

/-- State left by one of the two read executors. -/
structure TReadResult where
  port : TPort
  Status : EQueryStatus
  Error : Option Bool
  values : Option (List Nat)
  outcome : TOutcome
  deriving DecidableEq, Repr

/-- `ReadRegisterRange(port, slaveId, range, shift)`; `status0` is the status
the range holds before the call. -/
def ReadRegisterRange (crc : List Nat → Nat) (guardInterval : Nat) (readFrame : TReadFrame)
    (port : TPort) (status0 : EQueryStatus) (slaveId : Nat)
    (range : Modbus.TIRDeviceQueryEntry) (shift : Int) : TReadResult :=
  let port := port.guardSleep guardInterval
  match ComposeReadRequest crc range slaveId shift with
  | none => ⟨port, status0, none, none, TOutcome.aborted⟩
  | some request =>
    let port := port.WriteBytes request
    match readFrame with
    | TReadFrame.raised e =>
      if e.isTransient then ⟨port, status0, some true, none, TOutcome.returned⟩
      else ⟨port, status0, none, none, TOutcome.raised e⟩
    | TReadFrame.returned rc buf =>
      let response := responseBuffer (InferReadResponseSize range) buf
      if rc > 0 then
        match CheckResponse crc TResponseKind.TReadResponse request response with
        | Except.error e =>
          let port :=
            if e.isInvalidCRC then port.SkipNoise
            else if e.isMalformedResponse then port.SkipNoise
            else port
          if e.isTransient then ⟨port, status0, some true, none, TOutcome.returned⟩
          else ⟨port, status0, none, none, TOutcome.raised e⟩
        | Except.ok _ =>
          match Modbus.ParseReadResponse (PDU response) range with
          | (status, Except.error e) =>
            let port :=
              if e.isInvalidCRC then port.SkipNoise
              else if e.isMalformedResponse then port.SkipNoise
              else port
            if e.isTransient then ⟨port, status, some true, none, TOutcome.returned⟩
            else ⟨port, status, none, none, TOutcome.raised e⟩
          | (status, Except.ok values) =>
            ⟨port, status, some false, some values, TOutcome.returned⟩
      else ⟨port, status0, some true, none, TOutcome.returned⟩

/-- `Read(port, slaveId, entry, shift)`; `status0` is the status the entry holds
before the call.  The inner handler catches `TInvalidCRCError` only, and the
failure path stores `UNKNOWN_ERROR` into the entry. -/
def Read (crc : List Nat → Nat) (guardInterval : Nat) (readFrame : TReadFrame)
    (port : TPort) (status0 : EQueryStatus) (slaveId : Nat)
    (entry : Modbus.TIRDeviceQueryEntry) (shift : Int) : TReadResult :=
  let port := port.guardSleep guardInterval
  match ComposeReadRequest crc entry slaveId shift with
  | none => ⟨port, status0, none, none, TOutcome.aborted⟩
  | some request =>
    let port := port.WriteBytes request
    match readFrame with
    | TReadFrame.raised e =>
      if e.isTransient then
        ⟨port, EQueryStatus.UNKNOWN_ERROR, none, none, TOutcome.returned⟩
      else ⟨port, status0, none, none, TOutcome.raised e⟩
    | TReadFrame.returned rc buf =>
      let response := responseBuffer (InferReadResponseSize entry) buf
      if rc > 0 then
        match CheckResponse crc TResponseKind.TReadResponse request response with
        | Except.error e =>
          let port := if e.isInvalidCRC then port.SkipNoise else port
          if e.isTransient then
            ⟨port, EQueryStatus.UNKNOWN_ERROR, none, none, TOutcome.returned⟩
          else ⟨port, status0, none, none, TOutcome.raised e⟩
        | Except.ok _ =>
          match Modbus.ParseReadResponse (PDU response) entry with
          | (status, Except.error e) =>
            let port := if e.isInvalidCRC then port.SkipNoise else port
            if e.isTransient then
              ⟨port, EQueryStatus.UNKNOWN_ERROR, none, none, TOutcome.returned⟩
            else ⟨port, status, none, none, TOutcome.raised e⟩
          | (status, Except.ok values) =>
            ⟨port, status, some false, some values, TOutcome.returned⟩
      else ⟨port, EQueryStatus.UNKNOWN_ERROR, none, none, TOutcome.returned⟩

end ModbusRTU

/-! ## Response validation with the bounds of the buffer observed -/

namespace ModbusRTU

/-- `res[i]` with the bounds of the buffer observed: `none` is a read outside the
buffer. -/
def readAt (res : List Nat) (i : Nat) : Option Nat := res[i]?

/-- `GetResponsePDUSize(res)` with every read of `res` bounds-checked: `IsException`
reads `PDU(res)[0]`, and `ReadResponsePDUSize` reads `PDU(res)[1]` of a response that is
not an exception. -/
def GetResponsePDUSizeChecked (kind : TResponseKind) (res : List Nat) : Option Nat :=
  match readAt res 1 with
  | none => none
  | some fn =>
    if fn &&& Modbus.EXCEPTION_BIT != 0 then some Modbus.EXCEPTION_RESPONSE_PDU_SIZE
    else
      match kind with
      | TResponseKind.TReadResponse =>
        match readAt res 2 with
        | none => none
        | some byteCount => some (byteCount + 2)
      | TResponseKind.TWriteResponse => some Modbus.WRITE_RESPONSE_PDU_SIZE

/-- `CheckResponse(req, res)` with every read of `res` bounds-checked, the bytes
`CalculateCRC16(res.data(), pdu_size + 1)` reads included; `none` is a read outside the
buffer. The reads of `req` are left as they are. -/
def CheckResponseChecked (crc : List Nat → Nat) (kind : TResponseKind) (req res : List Nat) :
    Option (Except TException Unit) :=
  match GetResponsePDUSizeChecked kind res with
  | none => none
  | some pdu_size =>
    if pdu_size ≥ (18446744073709551616 + res.length - 2) % 18446744073709551616 then
      some (Except.error (TException.TMalformedResponseError "invalid data size"))
    else
      match readAt res (pdu_size + 1), readAt res (pdu_size + 2) with
      | some hi, some lo =>
        let c := (hi * 256 + lo) % 65536
        if res.length < pdu_size + 1 then none
        else if c ≠ crc (res.take (pdu_size + 1)) % 65536 then
          some (Except.error TException.TInvalidCRCError)
        else
          match readAt res 0 with
          | none => none
          | some responseSlaveId =>
            let requestSlaveId := byteAt req 0
            if requestSlaveId ≠ responseSlaveId then
              some (Except.error (TException.TSerialDeviceTransientErrorException
                "request and response slave id mismatch"))
            else
              match readAt res 1 with
              | none => none
              | some fn =>
                let requestFunctionCode := byteAt (PDU req) 0
                let responseFunctionCode := fn &&& 127
                if requestFunctionCode ≠ responseFunctionCode then
                  some (Except.error (TException.TSerialDeviceTransientErrorException
                    "request and response function code mismatch"))
                else some (Except.ok ())
      | _, _ => none

end ModbusRTU

/-! ## Protocol info and frame timeout -/

namespace Modbus

/-- `TModbusProtocolInfo::GetMaxReadRegisters`. -/
def GetMaxReadRegisters : Nat := MAX_READ_REGISTERS

/-- `TModbusProtocolInfo::GetMaxReadBits`. -/
def GetMaxReadBits : Nat := MAX_READ_BITS

/-- `GetFrameTimeout(baudRate)` in microseconds:
`std::ceil(static_cast<double>(35000000) / baudRate)`.  Both operands are held exactly
by a `double`; `fl` is the rounding the double division applies to the exact quotient. -/
def GetFrameTimeout (fl : ℚ → ℚ) (baudRate : Int) : Int :=
  ⌈fl ((35000000 : ℚ) / (baudRate : ℚ))⌉

end Modbus

/-! ## Register quantity -/

/-- Word order of a device, `enum class EWordOrder` of `src/types.h`. -/
inductive EWordOrder
  | BigEndian
  | LittleEndian
  deriving DecidableEq, Repr

namespace Modbus

end Modbus

/-! ## Device queries (ir_device_query.cpp) -/

namespace IR

/-- Modelled from the spec: the query status as `ir_device_query.cpp` uses it, with the
two values the source names (`NotExecuted`, `Ok`) and the three error statuses of the
spec (unknown, transient, permanent). -/
inductive EQueryStatus
  | NotExecuted
  | Ok
  | UnknownError
  | DeviceTransientError
  | DevicePermanentError
  deriving DecidableEq, Repr

inductive EQueryOperation
  | Read
  | Write
  deriving DecidableEq, Repr

/-- What the query reads of a memory block: `Address`, `Type.Index` and `Size`. -/
structure TMemoryBlock where
  Address : Nat
  TypeIndex : Nat
  Size : Nat
  deriving DecidableEq, Repr, Inhabited

/-- Modelled from the spec: the state of a register (`virtual_register.h` is absent):
last accepted raw value, value to write, the read-error and write-error bits and the
did-read-at-least-once flag, with the memory blocks the register lies in. -/
structure TVirtualRegister where
  Id : Nat
  MemoryBlocks : List TMemoryBlock
  CurrentValue : Nat
  ValueToWrite : Nat
  ReadError : Bool
  WriteError : Bool
  DidRead : Bool
  Enabled : Bool
  deriving DecidableEq, Repr

namespace TVirtualRegister

/-- Modelled from the spec: `UpdateReadError(error)` sets the read-error bit. -/
def UpdateReadError (reg : TVirtualRegister) (error : Bool) : TVirtualRegister :=
  { reg with ReadError := error }

/-- Modelled from the spec: `UpdateWriteError(error)` sets the write-error bit. -/
def UpdateWriteError (reg : TVirtualRegister) (error : Bool) : TVirtualRegister :=
  { reg with WriteError := error }

/-- Modelled from the spec: `AcceptDeviceValue(value)` copies the decoded value into the
register state; a successful read clears the read error. -/
def AcceptDeviceValue (reg : TVirtualRegister) (value : Nat) : TVirtualRegister :=
  { reg with CurrentValue := value, DidRead := true, ReadError := false }

/-- Modelled from the spec: `AcceptWriteValue()` marks the register as successfully
written (clears the write error); the written value becomes the current one. -/
def AcceptWriteValue (reg : TVirtualRegister) : TVirtualRegister :=
  { reg with CurrentValue := reg.ValueToWrite, WriteError := false }

end TVirtualRegister

/-- What the query reads of a memory view: its `Size`, the bytes `memoryView[mb]` of a
block and the value `ReadValue(reg->GetValueDesc())` of a register. -/
structure TIRDeviceMemoryView where
  Size : Nat
  bytesOf : TMemoryBlock → List Nat
  ReadValue : TVirtualRegister → Nat

/-- The fields of `TIRDeviceQuery`. -/
structure TIRDeviceQuery where
  MemoryBlockRange : List TMemoryBlock
  VirtualRegisters : List TVirtualRegister
  HasHoles : Bool
  Operation : EQueryOperation
  Status : EQueryStatus
  AbleToSplit : Bool
  deriving DecidableEq, Repr

/-- The loop of `DetectHoles` with `prev` the address of the block before. -/
def detectHolesFrom : Int → List TMemoryBlock → Bool
  | _, [] => false
  | prev, mb :: rest =>
    if prev ≥ 0 ∧ (mb.Address : Int) - prev > 1 then true
    else detectHolesFrom (mb.Address : Int) rest

/-- `DetectHoles(memoryBlockRange)`: `prev` starts at -1. -/
def DetectHoles (memoryBlockRange : List TMemoryBlock) : Bool :=
  detectHolesFrom (-1) memoryBlockRange

/-- `IsSameTypeAndSize(memoryBlockRange)`. -/
def IsSameTypeAndSize (memoryBlockRange : List TMemoryBlock) : Bool :=
  let typeIndex := (memoryBlockRange.headD default).TypeIndex
  let size := (memoryBlockRange.headD default).Size
  memoryBlockRange.all (fun mb => mb.TypeIndex == typeIndex && mb.Size == size)

namespace TIRDeviceQuery

/-- The constructor `TIRDeviceQuery(virtualRegisters, operation)` over the memory block
range `GetMemoryBlockRange` yields (its construction lies outside `src/`); `none` is the
failed `assert(IsSameTypeAndSize(MemoryBlockRange))`, or an empty range. -/
def construct (memoryBlockRange : List TMemoryBlock) (virtualRegisters : List TVirtualRegister)
    (operation : EQueryOperation) : Option TIRDeviceQuery :=
  if memoryBlockRange ≠ [] ∧ IsSameTypeAndSize memoryBlockRange = true then
    some
      { MemoryBlockRange := memoryBlockRange
        VirtualRegisters := virtualRegisters
        HasHoles := DetectHoles memoryBlockRange
        Operation := operation
        Status := EQueryStatus.NotExecuted
        AbleToSplit := decide (virtualRegisters.length > 1) }
  else none

def GetFirst (q : TIRDeviceQuery) : TMemoryBlock := q.MemoryBlockRange.headD default

def GetLast (q : TIRDeviceQuery) : TMemoryBlock := q.MemoryBlockRange.getLastD default

/-- `GetBlockCount()`, a `uint32_t`. -/
def GetBlockCount (q : TIRDeviceQuery) : Nat :=
  (4294967296 + q.GetLast.Address - q.GetFirst.Address + 1) % 4294967296

/-- `GetStart()`, a `uint32_t`. -/
def GetStart (q : TIRDeviceQuery) : Nat := q.GetFirst.Address % 4294967296

/-- `GetBlockSize()`, a `uint16_t`. -/
def GetBlockSize (q : TIRDeviceQuery) : Nat := q.GetFirst.Size % 65536

/-- `GetSize()`, a `uint32_t`. -/
def GetSize (q : TIRDeviceQuery) : Nat := (q.GetBlockSize * q.GetBlockCount) % 4294967296

/-- `SetStatus(status)`. -/
def SetStatus (q : TIRDeviceQuery) (status : EQueryStatus) : TIRDeviceQuery :=
  let q := { q with Status := status }
  if status ≠ EQueryStatus.NotExecuted ∧ status ≠ EQueryStatus.Ok then
    match q.Operation with
    | EQueryOperation.Read =>
      { q with VirtualRegisters := q.VirtualRegisters.map (fun (r : TVirtualRegister) => r.UpdateReadError true) }
    | EQueryOperation.Write =>
      { q with VirtualRegisters := q.VirtualRegisters.map (fun (r : TVirtualRegister) => r.UpdateWriteError true) }
  else q

def GetStatus (q : TIRDeviceQuery) : EQueryStatus := q.Status

def ResetStatus (q : TIRDeviceQuery) : TIRDeviceQuery := q.SetStatus EQueryStatus.NotExecuted

def IsExecuted (q : TIRDeviceQuery) : Bool := q.Status != EQueryStatus.NotExecuted

def IsAbleToSplit (q : TIRDeviceQuery) : Bool := q.AbleToSplit

def SetAbleToSplit (q : TIRDeviceQuery) (ableToSplit : Bool) : TIRDeviceQuery :=
  { q with AbleToSplit := ableToSplit }

/-- `FinalizeRead(memoryView)`: the query after the call and the `CacheIfNeeded` calls
made, block by block; `none` is a failed `assert`. -/
def FinalizeRead (q : TIRDeviceQuery) (memoryView : TIRDeviceMemoryView) :
    Option (TIRDeviceQuery × List (TMemoryBlock × List Nat)) :=
  if q.Operation = EQueryOperation.Read ∧ q.GetStatus = EQueryStatus.NotExecuted ∧
      q.GetSize = memoryView.Size then
    let cached := q.MemoryBlockRange.map (fun mb => (mb, memoryView.bytesOf mb))
    let q := { q with VirtualRegisters :=
      q.VirtualRegisters.map (fun (r : TVirtualRegister) => r.AcceptDeviceValue (memoryView.ReadValue r)) }
    some (q.SetStatus EQueryStatus.Ok, cached)
  else none

/-- `TIRDeviceValueQuery::FinalizeWrite(memoryView)`. -/
def FinalizeWrite (q : TIRDeviceQuery) (memoryView : TIRDeviceMemoryView) :
    Option (TIRDeviceQuery × List (TMemoryBlock × List Nat)) :=
  if q.Operation = EQueryOperation.Write ∧ q.GetStatus = EQueryStatus.NotExecuted then
    let cached := q.MemoryBlockRange.map (fun mb => (mb, memoryView.bytesOf mb))
    let q := { q with VirtualRegisters := q.VirtualRegisters.map (fun (r : TVirtualRegister) => r.AcceptWriteValue) }
    some (q.SetStatus EQueryStatus.Ok, cached)
  else none

end TIRDeviceQuery

/-- `std::set::insert(first, last)` on a `TPSet<PMemoryBlock>` held as a list without
repetitions. -/
def setInsertRange (set : List TMemoryBlock) (range : List TMemoryBlock) : List TMemoryBlock :=
  range.foldl (fun acc mb => if mb ∈ acc then acc else acc ++ [mb]) set

/-- `GetMemoryBlockSet(virtualRegisters)`: the body of the loop declares a set of its
own, named `memoryBlocks` like the result set, and inserts the blocks of the register
into that one; the result set declared before the loop is returned as it was. -/
def GetMemoryBlockSet (virtualRegisters : List TVirtualRegister) : List TMemoryBlock :=
  let memoryBlocks : List TMemoryBlock := []
  virtualRegisters.foldl
    (fun (outer : List TMemoryBlock) (reg : TVirtualRegister) =>
      let memoryBlocks := reg.MemoryBlocks
      let _inserted := setInsertRange memoryBlocks memoryBlocks
      outer)
    memoryBlocks

/-- The constructor `TIRDeviceValueQuery(virtualRegisters, operation)`: the base
constructor, `MemoryBlocks(GetMemoryBlockSet(VirtualRegisters))`, and
`assert(!MemoryBlocks.empty())`; `none` is a failed `assert`. -/
def TIRDeviceValueQuery.construct (memoryBlockRange : List TMemoryBlock)
    (virtualRegisters : List TVirtualRegister) (operation : EQueryOperation) :
    Option (TIRDeviceQuery × List TMemoryBlock) :=
  match TIRDeviceQuery.construct memoryBlockRange virtualRegisters operation with
  | none => none
  | some q =>
    let MemoryBlocks := GetMemoryBlockSet q.VirtualRegisters
    if MemoryBlocks ≠ [] then some (q, MemoryBlocks) else none

end IR

/-! ## Serial client (serial_client.cpp) -/

/-- What the serial client and the plan builder read of a register: its slave (the
interned `PSlaveEntry` pointer as a number, 0 for the null pointer), `Type`, `Address`,
`Width()` and `PollInterval` (milliseconds). -/
structure TRegister where
  Slave : Nat
  RegType : Int
  Address : Int
  Width : Int
  PollInterval : Int
  deriving DecidableEq, Repr, Inhabited

/-- The comparator `cur_regs.sort` is called with. -/
def registerLess (a b : TRegister) : Bool :=
  decide (a.RegType < b.RegType) ||
    (decide (a.RegType = b.RegType) && decide (a.Address < b.Address))

/-- `cur_regs.sort(less)`: `std::list::sort` is stable, so the result is the one list
that has the elements of `cur_regs`, no element before one that is less, and equivalent
elements in their original order; insertion from the back computes it. -/
def sortRegisters (cur_regs : List TRegister) : List TRegister :=
  cur_regs.insertionSort (fun a b => registerLess b a = false)

/-- The loop of `PrepareRegisterRanges` from the iterator position on: `calls` collects
the calls `GetDevice(last_slave)->SplitRegisterList(cur_regs)` made so far, each as the
slave with the sorted list. -/
def prepareRegisterRangesFrom :
    List TRegister → Nat → List TRegister → List (Nat × List TRegister) →
      List (Nat × List TRegister)
  | [], last_slave, cur_regs, calls =>
    if cur_regs ≠ [] then calls ++ [(last_slave, sortRegisters cur_regs)] else calls
  | reg :: rest, last_slave, cur_regs, calls =>
    if reg.Slave ≠ last_slave ∧ cur_regs ≠ [] then
      prepareRegisterRangesFrom rest reg.Slave [reg]
        (calls ++ [(last_slave, sortRegisters cur_regs)])
    else
      prepareRegisterRangesFrom rest reg.Slave (cur_regs ++ [reg]) calls

/-- The calls of `SplitRegisterList` that `PrepareRegisterRanges` makes for `RegList`. -/
def splitRegisterListCalls (RegList : List TRegister) : List (Nat × List TRegister) :=
  prepareRegisterRangesFrom RegList 0 [] []

/-- `PrepareRegisterRanges()`: the new `RegRanges`; `SplitRegisterList` is the plan
builder of the device of a slave. -/
def PrepareRegisterRanges {PRegisterRange : Type}
    (SplitRegisterList : Nat → List TRegister → List PRegisterRange)
    (RegList : List TRegister) : List PRegisterRange :=
  ((splitRegisterListCalls RegList).map (fun c => SplitRegisterList c.1 c.2)).flatten

/-- `TRegisterHandler::TErrorState`. -/
inductive TErrorState
  | NoError
  | WriteError
  | ReadError
  | ReadWriteError
  | UnknownErrorState
  | ErrorStateUnchanged
  deriving DecidableEq, Repr

/-- Modelled from the spec: the register handler (`register_handler.h` is absent) as far
as the error events go: the current error state, one of none, read-error, write-error,
read+write-error and unknown, whether the register is polled and whether a value waits
to be written. -/
structure TRegisterHandler where
  ErrorState : TErrorState
  Poll : Bool
  Dirty : Bool
  deriving DecidableEq, Repr

namespace TRegisterHandler

def NeedToPoll (h : TRegisterHandler) : Bool := h.Poll

def NeedToFlush (h : TRegisterHandler) : Bool := h.Dirty

def CurrentErrorState (h : TRegisterHandler) : TErrorState := h.ErrorState

/-- Modelled from the spec: the read-error bit of the state vector is set or cleared; the
result is the new state when the state actually changes and `ErrorStateUnchanged` when
it does not. -/
def UpdateReadError (h : TRegisterHandler) (error : Bool) : TRegisterHandler × TErrorState :=
  let newState :=
    if error then
      (if h.ErrorState = TErrorState.WriteError ∨ h.ErrorState = TErrorState.ReadWriteError
        then TErrorState.ReadWriteError else TErrorState.ReadError)
    else
      (if h.ErrorState = TErrorState.ReadWriteError ∨ h.ErrorState = TErrorState.WriteError
        then TErrorState.WriteError else TErrorState.NoError)
  if h.ErrorState = newState then (h, TErrorState.ErrorStateUnchanged)
  else ({ h with ErrorState := newState }, newState)

/-- Modelled from the spec: the write-error bit of the state vector is set or cleared,
with the same result convention as `UpdateReadError`. -/
def UpdateWriteError (h : TRegisterHandler) (error : Bool) : TRegisterHandler × TErrorState :=
  let newState :=
    if error then
      (if h.ErrorState = TErrorState.ReadError ∨ h.ErrorState = TErrorState.ReadWriteError
        then TErrorState.ReadWriteError else TErrorState.WriteError)
    else
      (if h.ErrorState = TErrorState.ReadWriteError ∨ h.ErrorState = TErrorState.ReadError
        then TErrorState.ReadError else TErrorState.NoError)
  if h.ErrorState = newState then (h, TErrorState.ErrorStateUnchanged)
  else ({ h with ErrorState := newState }, newState)

/-- Modelled from the spec: `AcceptDeviceValue(new_value, ok, &changed)` as far as the
error state goes: a failed read sets the read error, a good one clears it. -/
def AcceptDeviceValue (h : TRegisterHandler) (ok : Bool) : TRegisterHandler × TErrorState :=
  h.UpdateReadError (!ok)

/-- Modelled from the spec: `Flush()` writes the waiting value to the device; `ok` tells
whether the device accepted it; a failed write sets the write error, a good one clears
it. -/
def Flush (h : TRegisterHandler) (ok : Bool) : TRegisterHandler × TErrorState :=
  ({ h with Dirty := false } : TRegisterHandler).UpdateWriteError (!ok)

/-- Modelled from the spec: `SetTextValue(value)` leaves a value waiting to be written. -/
def SetTextValue (h : TRegisterHandler) : TRegisterHandler := { h with Dirty := true }

end TRegisterHandler

/-- The state of `TSerialClient` the events depend on: the `Handlers` map (by register),
the calls of `ErrorCallback` made so far and the calls of the value-changed `Callback`
made so far, oldest first. -/
structure TSerialClient where
  Handlers : Nat → TRegisterHandler
  errorCalls : List (Nat × TErrorState)
  valueCalls : List Nat

namespace TSerialClient

/-- `MaybeUpdateErrorState(reg, state)`. -/
def MaybeUpdateErrorState (c : TSerialClient) (reg : Nat) (state : TErrorState) :
    TSerialClient :=
  if state ≠ TErrorState.UnknownErrorState ∧ state ≠ TErrorState.ErrorStateUnchanged then
    { c with errorCalls := c.errorCalls ++ [(reg, state)] }
  else c

/-- The body of the loop of `Flush()` for one register; `ok` is the outcome of the
device write. -/
def flushRegister (c : TSerialClient) (reg : Nat) (ok : Bool) : TSerialClient :=
  let handler := c.Handlers reg
  if !handler.NeedToFlush then c
  else
    let res := handler.Flush ok
    ({ c with Handlers := Function.update c.Handlers reg res.1 } : TSerialClient).MaybeUpdateErrorState
      reg res.2

/-- The value callback `Cycle()` hands to `MapRange`; `changed` is what
`AcceptDeviceValue` leaves in its out-parameter (whether the accepted value differs from
the one before; the values a handler keeps are outside `src/`). -/
def cycleValue (c : TSerialClient) (reg : Nat) (changed : Bool) : TSerialClient :=
  let handler := c.Handlers reg
  if !handler.NeedToPoll then c
  else
    let res := handler.AcceptDeviceValue true
    let c := ({ c with Handlers := Function.update c.Handlers reg res.1 } :
      TSerialClient).MaybeUpdateErrorState reg res.2
    if changed && (c.Handlers reg).CurrentErrorState != TErrorState.ReadError &&
        (c.Handlers reg).CurrentErrorState != TErrorState.ReadWriteError then
      { c with valueCalls := c.valueCalls ++ [reg] }
    else c

/-- The error callback `Cycle()` hands to `MapRange` (`changed` is unused there). -/
def cycleError (c : TSerialClient) (reg : Nat) : TSerialClient :=
  let handler := c.Handlers reg
  if !handler.NeedToPoll then c
  else
    let res := handler.AcceptDeviceValue false
    ({ c with Handlers := Function.update c.Handlers reg res.1 } : TSerialClient).MaybeUpdateErrorState
      reg res.2

/-- `SetTextValue(reg, value)`. -/
def SetTextValue (c : TSerialClient) (reg : Nat) : TSerialClient :=
  { c with Handlers := Function.update c.Handlers reg (c.Handlers reg).SetTextValue }

end TSerialClient

/-- One outcome the scheduler meets: a register of a polled range read well (with the
`changed` flag of the handler) or badly, a waiting write flushed well or badly, a value
set from outside. -/
inductive TClientEvent
  | pollOk (reg : Nat) (changed : Bool)
  | pollFailed (reg : Nat)
  | flushed (reg : Nat) (ok : Bool)
  | valueSet (reg : Nat)
  deriving DecidableEq, Repr

/-- The client after one outcome. -/
def TSerialClient.handle (c : TSerialClient) : TClientEvent → TSerialClient
  | TClientEvent.pollOk reg changed => c.cycleValue reg changed
  | TClientEvent.pollFailed reg => c.cycleError reg
  | TClientEvent.flushed reg ok => c.flushRegister reg ok
  | TClientEvent.valueSet reg => c.SetTextValue reg

/-- The client after a sequence of outcomes. -/
def TSerialClient.run (c : TSerialClient) (events : List TClientEvent) : TSerialClient :=
  events.foldl TSerialClient.handle c

/-! ## Plan builder -/

/-- The limits of `TDeviceConfig` (serial_config.h) the plan builder reads, with their
defaults. -/
structure TDeviceConfig where
  MaxRegHole : Int := 0
  MaxBitHole : Int := 0
  MaxReadRegisters : Int := 1
  deriving DecidableEq, Repr

/-- Modelled from the spec: an emitted query of the plan, as the run of registers it
covers, in order. -/
structure TRegisterRange where
  regs : List TRegister
  deriving DecidableEq, Repr

namespace TRegisterRange

/-- Modelled from the spec: the start address of a query, the address of its first
register. -/
def GetStart (range : TRegisterRange) : Int := (range.regs.headD default).Address

end TRegisterRange

/-- Modelled from the spec: the maximal hole for the kind of a register type: the
device's max-hole-bits for single-bit kinds, its max-hole-registers for the others;
`singleBit` tells the single-bit types. -/
def maxHoleFor (singleBit : Int → Bool) (deviceConfig : TDeviceConfig) (type : Int) : Int :=
  if singleBit type then deviceConfig.MaxBitHole else deviceConfig.MaxRegHole

/-- Modelled from the spec: the device's maximal element count for the kind of a
register type: the protocol ceiling `MAX_READ_BITS` for single-bit kinds, for the others
the device's max-read-registers when it lies in 1..`MAX_READ_REGISTERS` and the protocol
ceiling otherwise (as the commented-out `Modbus::SplitRegisterList` has it). -/
def maxCountFor (singleBit : Int → Bool) (deviceConfig : TDeviceConfig) (type : Int) : Int :=
  if singleBit type then (Modbus.MAX_READ_BITS : Int)
  else if deviceConfig.MaxReadRegisters > 0 ∧
      deviceConfig.MaxReadRegisters ≤ (Modbus.MAX_READ_REGISTERS : Int) then
    deviceConfig.MaxReadRegisters
  else (Modbus.MAX_READ_REGISTERS : Int)

/-- Modelled from the spec: the test "extend the current run with the next descriptor",
for a run that starts with `start` and ends with `last`: same type, same poll interval,
address gap to the end of the run (not negative) at most the maximal hole for the kind,
element count of the merged run at most the device's maximum. -/
def extendsRun (singleBit : Int → Bool) (deviceConfig : TDeviceConfig)
    (start last reg : TRegister) : Bool :=
  decide (reg.RegType = last.RegType) &&
  decide (reg.PollInterval = last.PollInterval) &&
  decide (0 ≤ reg.Address - (last.Address + last.Width)) &&
  decide (reg.Address - (last.Address + last.Width) ≤
    maxHoleFor singleBit deviceConfig reg.RegType) &&
  decide (reg.Address + reg.Width - start.Address ≤
    maxCountFor singleBit deviceConfig reg.RegType)

/-- Modelled from the spec: the walk over the sorted list with the current run `run`
(not empty): the run is extended with the next descriptor when it can be, and otherwise
a query over it is emitted and a new run starts. -/
def splitRuns (singleBit : Int → Bool) (deviceConfig : TDeviceConfig) :
    List TRegister → List TRegister → List TRegisterRange
  | run, [] => [⟨run⟩]
  | run, reg :: rest =>
    if extendsRun singleBit deviceConfig (run.headD default) (run.getLastD default) reg then
      splitRuns singleBit deviceConfig (run ++ [reg]) rest
    else
      ⟨run⟩ :: splitRuns singleBit deviceConfig [reg] rest

/-- Modelled from the spec: the plan builder of §4.3 for the register list of one
device, sorted by the caller (`PrepareRegisterRanges`). The live builder is not part of
`src/`. -/
def SplitRegisterList (singleBit : Int → Bool) (deviceConfig : TDeviceConfig)
    (reg_list : List TRegister) : List TRegisterRange :=
  match reg_list with
  | [] => []
  | front :: rest => splitRuns singleBit deviceConfig [front] rest

/-! ## Serial client: registration, connection and device access -/

/-- Modelled from the spec: the slave of a query of the plan (`range->Slave()`), the one
of its registers, which are all on the same device. -/
def TRegisterRange.Slave (range : TRegisterRange) : Nat := (range.regs.headD default).Slave

/-- The members of `TSerialClient` that registration, connection and device access work
on. A slave (`PSlaveEntry`) is a number and stands for the device created for it too;
registers are interned, so a register is told by its fields; of the maps `ConfigMap`,
`DeviceMap` and `Handlers` the keys are kept. `prepareCalls` collects the calls of
`dev->Prepare()`, oldest first. -/
structure TSerialClientSetup where
  Active : Bool
  PortOpen : Bool
  PollInterval : Int
  ConfigMap : List Nat
  DeviceMap : List Nat
  Handlers : List TRegister
  RegList : List TRegister
  RegRanges : List TRegisterRange
  LastAccessedDevice : Option Nat
  prepareCalls : List Nat
  deriving DecidableEq, Repr

/-- How a poll cycle ends: an exception leaves `Cycle`, the wait computation divides by an
empty `RegList`, or the loop runs through, with the waits in microseconds range by
range. -/
inductive TCycleResult
  | raised (e : TException)
  | divisionByZero
  | completed (waits : List Int)
  deriving DecidableEq, Repr

namespace TSerialClientSetup

/-- The constructor `TSerialClient(port)`; `portOpen` is `port->IsOpen()`. -/
def create (portOpen : Bool) : TSerialClientSetup :=
  { Active := false, PortOpen := portOpen, PollInterval := 20, ConfigMap := [], DeviceMap := [],
    Handlers := [], RegList := [], RegRanges := [], LastAccessedDevice := none,
    prepareCalls := [] }

/-- `Disconnect()`. -/
def Disconnect (c : TSerialClientSetup) : TSerialClientSetup :=
  { c with PortOpen := false, Active := false }

/-- `GetDevice(entry)`; `factory entry` is what `TSerialDeviceFactory::CreateDevice` does
for the slave: `none` when it returns the device, `some what` when it throws a
`TSerialDeviceException`. The right-hand side of `DeviceMap[entry] = ...` is evaluated
first. -/
def GetDevice (c : TSerialClientSetup) (factory : Nat → Option String) (entry : Nat) :
    TSerialClientSetup × Except TException Nat :=
  if entry ∈ c.DeviceMap then (c, Except.ok entry)
  else if entry ∉ c.ConfigMap then
    (c, Except.error (TException.TSerialDeviceException "slave not found"))
  else
    match factory entry with
    | none => ({ c with DeviceMap := c.DeviceMap ++ [entry] }, Except.ok entry)
    | some what => (c.Disconnect, Except.error (TException.TSerialDeviceException what))

/-- `AddDevice(device_config)` for the config of a slave. -/
def AddDevice (c : TSerialClientSetup) (slave : Nat) :
    TSerialClientSetup × Except TException Unit :=
  if c.Active then
    (c, Except.error (TException.TSerialDeviceException
      "can\x27t add registers to the active client"))
  else
    ({ c with ConfigMap := if slave ∈ c.ConfigMap then c.ConfigMap else c.ConfigMap ++ [slave] },
      Except.ok ())

/-- `AddRegister(reg)`; `CreateRegisterHandler(reg)` calls `GetDevice(reg->Slave)` and is
evaluated before `Handlers[reg]`. -/
def AddRegister (c : TSerialClientSetup) (factory : Nat → Option String) (reg : TRegister) :
    TSerialClientSetup × Except TException Unit :=
  if c.Active then
    (c, Except.error (TException.TSerialDeviceException
      "can\x27t add registers to the active client"))
  else if reg ∈ c.Handlers then
    (c, Except.error (TException.TSerialDeviceException "duplicate register"))
  else
    match c.GetDevice factory reg.Slave with
    | (c, Except.error e) => (c, Except.error e)
    | (c, Except.ok _) =>
      ({ c with Handlers := c.Handlers ++ [reg], RegList := c.RegList ++ [reg] }, Except.ok ())

/-- The calls `GetDevice(last_slave)->SplitRegisterList(cur_regs)` of
`PrepareRegisterRanges()` one after the other, each appending its ranges to `RegRanges`;
`SplitRegisterList` is the plan builder of the device of a slave. -/
def prepareRangesFrom (factory : Nat → Option String)
    (SplitRegisterList : Nat → List TRegister → List TRegisterRange) :
    List (Nat × List TRegister) → TSerialClientSetup →
      TSerialClientSetup × Except TException Unit
  | [], c => (c, Except.ok ())
  | (last_slave, cur_regs) :: rest, c =>
    match c.GetDevice factory last_slave with
    | (c, Except.error e) => (c, Except.error e)
    | (c, Except.ok dev) =>
      prepareRangesFrom factory SplitRegisterList rest
        { c with RegRanges := c.RegRanges ++ SplitRegisterList dev cur_regs }

/-- `PrepareRegisterRanges()` on the client. -/
def PrepareRegisterRanges (c : TSerialClientSetup) (factory : Nat → Option String)
    (SplitRegisterList : Nat → List TRegister → List TRegisterRange) :
    TSerialClientSetup × Except TException Unit :=
  prepareRangesFrom factory SplitRegisterList (splitRegisterListCalls c.RegList)
    { c with RegRanges := [] }

/-- `Connect()`; `portOpens` is what `Port->Open()` does: `none` when it returns, `some e`
when it throws `e`. -/
def Connect (c : TSerialClientSetup) (portOpens : Option TException)
    (factory : Nat → Option String)
    (SplitRegisterList : Nat → List TRegister → List TRegisterRange) :
    TSerialClientSetup × Except TException Unit :=
  if c.Active then (c, Except.ok ())
  else if c.Handlers.length = 0 then
    (c, Except.error (TException.TSerialDeviceException "no registers defined"))
  else
    match (if !c.PortOpen then portOpens else none) with
    | some e => (c, Except.error e)
    | none =>
      match ({ c with PortOpen := true } : TSerialClientSetup).PrepareRegisterRanges factory
          SplitRegisterList with
      | (c, Except.error e) => (c, Except.error e)
      | (c, Except.ok _) => ({ c with Active := true }, Except.ok ())

/-- `PrepareToAccessDevice(dev)`. -/
def PrepareToAccessDevice (c : TSerialClientSetup) (dev : Nat) : TSerialClientSetup :=
  if some dev ≠ c.LastAccessedDevice then
    { c with LastAccessedDevice := some dev, prepareCalls := c.prepareCalls ++ [dev] }
  else c

/-- `Flush()` as far as the devices go: every register of `RegList` whose handler needs
to flush has its device accessed; `needToFlush` tells those registers. -/
def Flush (c : TSerialClientSetup) (needToFlush : TRegister → Bool) : TSerialClientSetup :=
  (c.RegList.filter needToFlush).foldl (fun c reg => c.PrepareToAccessDevice reg.Slave) c

/-- The value of an `int` expression: the mathematical result reduced to the signed
32-bit range, as the machine multiplication leaves it. -/
def wrapInt32 (x : Int) : Int :=
  (x + 2147483648) % 4294967296 - 2147483648

/-- The conversion of an unsigned 64-bit value to the signed 64-bit count of
`std::chrono::microseconds`. -/
def wrapInt64 (x : Int) : Int :=
  (x + 9223372036854775808) % 18446744073709551616 - 9223372036854775808

/-- The wait of `Cycle()` before a range, `PollInterval * 1000 / RegList.size()`
microseconds: `PollInterval * 1000` is a product of two `int`, it is converted to
`size_t` for the unsigned division by `RegList.size()`, and the quotient becomes the
signed 64-bit count of `std::chrono::microseconds`. -/
def waitMicroseconds (PollInterval : Int) (size : Nat) : Int :=
  wrapInt64 (((wrapInt32 (PollInterval * 1000)) % 18446744073709551616) / (size : Int))

/-- The loop of `Cycle()` over `RegRanges`, from range number `i` on: the wait, the
`Flush()` calls made while waiting (`notified i` has one entry for each, telling the
registers that need to flush), and the access to the device of the range. -/
def cycleRanges (factory : Nat → Option String) (notified : Nat → List (TRegister → Bool)) :
    List TRegisterRange → Nat → List Int → TSerialClientSetup →
      TSerialClientSetup × TCycleResult
  | [], _, waits, c => (c, TCycleResult.completed waits)
  | range :: rest, i, waits, c =>
    if c.RegList.length = 0 then (c, TCycleResult.divisionByZero)
    else
      let wait := waitMicroseconds c.PollInterval c.RegList.length
      let c := (notified i).foldl (fun c needToFlush => c.Flush needToFlush) c
      match c.GetDevice factory range.Slave with
      | (c, Except.error e) => (c, TCycleResult.raised e)
      | (c, Except.ok dev) =>
        cycleRanges factory notified rest (i + 1) (waits ++ [wait]) (c.PrepareToAccessDevice dev)

/-- `Cycle()` as far as connection, waits and device accesses go. -/
def Cycle (c : TSerialClientSetup) (portOpens : Option TException)
    (factory : Nat → Option String)
    (SplitRegisterList : Nat → List TRegister → List TRegisterRange)
    (notified : Nat → List (TRegister → Bool)) : TSerialClientSetup × TCycleResult :=
  match c.Connect portOpens factory SplitRegisterList with
  | (c, Except.error e) => (c, TCycleResult.raised e)
  | (c, Except.ok _) => cycleRanges factory notified c.RegRanges 0 [] c

end TSerialClientSetup

/-! ## Specification-side definitions -/

/-- What is used of the rounding to the nearest `double` (IEEE 754 binary64): within the
normal range the relative error is at most 2^-53, and integers below 2^53 in magnitude
are held exactly. -/
def IsDoubleRounding (fl : ℚ → ℚ) : Prop :=
  (∀ q : ℚ, 1 / 2 ^ 1022 ≤ |q| → |q| ≤ 2 ^ 1023 → |fl q - q| ≤ |q| / 2 ^ 53) ∧
  (∀ n : Int, |n| < 2 ^ 53 → fl (n : ℚ) = (n : ℚ))

/-- The read function code of a register kind as the protocol names it:
0x01 coils, 0x02 discrete inputs, 0x03 holding registers, 0x04 input registers. -/
def readFunctionCode : Modbus.RegisterType → Nat
  | Modbus.RegisterType.REG_COIL => 0x01
  | Modbus.RegisterType.REG_DISCRETE => 0x02
  | Modbus.RegisterType.REG_HOLDING => 0x03
  | Modbus.RegisterType.REG_HOLDING_SINGLE => 0x03
  | Modbus.RegisterType.REG_HOLDING_MULTI => 0x03
  | Modbus.RegisterType.REG_INPUT => 0x04

/-- The 16-bit checksum a buffer holds at byte offsets `i` and `i + 1`, high byte first. -/
def storedChecksum (buf : List Nat) (i : Nat) : Nat :=
  byteAt buf i * 256 + byteAt buf (i + 1)

/-- One exchange of `WriteRegister` goes through: `ReadFrame` returns a positive result
and the response passes `CheckResponse` and `ParseWriteResponse`. -/
def acceptedWrite (crc : List Nat → Nat) (request : List Nat) : TReadFrame → Bool
  | TReadFrame.raised _ => false
  | TReadFrame.returned rc buf =>
    decide (rc > 0) &&
    (match ModbusRTU.CheckResponse crc ModbusRTU.TResponseKind.TWriteResponse request
        (responseBuffer ModbusRTU.WRITE_RESPONSE_SIZE buf) with
      | Except.ok _ => true
      | Except.error _ => false) &&
    (match Modbus.ParseWriteResponse
        (ModbusRTU.PDU (responseBuffer ModbusRTU.WRITE_RESPONSE_SIZE buf)) with
      | Except.ok _ => true
      | Except.error _ => false)

/-- The exchanges for the requests `pre`, from `ReadFrame` call `i` on, all go through. -/
def acceptedWritesFrom (crc : List Nat → Nat) (readFrame : Nat → TReadFrame) :
    Nat → List (List Nat) → Bool
  | _, [] => true
  | i, request :: rest =>
    acceptedWrite crc request (readFrame i) && acceptedWritesFrom crc readFrame (i + 1) rest

/-- The port after the requests `pre` were sent, each behind its guard sleep. -/
def sentAll (guardInterval : Nat) (pre : List (List Nat)) (port : TPort) : TPort :=
  pre.foldl (fun p request => (p.guardSleep guardInterval).WriteBytes request) port

/-- Word `k` (counted from the base address) of a value of `w` 16-bit words in the given
word order: big-endian puts bits [16(w-1-k), 16(w-k)) at offset `k`, little-endian puts
bits [16k, 16(k+1)) there. -/
def wordAtOffset (order : EWordOrder) (w value k : Nat) : Nat :=
  match order with
  | EWordOrder.BigEndian => value / 2 ^ (16 * (w - 1 - k)) % 65536
  | EWordOrder.LittleEndian => value / 2 ^ (16 * k) % 65536

/-- The RTU frame of a write-single-register request (function 0x06) for a 16-bit
address and a 16-bit value, high bytes first, closed by the checksum of its first six
bytes. -/
def singleRegisterWriteFrame (crc : List Nat → Nat) (slaveId address value : Nat) : List Nat :=
  let body := [slaveId % 256, 0x06, address / 256, address % 256, value / 256, value % 256]
  body ++ [crc body % 65536 / 256, crc body % 65536 % 256]

/-- Non-decreasing order of (type, address). -/
def typeAddressLe (a b : TRegister) : Prop :=
  a.RegType < b.RegType ∨ (a.RegType = b.RegType ∧ a.Address ≤ b.Address)

/-- The states `ErrorCallback` was called with for one register, oldest first. -/
def errorStatesOf (reg : Nat) (errorCalls : List (Nat × TErrorState)) : List TErrorState :=
  (errorCalls.filter (fun c => decide (c.1 = reg))).map Prod.snd

/-- What the client relies on in a handler result: either nothing changed and the result
is `ErrorStateUnchanged`, or the result is the new state of the handler, which differs
from the state before and is a proper state. -/
def reportsTransition (before : TRegisterHandler) (res : TRegisterHandler × TErrorState) :
    Prop :=
  (res.2 = TErrorState.ErrorStateUnchanged ∧ res.1.ErrorState = before.ErrorState) ∨
  (res.2 = res.1.ErrorState ∧ res.1.ErrorState ≠ before.ErrorState ∧
    res.2 ≠ TErrorState.UnknownErrorState ∧ res.2 ≠ TErrorState.ErrorStateUnchanged)

/-- The calls of `ErrorCallback` made so far agree with the handlers: for every register
no two calls in a row carry the same state, and the state of the last call is the
current state of the handler. -/
def callsFollowHandlers (c : TSerialClient) : Prop :=
  ∀ reg, List.Chain' (fun a b => a ≠ b) (errorStatesOf reg c.errorCalls) ∧
    ∀ s, (errorStatesOf reg c.errorCalls).getLast? = some s → (c.Handlers reg).ErrorState = s

/-- The register an outcome is about. -/
def TClientEvent.register : TClientEvent → Nat
  | TClientEvent.pollOk reg _ => reg
  | TClientEvent.pollFailed reg => reg
  | TClientEvent.flushed reg _ => reg
  | TClientEvent.valueSet reg => reg

/-- The checksum equation of a frame of length L: the frame has its two checksum bytes,
and (frame[L-2] << 8) + frame[L-1] is the checksum of its first L-2 bytes. -/
def satisfiesChecksum (crc : List Nat → Nat) (frame : List Nat) : Prop :=
  2 ≤ frame.length ∧
  storedChecksum frame (frame.length - 2) = crc (frame.take (frame.length - 2))

/-- The union of the memory blocks of all the registers of a list. -/
def memoryBlockUnion (virtualRegisters : List IR.TVirtualRegister) : List IR.TMemoryBlock :=
  virtualRegisters.foldl (fun acc reg => IR.setInsertRange acc reg.MemoryBlocks) []

/-- The states of the client reachable from a new client through `AddDevice`,
`AddRegister`, `Connect`, `Disconnect` and `Cycle`, whatever the port, the device factory,
the plan builder and the flush notifications do. -/
inductive TSerialClientSetup.Reachable : TSerialClientSetup → Prop
  | create (portOpen : Bool) : Reachable (TSerialClientSetup.create portOpen)
  | addDevice (c : TSerialClientSetup) (slave : Nat) :
      Reachable c → Reachable (c.AddDevice slave).1
  | addRegister (c : TSerialClientSetup) (factory : Nat → Option String) (reg : TRegister) :
      Reachable c → Reachable (c.AddRegister factory reg).1
  | connect (c : TSerialClientSetup) (portOpens : Option TException)
      (factory : Nat → Option String)
      (SplitRegisterList : Nat → List TRegister → List TRegisterRange) :
      Reachable c → Reachable (c.Connect portOpens factory SplitRegisterList).1
  | disconnect (c : TSerialClientSetup) : Reachable c → Reachable c.Disconnect
  | cycle (c : TSerialClientSetup) (portOpens : Option TException)
      (factory : Nat → Option String)
      (SplitRegisterList : Nat → List TRegister → List TRegisterRange)
      (notified : Nat → List (TRegister → Bool)) :
      Reachable c → Reachable (c.Cycle portOpens factory SplitRegisterList notified).1

/-- A step of the client that leaves the registered registers, the handler keys and the
poll interval as they are and does not activate the client. -/
def keepsRegistry (c c' : TSerialClientSetup) : Prop :=
  c'.RegList = c.RegList ∧ c'.Handlers = c.Handlers ∧ c'.PollInterval = c.PollInterval ∧
  (c'.Active = true → c.Active = true)

/-- A step of the client that leaves the last accessed device and the calls of the
prepare hook as they are. -/
def keepsAccess (c c' : TSerialClientSetup) : Prop :=
  c'.LastAccessedDevice = c.LastAccessedDevice ∧ c'.prepareCalls = c.prepareCalls

/-- The accesses of a sequence that call the prepare hook when it is called exactly on an
access to a device other than the one of the access before; `last` is the device of the
access before the sequence, if there was one. -/
def accessesWithPrepare : Option Nat → List Nat → List Nat
  | _, [] => []
  | last, dev :: rest =>
    (if last = some dev then [] else [dev]) ++ accessesWithPrepare (some dev) rest

/-- What the registry of the client always satisfies: no register is twice in the
register list, the registers of the list are the keys of the handler map, and an active
client has a handler. -/
def registryConsistent (c : TSerialClientSetup) : Prop :=
  c.RegList.Nodup ∧ (∀ reg, reg ∈ c.RegList ↔ reg ∈ c.Handlers) ∧
  (c.Active = true → c.Handlers ≠ [])

/-! ## Auxiliary facts -/

open Modbus ModbusRTU

theorem byteAt_PDU (msg : List Nat) (i : Nat) : byteAt (PDU msg) i = byteAt msg (i + 1) := by
  simp [byteAt, PDU, List.getD_eq_getElem?_getD, Nat.add_comm]

theorem land_127 (x : Nat) : x &&& 127 = x % 128 :=
  Nat.and_pow_two_sub_one_eq_mod x 7

theorem sizeSub_two (n : Nat) (h2 : 2 ≤ n) (hlt : n < 18446744073709551616) :
    (18446744073709551616 + n - 2) % 18446744073709551616 = n - 2 := by
  omega

theorem byteAt_lt (buf : List Nat) (hbytes : ∀ b ∈ buf, b < 256) (i : Nat) :
    byteAt buf i < 256 := by
  unfold byteAt
  rw [List.getD_eq_getElem?_getD]
  cases h : buf[i]? with
  | none => simp
  | some b => simpa using hbytes b (List.getElem?_mem h)

theorem storedChecksum_lt (buf : List Nat) (hbytes : ∀ b ∈ buf, b < 256) (i : Nat) :
    storedChecksum buf i < 65536 := by
  have h1 := byteAt_lt buf hbytes i
  have h2 := byteAt_lt buf hbytes (i + 1)
  unfold storedChecksum
  omega

/-- The four checks of `CheckResponse` as a cascade over a buffer of at least two bytes. -/
theorem CheckResponse_eq (crc : List Nat → Nat) (kind : TResponseKind) (req res : List Nat)
    (h2 : 2 ≤ res.length) (hlt : res.length < 18446744073709551616) :
    CheckResponse crc kind req res =
      if res.length ≤ GetResponsePDUSize kind res + 2 then
        Except.error (TException.TMalformedResponseError "invalid data size")
      else if storedChecksum res (GetResponsePDUSize kind res + 1) % 65536
          ≠ crc (res.take (GetResponsePDUSize kind res + 1)) % 65536 then
        Except.error TException.TInvalidCRCError
      else if byteAt req 0 ≠ byteAt res 0 then
        Except.error (TException.TSerialDeviceTransientErrorException
          "request and response slave id mismatch")
      else if byteAt req 1 ≠ byteAt res 1 % 128 then
        Except.error (TException.TSerialDeviceTransientErrorException
          "request and response function code mismatch")
      else Except.ok () := by
  unfold CheckResponse storedChecksum
  simp only [sizeSub_two _ h2 hlt, byteAt_PDU, land_127]
  have : (GetResponsePDUSize kind res ≥ res.length - 2) ↔
      res.length ≤ GetResponsePDUSize kind res + 2 := by
    omega
  simp only [this]

theorem GetFunction_read (entry : TIRDeviceQueryEntry) :
    GetFunction entry OperationType.OP_READ = some (readFunctionCode entry.RegType) := by
  cases h : entry.RegType <;> simp [GetFunction, h, readFunctionCode, FN_READ_HOLDING,
    FN_READ_INPUT, FN_READ_COILS, FN_READ_DISCRETE]

/-- The read request is always composed, and its eight bytes are these. -/
theorem ComposeReadRequest_eq (crc : List Nat → Nat) (entry : TIRDeviceQueryEntry)
    (slaveId : Nat) (shift : Int) :
    ∃ hi lo, ComposeReadRequest crc entry slaveId shift = some
      [slaveId % 256, readFunctionCode entry.RegType,
       shiftedStart entry shift % 65536 / 256 % 256, shiftedStart entry shift % 65536 % 256,
       entry.Count % 65536 / 256 % 256, entry.Count % 65536 % 256, hi, lo] := by
  simp [ComposeReadRequest, ComposeReadRequestPDU, GetFunction_read, WriteAs2Bytes,
    List.replicate]

theorem responseBuffer_length (size : Nat) (buf : List Nat) :
    (responseBuffer size buf).length = size := by
  simp [responseBuffer]

theorem InferReadResponseSize_ge (entry : TIRDeviceQueryEntry) :
    5 ≤ InferReadResponseSize entry := by
  unfold InferReadResponseSize InferReadResponsePDUSize DATA_SIZE
  split <;> omega

/-! ## Exception codes and query status -/

/-- C1: `ToQueryStatus` maps exception code 0 to OK, the codes 0x01, 0x02 and 0x03 to
the permanent error, and the codes 0x04, 0x05, 0x06, 0x08, 0x0A and 0x0B to the
transient error. -/
theorem ToQueryStatus_known_codes :
    ToQueryStatus 0x00 = EQueryStatus.OK ∧
    ToQueryStatus 0x01 = EQueryStatus.DEVICE_PERMANENT_ERROR ∧
    ToQueryStatus 0x02 = EQueryStatus.DEVICE_PERMANENT_ERROR ∧
    ToQueryStatus 0x03 = EQueryStatus.DEVICE_PERMANENT_ERROR ∧
    ToQueryStatus 0x04 = EQueryStatus.DEVICE_TRANSIENT_ERROR ∧
    ToQueryStatus 0x05 = EQueryStatus.DEVICE_TRANSIENT_ERROR ∧
    ToQueryStatus 0x06 = EQueryStatus.DEVICE_TRANSIENT_ERROR ∧
    ToQueryStatus 0x08 = EQueryStatus.DEVICE_TRANSIENT_ERROR ∧
    ToQueryStatus 0x0A = EQueryStatus.DEVICE_TRANSIENT_ERROR ∧
    ToQueryStatus 0x0B = EQueryStatus.DEVICE_TRANSIENT_ERROR := by
  decide

/-- C2, as stated, fails: the codes 0x54 and 0x07 are not among the nine listed codes,
and `ToQueryStatus` gives the transient error for them, not the unknown error. -/
theorem ToQueryStatus_unlisted_code_not_unknown :
    (0x54 ∉ [0x01, 0x02, 0x03, 0x04, 0x05, 0x06, 0x08, 0x0A, 0x0B] ∧
      ToQueryStatus 0x54 = EQueryStatus.DEVICE_TRANSIENT_ERROR ∧
      ToQueryStatus 0x54 ≠ EQueryStatus.UNKNOWN_ERROR) ∧
    (0x07 ∉ [0x01, 0x02, 0x03, 0x04, 0x05, 0x06, 0x08, 0x0A, 0x0B] ∧
      ToQueryStatus 0x07 = EQueryStatus.DEVICE_TRANSIENT_ERROR ∧
      ToQueryStatus 0x07 ≠ EQueryStatus.UNKNOWN_ERROR) := by
  decide

/-- C2, amended: for every exception code that is not one of 0x01, 0x02, 0x03, 0x04,
0x05, 0x06, 0x08, 0x0A, 0x0B, `ToQueryStatus` gives OK when the code is 0 and the
transient error otherwise; in no case the unknown error. -/
theorem ToQueryStatus_unlisted_codes (code : Nat)
    (h : code ∉ [0x01, 0x02, 0x03, 0x04, 0x05, 0x06, 0x08, 0x0A, 0x0B]) :
    ToQueryStatus code
      = (if code = 0 then EQueryStatus.OK else EQueryStatus.DEVICE_TRANSIENT_ERROR) ∧
    ToQueryStatus code ≠ EQueryStatus.UNKNOWN_ERROR := by
  simp only [List.mem_cons, List.mem_singleton, not_or, List.not_mem_nil,
    not_false_eq_true, and_true] at h
  obtain ⟨h1, h2, h3, -⟩ := h
  by_cases h0 : code = 0
  · subst h0
    decide
  · simp [ToQueryStatus, Modbus.ERR_NONE, Modbus.ERR_ILLEGAL_DATA_ADDRESS,
      Modbus.ERR_ILLEGAL_DATA_VALUE, Modbus.ERR_ILLEGAL_FUNCTION, h0, h1, h2, h3]

/-- Witness for C2 (amended) at the invalid code 0x54 of the test. -/
theorem ToQueryStatus_unlisted_codes_witness :
    0x54 ∉ [0x01, 0x02, 0x03, 0x04, 0x05, 0x06, 0x08, 0x0A, 0x0B] ∧
    (ToQueryStatus 0x54
      = (if 0x54 = 0 then EQueryStatus.OK else EQueryStatus.DEVICE_TRANSIENT_ERROR) ∧
    ToQueryStatus 0x54 ≠ EQueryStatus.UNKNOWN_ERROR) :=
  ⟨by decide, ToQueryStatus_unlisted_codes 0x54 (by decide)⟩

theorem ToQueryStatus_ne_unknown (code : Nat) :
    ToQueryStatus code ≠ EQueryStatus.UNKNOWN_ERROR := by
  unfold ToQueryStatus
  split_ifs <;> decide

/-- C3: for a read whose response passes `CheckResponse` and carries a non-zero
exception code, `Read` leaves the status `UNKNOWN_ERROR` in the entry, which is never
`ToQueryStatus` of the code; `ReadRegisterRange` on the same exchange leaves
`ToQueryStatus` of the code. -/
theorem Read_exception_response_status (crc : List Nat → Nat) (guardInterval : Nat)
    (rc : Int) (buf : List Nat) (port : TPort) (status0 : EQueryStatus) (slaveId : Nat)
    (entry : TIRDeviceQueryEntry) (shift : Int) (request : List Nat)
    (hreq : ComposeReadRequest crc entry slaveId shift = some request)
    (hrc : rc > 0)
    (hchk : CheckResponse crc TResponseKind.TReadResponse request
      (responseBuffer (InferReadResponseSize entry) buf) = Except.ok ())
    (hcode : GetExceptionCode (PDU (responseBuffer (InferReadResponseSize entry) buf)) ≠ 0) :
    (Read crc guardInterval (TReadFrame.returned rc buf) port status0 slaveId entry
      shift).Status = EQueryStatus.UNKNOWN_ERROR ∧
    ToQueryStatus (GetExceptionCode (PDU (responseBuffer (InferReadResponseSize entry) buf)))
      ≠ EQueryStatus.UNKNOWN_ERROR ∧
    (ReadRegisterRange crc guardInterval (TReadFrame.returned rc buf) port status0 slaveId
      entry shift).Status
      = ToQueryStatus (GetExceptionCode (PDU (responseBuffer (InferReadResponseSize entry) buf))) := by
  refine ⟨?_, ToQueryStatus_ne_unknown _, ?_⟩
  · simp [Read, hreq, hrc, hchk, ParseReadResponse, ThrowIfModbusException, hcode,
      TException.isTransient, TException.isInvalidCRC]
  · simp [ReadRegisterRange, hreq, hrc, hchk, ParseReadResponse, ThrowIfModbusException, hcode,
      TException.isTransient, TException.isInvalidCRC, TException.isMalformedResponse]

set_option maxRecDepth 100000 in
/-- Witness for C3: scenario S2, a single-coil read at address 0 of slave 1 answered
with function 0x81 and exception code 0x02 under a valid checksum. -/
theorem Read_exception_response_status_witness :
    (Read CalculateCRC16 0 (TReadFrame.returned 5 [0x01, 0x81, 0x02, 0xC1, 0x91])
      ⟨[], 0, 0⟩ EQueryStatus.OK 1 ⟨RegisterType.REG_COIL, 0, 1, "coil"⟩ 0).Status
      = EQueryStatus.UNKNOWN_ERROR ∧
    ToQueryStatus (GetExceptionCode (PDU (responseBuffer
      (InferReadResponseSize ⟨RegisterType.REG_COIL, 0, 1, "coil"⟩)
      [0x01, 0x81, 0x02, 0xC1, 0x91]))) ≠ EQueryStatus.UNKNOWN_ERROR ∧
    (ReadRegisterRange CalculateCRC16 0 (TReadFrame.returned 5 [0x01, 0x81, 0x02, 0xC1, 0x91])
      ⟨[], 0, 0⟩ EQueryStatus.OK 1 ⟨RegisterType.REG_COIL, 0, 1, "coil"⟩ 0).Status
      = ToQueryStatus (GetExceptionCode (PDU (responseBuffer
        (InferReadResponseSize ⟨RegisterType.REG_COIL, 0, 1, "coil"⟩)
        [0x01, 0x81, 0x02, 0xC1, 0x91]))) :=
  Read_exception_response_status CalculateCRC16 0 5 [0x01, 0x81, 0x02, 0xC1, 0x91]
    ⟨[], 0, 0⟩ EQueryStatus.OK 1 ⟨RegisterType.REG_COIL, 0, 1, "coil"⟩ 0
    [0x01, 0x01, 0x00, 0x00, 0x00, 0x01, 0xFD, 0xCA] (by rfl) (by decide) (by rfl)
    (by decide)

/-! ## Response validation -/

/-- C4: over a response buffer of at least three bytes, `CheckResponse` accepts exactly
when the PDU size derived from the response is below the buffer length minus 2, the
checksum stored right after the PDU equals the CRC over slave id and PDU, the slave ids
agree, and the response function code without its high bit equals the request function
code; every rejection is a transient error. -/
theorem CheckResponse_accepts_iff (crc : List Nat → Nat) (kind : TResponseKind)
    (req res : List Nat) (hlen : 3 ≤ res.length) (hlt : res.length < 18446744073709551616)
    (hbytes : ∀ b ∈ res, b < 256) :
    (CheckResponse crc kind req res = Except.ok () ↔
      ((GetResponsePDUSize kind res : Int) < (res.length : Int) - 2 ∧
       storedChecksum res (GetResponsePDUSize kind res + 1)
         = crc (res.take (GetResponsePDUSize kind res + 1)) % 65536 ∧
       byteAt res 0 = byteAt req 0 ∧
       byteAt res 1 % 128 = byteAt req 1)) ∧
    (∀ e, CheckResponse crc kind req res = Except.error e → e.isTransient = true) := by
  have hs := storedChecksum_lt res hbytes (GetResponsePDUSize kind res + 1)
  rw [CheckResponse_eq crc kind req res (by omega) hlt, Nat.mod_eq_of_lt hs]
  constructor
  · split_ifs with h1 h2 h3 h4
    · simp only [reduceCtorEq, false_iff, not_and]
      intro h
      omega
    · simp only [reduceCtorEq, false_iff, not_and]
      intro _ h
      exact absurd h h2
    · simp only [reduceCtorEq, false_iff, not_and]
      intro _ _ h
      exact absurd h.symm h3
    · simp only [reduceCtorEq, false_iff, not_and]
      intro _ _ _ h
      exact absurd h.symm h4
    · simp only [true_iff]
      refine ⟨by omega, ?_, ?_, ?_⟩
      · exact not_not.mp h2
      · exact (not_not.mp h3).symm
      · exact (not_not.mp h4).symm
  · intro e
    split_ifs <;> intro h <;> cases h <;> rfl

/-- Witness for C4: the request for two coils at address 0 of slave 1 and a response
carrying one data byte. -/
theorem CheckResponse_accepts_iff_witness :
    (CheckResponse CalculateCRC16 TResponseKind.TReadResponse
        [0x01, 0x01, 0x00, 0x00, 0x00, 0x02, 0xBD, 0xCB] [0x01, 0x01, 0x01, 0x02, 0xD0, 0x49]
        = Except.ok () ↔
      ((GetResponsePDUSize TResponseKind.TReadResponse [0x01, 0x01, 0x01, 0x02, 0xD0, 0x49] : Int)
          < (([0x01, 0x01, 0x01, 0x02, 0xD0, 0x49] : List Nat).length : Int) - 2 ∧
       storedChecksum [0x01, 0x01, 0x01, 0x02, 0xD0, 0x49]
           (GetResponsePDUSize TResponseKind.TReadResponse [0x01, 0x01, 0x01, 0x02, 0xD0, 0x49] + 1)
         = CalculateCRC16 (([0x01, 0x01, 0x01, 0x02, 0xD0, 0x49] : List Nat).take
             (GetResponsePDUSize TResponseKind.TReadResponse [0x01, 0x01, 0x01, 0x02, 0xD0, 0x49] + 1))
           % 65536 ∧
       byteAt [0x01, 0x01, 0x01, 0x02, 0xD0, 0x49] 0
         = byteAt [0x01, 0x01, 0x00, 0x00, 0x00, 0x02, 0xBD, 0xCB] 0 ∧
       byteAt [0x01, 0x01, 0x01, 0x02, 0xD0, 0x49] 1 % 128
         = byteAt [0x01, 0x01, 0x00, 0x00, 0x00, 0x02, 0xBD, 0xCB] 1)) ∧
    (∀ e, CheckResponse CalculateCRC16 TResponseKind.TReadResponse
        [0x01, 0x01, 0x00, 0x00, 0x00, 0x02, 0xBD, 0xCB] [0x01, 0x01, 0x01, 0x02, 0xD0, 0x49]
        = Except.error e → e.isTransient = true) :=
  CheckResponse_accepts_iff CalculateCRC16 TResponseKind.TReadResponse
    [0x01, 0x01, 0x00, 0x00, 0x00, 0x02, 0xBD, 0xCB] [0x01, 0x01, 0x01, 0x02, 0xD0, 0x49]
    (by decide) (by decide) (by decide)

/-! ## Facts about the write executor -/

theorem responseBuffer_bytes (size : Nat) (buf : List Nat) (hbytes : ∀ b ∈ buf, b < 256) :
    ∀ b ∈ responseBuffer size buf, b < 256 := by
  intro b hb
  unfold responseBuffer at hb
  have hb := List.mem_of_mem_take hb
  rcases List.mem_append.mp hb with h | h
  · exact hbytes b h
  · rw [List.eq_of_mem_replicate h]
    decide

theorem byteAt_set_ne (buf : List Nat) (i j v : Nat) (h : i ≠ j) :
    byteAt (buf.set i v) j = byteAt buf j := by
  simp [byteAt, List.getD_eq_getElem?_getD, List.getElem?_set_ne h]

theorem byteAt_set_eq (buf : List Nat) (i v : Nat) (h : i < buf.length) :
    byteAt (buf.set i v) i = v := by
  simp [byteAt, List.getD_eq_getElem?_getD, h]

theorem WriteAs2Bytes_length (buf : List Nat) (dst val : Nat) :
    (WriteAs2Bytes buf dst val).length = buf.length := by
  simp [WriteAs2Bytes]

theorem byteAt_WriteAs2Bytes_zero (buf : List Nat) (dst val : Nat) (h : 1 ≤ dst) :
    byteAt (WriteAs2Bytes buf dst val) 0 = byteAt buf 0 := by
  unfold WriteAs2Bytes
  simp only
  rw [byteAt_set_ne _ _ _ _ (by omega), byteAt_set_ne _ _ _ _ (by omega)]

/-- A fold of buffer writes that each keep the length and byte 0 keeps both. -/
theorem foldl_keeps (f : List Nat → Nat → List Nat)
    (hf : ∀ b x, (f b x).length = b.length ∧ byteAt (f b x) 0 = byteAt b 0)
    (l : List Nat) (init : List Nat) :
    (l.foldl f init).length = init.length ∧ byteAt (l.foldl f init) 0 = byteAt init 0 := by
  induction l generalizing init with
  | nil => simp
  | cons x xs ih =>
    simp only [List.foldl_cons]
    obtain ⟨h1, h2⟩ := ih (f init x)
    obtain ⟨h3, h4⟩ := hf init x
    exact ⟨h1.trans h3, h2.trans h4⟩

theorem ComposeSingleWriteRequestPDU_keeps (buf : List Nat) (entry : TIRDeviceWriteQueryEntry)
    (value : Nat) (shift : Int) (out : List Nat)
    (h : ComposeSingleWriteRequestPDU buf 1 entry value shift = some out) :
    out.length = buf.length ∧ byteAt out 0 = byteAt buf 0 := by
  unfold ComposeSingleWriteRequestPDU at h
  simp only at h
  split at h
  · cases h
  · cases h
    refine ⟨by simp [WriteAs2Bytes_length], ?_⟩
    rw [byteAt_WriteAs2Bytes_zero _ _ _ (by omega), byteAt_WriteAs2Bytes_zero _ _ _ (by omega),
      byteAt_set_ne _ _ _ _ (by omega)]

theorem ComposeMultipleWriteRequestPDU_keeps (buf : List Nat) (entry : TIRDeviceWriteQueryEntry)
    (shift : Int) (out : List Nat)
    (h : ComposeMultipleWriteRequestPDU buf 1 entry shift = some out) :
    out.length = buf.length ∧ byteAt out 0 = byteAt buf 0 := by
  unfold ComposeMultipleWriteRequestPDU at h
  simp only at h
  have hbase : ∀ fn,
      (((WriteAs2Bytes (WriteAs2Bytes (buf.set 1 fn) (1 + 1)
          (shiftedStart entry.toTIRDeviceQueryEntry shift)) (1 + 3) entry.Count).set (1 + 5)
          (GetByteCount entry % 256)).length = buf.length) ∧
      byteAt ((WriteAs2Bytes (WriteAs2Bytes (buf.set 1 fn) (1 + 1)
          (shiftedStart entry.toTIRDeviceQueryEntry shift)) (1 + 3) entry.Count).set (1 + 5)
          (GetByteCount entry % 256)) 0 = byteAt buf 0 := by
    intro fn
    refine ⟨by simp [WriteAs2Bytes_length], ?_⟩
    rw [byteAt_set_ne _ _ _ _ (by omega), byteAt_WriteAs2Bytes_zero _ _ _ (by omega),
      byteAt_WriteAs2Bytes_zero _ _ _ (by omega), byteAt_set_ne _ _ _ _ (by omega)]
  split at h
  · cases h
  · rename_i fn _
    split at h
    · cases h
      have := foldl_keeps
        (fun b iByte => b.set (1 + 6 + iByte) (packCoilByte entry.Values iByte % 256))
        (fun b x => ⟨by simp, byteAt_set_ne _ _ _ _ (by omega)⟩)
        (List.range (GetByteCount entry))
        ((WriteAs2Bytes (WriteAs2Bytes (buf.set 1 fn) (1 + 1)
          (shiftedStart entry.toTIRDeviceQueryEntry shift)) (1 + 3) entry.Count).set (1 + 5)
          (GetByteCount entry % 256))
      exact ⟨this.1.trans (hbase fn).1, this.2.trans (hbase fn).2⟩
    · cases h
      have := foldl_keeps
        (fun b i => WriteAs2Bytes b (1 + 6 + i * 2) ((entry.Values.getD i 0) % 65536))
        (fun b x => ⟨WriteAs2Bytes_length _ _ _, byteAt_WriteAs2Bytes_zero _ _ _ (by omega)⟩)
        (List.range entry.Values.length)
        ((WriteAs2Bytes (WriteAs2Bytes (buf.set 1 fn) (1 + 1)
          (shiftedStart entry.toTIRDeviceQueryEntry shift)) (1 + 3) entry.Count).set (1 + 5)
          (GetByteCount entry % 256))
      exact ⟨this.1.trans (hbase fn).1, this.2.trans (hbase fn).2⟩

theorem InferWriteRequestSize_ge (reg : TIRDeviceWriteQueryEntry) :
    8 ≤ InferWriteRequestSize reg := by
  unfold InferWriteRequestSize InferWriteRequestPDUSize DATA_SIZE
  split <;> omega

theorem composeWriteRequestsFrom_slave (crc : List Nat → Nat) (reg : TIRDeviceWriteQueryEntry)
    (slaveId : Nat) (shift : Int) (size : Nat) :
    ∀ (remaining value : Nat) (reqs : List (List Nat)),
      composeWriteRequestsFrom crc reg slaveId shift size remaining value = some reqs →
      ∀ r ∈ reqs, byteAt r 0 = slaveId % 256 := by
  intro remaining
  induction remaining with
  | zero =>
    intro value reqs h r hr
    simp [composeWriteRequestsFrom] at h
    subst h
    cases hr
  | succ k ih =>
    intro value reqs h r hr
    unfold composeWriteRequestsFrom at h
    simp only at h
    split at h
    · cases h
    · rename_i req hcomposed
      split at h
      · cases h
      · rename_i rest hrest
        cases h
        rcases List.mem_cons.mp hr with hr | hr
        · subst hr
          have hsz := InferWriteRequestSize_ge reg
          have hkeep : req.length = InferWriteRequestSize reg ∧ byteAt req 0 = slaveId % 256 := by
            have h0 : byteAt ((List.replicate (InferWriteRequestSize reg) 0).set 0
                (slaveId % 256)) 0 = slaveId % 256 :=
              byteAt_set_eq _ _ _ (by simp; omega)
            have hl : ((List.replicate (InferWriteRequestSize reg) 0).set 0
                (slaveId % 256)).length = InferWriteRequestSize reg := by simp
            split at hcomposed
            · have := ComposeMultipleWriteRequestPDU_keeps _ _ _ _ hcomposed
              exact ⟨this.1.trans hl, this.2.trans h0⟩
            · have := ComposeSingleWriteRequestPDU_keeps _ _ _ _ _ hcomposed
              exact ⟨this.1.trans hl, this.2.trans h0⟩
          rw [byteAt_WriteAs2Bytes_zero _ _ _ (by omega)]
          exact hkeep.2
        · exact ih _ _ hrest r hr

/-- A request of `WriteRegister` whose response `CheckResponse` rejects ends the loop with
that exception; `SkipNoise` runs for the two noise exceptions only. -/
theorem writeRequests_rejected (crc : List Nat → Nat) (guardInterval : Nat)
    (readFrame : Nat → TReadFrame) (request : List Nat) (rest : List (List Nat)) (i : Nat)
    (port : TPort) (rc : Int) (buf : List Nat) (e : TException)
    (hrf : readFrame i = TReadFrame.returned rc buf) (hrc : rc > 0)
    (hchk : CheckResponse crc TResponseKind.TWriteResponse request
      (responseBuffer WRITE_RESPONSE_SIZE buf) = Except.error e) :
    writeRequests crc guardInterval readFrame (request :: rest) i port =
      (if e.isInvalidCRC = true ∨ e.isMalformedResponse = true then
          ((port.guardSleep guardInterval).WriteBytes request).SkipNoise
        else (port.guardSleep guardInterval).WriteBytes request,
       Except.error e) := by
  rw [writeRequests, hrf]
  simp only [hrc, hchk, if_true]
  by_cases h1 : e.isInvalidCRC = true
  · simp [h1]
  · by_cases h2 : e.isMalformedResponse = true
    · simp [h1, h2]
    · simp [h1, h2]

/-- Exchanges that go through are passed over by the request loop. -/
theorem writeRequests_accepted (crc : List Nat → Nat) (guardInterval : Nat)
    (readFrame : Nat → TReadFrame) (pre l : List (List Nat)) :
    ∀ (i : Nat) (port : TPort), acceptedWritesFrom crc readFrame i pre = true →
      writeRequests crc guardInterval readFrame (pre ++ l) i port
        = writeRequests crc guardInterval readFrame l (i + pre.length)
            (sentAll guardInterval pre port) := by
  induction pre with
  | nil =>
    intro i port _
    simp [sentAll]
  | cons request rest ih =>
    intro i port h
    simp only [acceptedWritesFrom, Bool.and_eq_true] at h
    obtain ⟨h1, h2⟩ := h
    have hstep : writeRequests crc guardInterval readFrame (request :: (rest ++ l)) i port
        = writeRequests crc guardInterval readFrame (rest ++ l) (i + 1)
            ((port.guardSleep guardInterval).WriteBytes request) := by
      rw [writeRequests]
      cases hrf : readFrame i with
      | raised e => simp [hrf, acceptedWrite] at h1
      | returned rc buf =>
        rw [hrf] at h1
        simp only [acceptedWrite, Bool.and_eq_true, decide_eq_true_eq] at h1
        obtain ⟨⟨hrc, hc⟩, hp⟩ := h1
        cases hchk : CheckResponse crc TResponseKind.TWriteResponse request
            (responseBuffer WRITE_RESPONSE_SIZE buf) with
        | error e => simp [hchk] at hc
        | ok u =>
          cases hparse : Modbus.ParseWriteResponse
              (PDU (responseBuffer WRITE_RESPONSE_SIZE buf)) with
          | error e => simp [hparse] at hp
          | ok v => simp only [hrc, hchk, hparse, if_true]
    rw [List.cons_append, hstep, ih (i + 1) _ h2]
    simp only [sentAll, List.foldl_cons, List.length_cons]
    congr 1
    omega

theorem sentAll_skipNoiseCalls (guardInterval : Nat) (pre : List (List Nat)) :
    ∀ port : TPort, (sentAll guardInterval pre port).skipNoiseCalls = port.skipNoiseCalls := by
  induction pre with
  | nil => intro port; rfl
  | cons request rest ih =>
    intro port
    simp only [sentAll, List.foldl_cons] at ih ⊢
    rw [ih]
    unfold TPort.guardSleep TPort.WriteBytes
    split <;> rfl

/-- How `WriteRegister` ends when, after exchanges that went through, `CheckResponse`
rejects the response to the next request with a transient exception. -/
theorem WriteRegister_rejected (crc : List Nat → Nat) (what : String → String)
    (guardInterval : Nat) (readFrame : Nat → TReadFrame) (port : TPort) (slaveId : Nat)
    (reg : TIRDeviceWriteQueryEntry) (value : Nat) (shift : Int)
    (pre : List (List Nat)) (request : List Nat) (rest : List (List Nat)) (rc : Int)
    (buf : List Nat) (e : TException)
    (hreq : ComposeWriteRequests crc reg slaveId value shift = some (pre ++ request :: rest))
    (hacc : acceptedWritesFrom crc readFrame 0 pre = true)
    (hrf : readFrame pre.length = TReadFrame.returned rc buf) (hrc : rc > 0)
    (hchk : CheckResponse crc TResponseKind.TWriteResponse request
      (responseBuffer WRITE_RESPONSE_SIZE buf) = Except.error e)
    (htr : e.isTransient = true) :
    WriteRegister crc what guardInterval readFrame port slaveId reg value shift =
      (if e.isInvalidCRC = true ∨ e.isMalformedResponse = true then
          (((sentAll guardInterval pre port).guardSleep guardInterval).WriteBytes
            request).SkipNoise
        else ((sentAll guardInterval pre port).guardSleep guardInterval).WriteBytes request,
       TOutcome.raised (TException.TSerialDeviceTransientErrorException
         ("failed to write " ++ reg.TypeName ++ " @ " ++ toString reg.Start ++ ": "
           ++ what e.message))) := by
  have hrf0 : readFrame (0 + pre.length) = TReadFrame.returned rc buf := by
    rw [Nat.zero_add]; exact hrf
  unfold WriteRegister
  rw [hreq]
  simp only [writeRequests_accepted crc guardInterval readFrame pre (request :: rest) 0 port
    hacc, writeRequests_rejected crc guardInterval readFrame request rest (0 + pre.length)
    (sentAll guardInterval pre port) rc buf e hrf0 hrc hchk, htr, if_true,
    String.append_assoc]

theorem ComposeWriteRequests_slave_mem (crc : List Nat → Nat) (reg : TIRDeviceWriteQueryEntry)
    (slaveId value : Nat) (shift : Int) (reqs : List (List Nat)) (request : List Nat)
    (h : ComposeWriteRequests crc reg slaveId value shift = some reqs) (hmem : request ∈ reqs) :
    byteAt request 0 = slaveId % 256 :=
  composeWriteRequestsFrom_slave crc reg slaveId shift _ _ _ _ h request hmem

theorem WriteResponsePDUSize_le (res : List Nat) :
    GetResponsePDUSize TResponseKind.TWriteResponse res ≤ 5 := by
  simp only [GetResponsePDUSize, WriteResponsePDUSize, EXCEPTION_RESPONSE_PDU_SIZE,
    WRITE_RESPONSE_PDU_SIZE]
  split <;> omega

/-- C5, as stated, fails on both buffers the claim names.  An 8-byte write-response
buffer holding the 5-byte exception response 01 85 02 C3 51 before three stale bytes is
accepted although the checksum over its first 6 bytes is not the value in its last 2
bytes; so is a 7-byte read-response buffer (nine coils requested, two data bytes
expected) holding a response with byte count 1 and one further byte from the line. -/
theorem CheckResponse_accepts_without_trailing_checksum :
    (CheckResponse CalculateCRC16 TResponseKind.TWriteResponse
        [0x01, 0x05, 0x00, 0x00, 0xFF, 0x00, 0x8C, 0x3A]
        [0x01, 0x85, 0x02, 0xC3, 0x51, 0xAA, 0xBB, 0xCC] = Except.ok () ∧
      CalculateCRC16 (([0x01, 0x85, 0x02, 0xC3, 0x51, 0xAA, 0xBB, 0xCC] : List Nat).take (8 - 2))
        ≠ storedChecksum [0x01, 0x85, 0x02, 0xC3, 0x51, 0xAA, 0xBB, 0xCC] (8 - 2)) ∧
    (InferReadResponseSize ⟨RegisterType.REG_COIL, 0, 9, "coil"⟩ = 7 ∧
      CheckResponse CalculateCRC16 TResponseKind.TReadResponse
        [0x01, 0x01, 0x00, 0x00, 0x00, 0x09, 0xFC, 0x0C]
        [0x01, 0x01, 0x01, 0x02, 0xD0, 0x49, 0x55] = Except.ok () ∧
      CalculateCRC16 (([0x01, 0x01, 0x01, 0x02, 0xD0, 0x49, 0x55] : List Nat).take (7 - 2))
        ≠ storedChecksum [0x01, 0x01, 0x01, 0x02, 0xD0, 0x49, 0x55] (7 - 2)) := by
  refine ⟨⟨by rfl, by decide⟩, by decide, by rfl, by decide⟩

/-- C5, amended: over a response buffer of at least three bytes, `CheckResponse`
accepts only if the buffer holds the whole frame (PDU size + 3 bytes at most the buffer
length) and the checksum computed over the slave id and the PDU, whose size is derived
from the response, equals the 16-bit checksum held in the two bytes right after the
PDU; these are the trailing two bytes of the buffer when the buffer length is the PDU
size plus 3. -/
theorem CheckResponse_accepts_only_frame_checksum (crc : List Nat → Nat)
    (kind : TResponseKind) (req res : List Nat) (hlen : 3 ≤ res.length)
    (hlt : res.length < 18446744073709551616) (hbytes : ∀ b ∈ res, b < 256)
    (hok : CheckResponse crc kind req res = Except.ok ()) :
    GetResponsePDUSize kind res + 3 ≤ res.length ∧
    crc (res.take (GetResponsePDUSize kind res + 1)) % 65536
      = storedChecksum res (GetResponsePDUSize kind res + 1) ∧
    (res.length = GetResponsePDUSize kind res + 3 →
      crc (res.take (res.length - 2)) % 65536 = storedChecksum res (res.length - 2)) := by
  have hs := storedChecksum_lt res hbytes (GetResponsePDUSize kind res + 1)
  rw [CheckResponse_eq crc kind req res (by omega) hlt, Nat.mod_eq_of_lt hs] at hok
  split_ifs at hok with h1 h2 h3 h4
  have hcrc := (not_not.mp h2).symm
  refine ⟨by omega, hcrc, ?_⟩
  intro hl
  have : res.length - 2 = GetResponsePDUSize kind res + 1 := by omega
  rw [this]
  exact hcrc

/-- Witness for C5 (amended): the 8-byte write-response buffer holding a 5-byte
exception response. -/
theorem CheckResponse_accepts_only_frame_checksum_witness :
    GetResponsePDUSize TResponseKind.TWriteResponse
        [0x01, 0x85, 0x02, 0xC3, 0x51, 0xAA, 0xBB, 0xCC] + 3
      ≤ ([0x01, 0x85, 0x02, 0xC3, 0x51, 0xAA, 0xBB, 0xCC] : List Nat).length ∧
    CalculateCRC16 (([0x01, 0x85, 0x02, 0xC3, 0x51, 0xAA, 0xBB, 0xCC] : List Nat).take
        (GetResponsePDUSize TResponseKind.TWriteResponse
          [0x01, 0x85, 0x02, 0xC3, 0x51, 0xAA, 0xBB, 0xCC] + 1)) % 65536
      = storedChecksum [0x01, 0x85, 0x02, 0xC3, 0x51, 0xAA, 0xBB, 0xCC]
        (GetResponsePDUSize TResponseKind.TWriteResponse
          [0x01, 0x85, 0x02, 0xC3, 0x51, 0xAA, 0xBB, 0xCC] + 1) ∧
    (([0x01, 0x85, 0x02, 0xC3, 0x51, 0xAA, 0xBB, 0xCC] : List Nat).length
        = GetResponsePDUSize TResponseKind.TWriteResponse
          [0x01, 0x85, 0x02, 0xC3, 0x51, 0xAA, 0xBB, 0xCC] + 3 →
      CalculateCRC16 (([0x01, 0x85, 0x02, 0xC3, 0x51, 0xAA, 0xBB, 0xCC] : List Nat).take
          (([0x01, 0x85, 0x02, 0xC3, 0x51, 0xAA, 0xBB, 0xCC] : List Nat).length - 2)) % 65536
        = storedChecksum [0x01, 0x85, 0x02, 0xC3, 0x51, 0xAA, 0xBB, 0xCC]
          (([0x01, 0x85, 0x02, 0xC3, 0x51, 0xAA, 0xBB, 0xCC] : List Nat).length - 2)) :=
  CheckResponse_accepts_only_frame_checksum CalculateCRC16 TResponseKind.TWriteResponse
    [0x01, 0x05, 0x00, 0x00, 0xFF, 0x00, 0x8C, 0x3A]
    [0x01, 0x85, 0x02, 0xC3, 0x51, 0xAA, 0xBB, 0xCC] (by decide) (by decide) (by decide)
    (by rfl)

theorem sent_skipNoiseCalls (port : TPort) (guardInterval : Nat) (request : List Nat) :
    ((port.guardSleep guardInterval).WriteBytes request).skipNoiseCalls
      = port.skipNoiseCalls := by
  unfold TPort.guardSleep TPort.WriteBytes
  split <;> rfl

/-! ## The write executor -/

/-- C6: when, after any number of exchanges that went through, the response to a write
request has a valid checksum (its size is always valid in the 8-byte buffer) but a slave
id other than the request's, `WriteRegister` throws the transient exception whose
message is "failed to write ", the register type name, " @ ", the register address,
": " and the rendered message "request and response slave id mismatch"; it does not
return normally and calls no `SkipNoise`. -/
theorem WriteRegister_slave_id_mismatch (crc : List Nat → Nat) (what : String → String)
    (guardInterval : Nat) (readFrame : Nat → TReadFrame) (port : TPort) (slaveId : Nat)
    (reg : TIRDeviceWriteQueryEntry) (value : Nat) (shift : Int)
    (pre : List (List Nat)) (request : List Nat) (rest : List (List Nat)) (rc : Int)
    (buf : List Nat)
    (hreq : ComposeWriteRequests crc reg slaveId value shift = some (pre ++ request :: rest))
    (hacc : acceptedWritesFrom crc readFrame 0 pre = true)
    (hrf : readFrame pre.length = TReadFrame.returned rc buf) (hrc : rc > 0)
    (hbytes : ∀ b ∈ buf, b < 256)
    (hcrc : storedChecksum (responseBuffer WRITE_RESPONSE_SIZE buf)
        (GetResponsePDUSize TResponseKind.TWriteResponse
          (responseBuffer WRITE_RESPONSE_SIZE buf) + 1)
      = crc ((responseBuffer WRITE_RESPONSE_SIZE buf).take
          (GetResponsePDUSize TResponseKind.TWriteResponse
            (responseBuffer WRITE_RESPONSE_SIZE buf) + 1)) % 65536)
    (hslave : byteAt (responseBuffer WRITE_RESPONSE_SIZE buf) 0 ≠ slaveId % 256) :
    (WriteRegister crc what guardInterval readFrame port slaveId reg value shift).2
      = TOutcome.raised (TException.TSerialDeviceTransientErrorException
          ("failed to write " ++ reg.TypeName ++ " @ " ++ toString reg.Start ++ ": "
            ++ what "request and response slave id mismatch")) ∧
    (WriteRegister crc what guardInterval readFrame port slaveId reg value shift).2
      ≠ TOutcome.returned ∧
    (WriteRegister crc what guardInterval readFrame port slaveId reg value shift).1.skipNoiseCalls
      = port.skipNoiseCalls := by
  have hl : (responseBuffer WRITE_RESPONSE_SIZE buf).length = 8 := responseBuffer_length _ _
  have hp := WriteResponsePDUSize_le (responseBuffer WRITE_RESPONSE_SIZE buf)
  have hs := storedChecksum_lt _ (responseBuffer_bytes WRITE_RESPONSE_SIZE buf hbytes)
    (GetResponsePDUSize TResponseKind.TWriteResponse
      (responseBuffer WRITE_RESPONSE_SIZE buf) + 1)
  have h0 := ComposeWriteRequests_slave_mem crc reg slaveId value shift _ request hreq
    (List.mem_append_right pre (List.mem_cons_self _ _))
  have hchk : CheckResponse crc TResponseKind.TWriteResponse request
      (responseBuffer WRITE_RESPONSE_SIZE buf)
      = Except.error (TException.TSerialDeviceTransientErrorException
          "request and response slave id mismatch") := by
    rw [CheckResponse_eq crc _ request _ (by omega) (by omega), Nat.mod_eq_of_lt hs,
      if_neg (by omega), if_neg (not_not.mpr hcrc), if_pos (by rw [h0]; exact Ne.symm hslave)]
  rw [WriteRegister_rejected crc what guardInterval readFrame port slaveId reg value shift
    pre request rest rc buf _ hreq hacc hrf hrc hchk rfl]
  refine ⟨rfl, by simp, ?_⟩
  simp [TException.isInvalidCRC, TException.isMalformedResponse, sent_skipNoiseCalls,
    sentAll_skipNoiseCalls]

set_option maxRecDepth 100000 in
/-- Witness for C6: scenario S4, the write of coil 0 of slave 1 answered by slave 2. -/
theorem WriteRegister_slave_id_mismatch_witness :
    (WriteRegister CalculateCRC16 serialProtocolWhat 0
        (fun _ => TReadFrame.returned 8 [0x02, 0x05, 0x00, 0x00, 0xFF, 0x00, 0x8C, 0x09])
        ⟨[], 0, 0⟩ 1 ⟨⟨RegisterType.REG_COIL, 0, 1, "(type 2)"⟩, [0xFF]⟩ 0xFF 0).2
      = TOutcome.raised (TException.TSerialDeviceTransientErrorException
          ("failed to write " ++ "(type 2)" ++ " @ " ++ toString (0 : Nat) ++ ": "
            ++ serialProtocolWhat "request and response slave id mismatch")) ∧
    (WriteRegister CalculateCRC16 serialProtocolWhat 0
        (fun _ => TReadFrame.returned 8 [0x02, 0x05, 0x00, 0x00, 0xFF, 0x00, 0x8C, 0x09])
        ⟨[], 0, 0⟩ 1 ⟨⟨RegisterType.REG_COIL, 0, 1, "(type 2)"⟩, [0xFF]⟩ 0xFF 0).2
      ≠ TOutcome.returned ∧
    (WriteRegister CalculateCRC16 serialProtocolWhat 0
        (fun _ => TReadFrame.returned 8 [0x02, 0x05, 0x00, 0x00, 0xFF, 0x00, 0x8C, 0x09])
        ⟨[], 0, 0⟩ 1 ⟨⟨RegisterType.REG_COIL, 0, 1, "(type 2)"⟩, [0xFF]⟩ 0xFF 0).1.skipNoiseCalls
      = 0 :=
  WriteRegister_slave_id_mismatch CalculateCRC16 serialProtocolWhat 0
    (fun _ => TReadFrame.returned 8 [0x02, 0x05, 0x00, 0x00, 0xFF, 0x00, 0x8C, 0x09])
    ⟨[], 0, 0⟩ 1 ⟨⟨RegisterType.REG_COIL, 0, 1, "(type 2)"⟩, [0xFF]⟩ 0xFF 0
    [] [0x01, 0x05, 0x00, 0x00, 0xFF, 0x00, 0x8C, 0x3A] [] 8
    [0x02, 0x05, 0x00, 0x00, 0xFF, 0x00, 0x8C, 0x09]
    (by rfl) (by rfl) (by rfl) (by decide) (by decide) (by decide) (by decide)

/-- C9: when, after any number of exchanges that went through, `ReadFrame` returns a
result that is not positive for a write request, `WriteRegister` leaves the loop and
returns normally: no exception is thrown, the remaining requests are not sent, and no
response to that request was validated. -/
theorem WriteRegister_returns_without_response (crc : List Nat → Nat)
    (what : String → String) (guardInterval : Nat) (readFrame : Nat → TReadFrame)
    (port : TPort) (slaveId : Nat) (reg : TIRDeviceWriteQueryEntry) (value : Nat)
    (shift : Int) (pre : List (List Nat)) (request : List Nat) (rest : List (List Nat))
    (rc : Int) (buf : List Nat)
    (hreq : ComposeWriteRequests crc reg slaveId value shift = some (pre ++ request :: rest))
    (hacc : acceptedWritesFrom crc readFrame 0 pre = true)
    (hrf : readFrame pre.length = TReadFrame.returned rc buf) (hrc : rc ≤ 0) :
    WriteRegister crc what guardInterval readFrame port slaveId reg value shift
      = (((sentAll guardInterval pre port).guardSleep guardInterval).WriteBytes request,
          TOutcome.returned) := by
  have hrf0 : readFrame (0 + pre.length) = TReadFrame.returned rc buf := by
    rw [Nat.zero_add]; exact hrf
  unfold WriteRegister
  rw [hreq]
  simp only [writeRequests_accepted crc guardInterval readFrame pre (request :: rest) 0 port
    hacc, writeRequests, hrf0, not_lt.mpr hrc, gt_iff_lt, if_false]

set_option maxRecDepth 100000 in
/-- Witness for C9: the write of the two-element register at address 0 of slave 1 with
single-write requests; the first exchange goes through, the second request gets no
response bytes. -/
theorem WriteRegister_returns_without_response_witness :
    WriteRegister CalculateCRC16 serialProtocolWhat 0
        (fun i => if i = 0 then
            TReadFrame.returned 8 [0x01, 0x06, 0x00, 0x01, 0x00, 0x02, 0x59, 0xCB]
          else TReadFrame.returned 0 [])
        ⟨[], 0, 0⟩ 1 ⟨⟨RegisterType.REG_HOLDING_SINGLE, 0, 2, "holding"⟩, []⟩ 0x00010002 0
      = (((sentAll 0 [[0x01, 0x06, 0x00, 0x01, 0x00, 0x02, 0x59, 0xCB]]
            (⟨[], 0, 0⟩ : TPort)).guardSleep 0).WriteBytes
          [0x01, 0x06, 0x00, 0x00, 0x00, 0x01, 0x48, 0x0A], TOutcome.returned) :=
  WriteRegister_returns_without_response CalculateCRC16 serialProtocolWhat 0
    (fun i => if i = 0 then
        TReadFrame.returned 8 [0x01, 0x06, 0x00, 0x01, 0x00, 0x02, 0x59, 0xCB]
      else TReadFrame.returned 0 [])
    ⟨[], 0, 0⟩ 1 ⟨⟨RegisterType.REG_HOLDING_SINGLE, 0, 2, "holding"⟩, []⟩ 0x00010002 0
    [[0x01, 0x06, 0x00, 0x01, 0x00, 0x02, 0x59, 0xCB]]
    [0x01, 0x06, 0x00, 0x00, 0x00, 0x01, 0x48, 0x0A] [] 0 [] (by rfl) (by rfl) (by rfl)
    (by decide)

/-! ## Order of the checks -/

/-- C7: over a response buffer of at least three bytes `CheckResponse` reports the first
failing check in the order data size, checksum, slave id, function code.  A response
with valid size, checksum and slave id whose function code differs from the request's
in the low 7 bits is rejected with "request and response function code mismatch",
whatever its bit 0x80; `WriteRegister` then throws with that message (after any
number of exchanges that went through) and
`ReadRegisterRange` leaves the status untouched, so the exception code is not
interpreted. -/
theorem CheckResponse_first_failing_check (crc : List Nat → Nat) (kind : TResponseKind)
    (req res : List Nat) (hlen : 3 ≤ res.length) (hlt : res.length < 18446744073709551616)
    (hbytes : ∀ b ∈ res, b < 256) :
    (¬ ((GetResponsePDUSize kind res : Int) < (res.length : Int) - 2) →
      CheckResponse crc kind req res
        = Except.error (TException.TMalformedResponseError "invalid data size")) ∧
    ((GetResponsePDUSize kind res : Int) < (res.length : Int) - 2 →
      storedChecksum res (GetResponsePDUSize kind res + 1)
        ≠ crc (res.take (GetResponsePDUSize kind res + 1)) % 65536 →
      CheckResponse crc kind req res = Except.error TException.TInvalidCRCError) ∧
    ((GetResponsePDUSize kind res : Int) < (res.length : Int) - 2 →
      storedChecksum res (GetResponsePDUSize kind res + 1)
        = crc (res.take (GetResponsePDUSize kind res + 1)) % 65536 →
      byteAt res 0 ≠ byteAt req 0 →
      CheckResponse crc kind req res
        = Except.error (TException.TSerialDeviceTransientErrorException
            "request and response slave id mismatch")) ∧
    ((GetResponsePDUSize kind res : Int) < (res.length : Int) - 2 →
      storedChecksum res (GetResponsePDUSize kind res + 1)
        = crc (res.take (GetResponsePDUSize kind res + 1)) % 65536 →
      byteAt res 0 = byteAt req 0 →
      byteAt res 1 % 128 ≠ byteAt req 1 →
      CheckResponse crc kind req res
        = Except.error (TException.TSerialDeviceTransientErrorException
            "request and response function code mismatch") ∧
      (∀ (what : String → String) (guardInterval : Nat) (readFrame : Nat → TReadFrame)
          (port : TPort) (slaveId : Nat) (reg : TIRDeviceWriteQueryEntry) (value : Nat)
          (shift : Int) (pre rest : List (List Nat)) (rc : Int) (buf : List Nat),
        kind = TResponseKind.TWriteResponse →
        res = responseBuffer WRITE_RESPONSE_SIZE buf →
        ComposeWriteRequests crc reg slaveId value shift = some (pre ++ req :: rest) →
        acceptedWritesFrom crc readFrame 0 pre = true →
        readFrame pre.length = TReadFrame.returned rc buf → rc > 0 →
        (WriteRegister crc what guardInterval readFrame port slaveId reg value shift).2
          = TOutcome.raised (TException.TSerialDeviceTransientErrorException
              ("failed to write " ++ reg.TypeName ++ " @ " ++ toString reg.Start ++ ": "
                ++ what "request and response function code mismatch"))) ∧
      (∀ (guardInterval : Nat) (port : TPort) (status0 : EQueryStatus) (slaveId : Nat)
          (range : TIRDeviceQueryEntry) (shift : Int) (rc : Int) (buf : List Nat),
        kind = TResponseKind.TReadResponse →
        res = responseBuffer (InferReadResponseSize range) buf →
        ComposeReadRequest crc range slaveId shift = some req → rc > 0 →
        (ReadRegisterRange crc guardInterval (TReadFrame.returned rc buf) port status0
            slaveId range shift).Status = status0 ∧
        (ReadRegisterRange crc guardInterval (TReadFrame.returned rc buf) port status0
            slaveId range shift).Error = some true)) := by
  have hs := storedChecksum_lt res hbytes (GetResponsePDUSize kind res + 1)
  rw [CheckResponse_eq crc kind req res (by omega) hlt, Nat.mod_eq_of_lt hs]
  refine ⟨?_, ?_, ?_, ?_⟩
  · intro h
    rw [if_pos (by omega)]
  · intro h hc
    rw [if_neg (by omega), if_pos hc]
  · intro h hc hsl
    rw [if_neg (by omega), if_neg (not_not.mpr hc), if_pos (Ne.symm hsl)]
  · intro h hc hsl hfn
    have hchk : CheckResponse crc kind req res
        = Except.error (TException.TSerialDeviceTransientErrorException
            "request and response function code mismatch") := by
      rw [CheckResponse_eq crc kind req res (by omega) hlt, Nat.mod_eq_of_lt hs,
        if_neg (by omega), if_neg (not_not.mpr hc), if_neg (not_not.mpr hsl.symm),
        if_pos (Ne.symm hfn)]
    rw [if_neg (by omega), if_neg (not_not.mpr hc), if_neg (not_not.mpr hsl.symm),
      if_pos (Ne.symm hfn)]
    refine ⟨rfl, ?_, ?_⟩
    · intro what guardInterval readFrame port slaveId reg value shift pre rest rc buf hk hres
        hreq hacc hrf hrc
      subst hk
      subst hres
      rw [WriteRegister_rejected crc what guardInterval readFrame port slaveId reg value shift
        pre req rest rc buf _ hreq hacc hrf hrc hchk rfl]
      rfl
    · intro guardInterval port status0 slaveId range shift rc buf hk hres hreq hrc
      subst hk
      subst hres
      simp [ReadRegisterRange, hreq, hrc, hchk, TException.isTransient]

set_option maxRecDepth 100000 in
/-- Witness for C7: the write of coil 0 of slave 1 answered with function 0x86, that is
the wrong function 0x06 with the exception bit, and exception code 0x02. -/
theorem CheckResponse_first_failing_check_witness :
    (WriteRegister CalculateCRC16 serialProtocolWhat 0
        (fun _ => TReadFrame.returned 5 [0x01, 0x86, 0x02, 0xC3, 0xA1])
        ⟨[], 0, 0⟩ 1 ⟨⟨RegisterType.REG_COIL, 0, 1, "(type 2)"⟩, [0xFF]⟩ 0xFF 0).2
      = TOutcome.raised (TException.TSerialDeviceTransientErrorException
          ("failed to write " ++ "(type 2)" ++ " @ " ++ toString (0 : Nat) ++ ": "
            ++ serialProtocolWhat "request and response function code mismatch")) :=
  ((CheckResponse_first_failing_check CalculateCRC16 TResponseKind.TWriteResponse
    [0x01, 0x05, 0x00, 0x00, 0xFF, 0x00, 0x8C, 0x3A]
    [0x01, 0x86, 0x02, 0xC3, 0xA1, 0x00, 0x00, 0x00]
    (by decide) (by decide) (by decide)).2.2.2
      (by decide) (by decide) (by decide) (by decide)).2.1
    serialProtocolWhat 0 (fun _ => TReadFrame.returned 5 [0x01, 0x86, 0x02, 0xC3, 0xA1])
    ⟨[], 0, 0⟩ 1 ⟨⟨RegisterType.REG_COIL, 0, 1, "(type 2)"⟩, [0xFF]⟩ 0xFF 0 [] [] 5
    [0x01, 0x86, 0x02, 0xC3, 0xA1] rfl (by rfl) (by rfl) (by rfl) (by rfl) (by decide)

/-! ## SkipNoise on rejected responses -/

/-- C8: when the response to a read fails the data-size check of `CheckResponse`,
`Read` calls no `SkipNoise` (its inner handler catches `TInvalidCRCError` only), while
`ReadRegisterRange` on the same exchange calls it exactly once. -/
theorem Read_length_failure_skips_no_noise (crc : List Nat → Nat) (guardInterval : Nat)
    (rc : Int) (buf : List Nat) (port : TPort) (status0 : EQueryStatus) (slaveId : Nat)
    (entry : TIRDeviceQueryEntry) (shift : Int)
    (hrc : rc > 0) (hcount : entry.Count < 4294967296)
    (hsize : InferReadResponseSize entry
      ≤ GetResponsePDUSize TResponseKind.TReadResponse
          (responseBuffer (InferReadResponseSize entry) buf) + 2) :
    (Read crc guardInterval (TReadFrame.returned rc buf) port status0 slaveId entry
      shift).port.skipNoiseCalls = port.skipNoiseCalls ∧
    (ReadRegisterRange crc guardInterval (TReadFrame.returned rc buf) port status0 slaveId
      entry shift).port.skipNoiseCalls = port.skipNoiseCalls + 1 := by
  obtain ⟨hi, lo, hreq⟩ := ComposeReadRequest_eq crc entry slaveId shift
  have hl : (responseBuffer (InferReadResponseSize entry) buf).length
      = InferReadResponseSize entry := responseBuffer_length _ _
  have hge := InferReadResponseSize_ge entry
  have hub : InferReadResponseSize entry < 18446744073709551616 := by
    unfold InferReadResponseSize InferReadResponsePDUSize DATA_SIZE
    split <;> omega
  have hchk := CheckResponse_eq crc TResponseKind.TReadResponse
    [slaveId % 256, readFunctionCode entry.RegType,
      shiftedStart entry shift % 65536 / 256 % 256, shiftedStart entry shift % 65536 % 256,
      entry.Count % 65536 / 256 % 256, entry.Count % 65536 % 256, hi, lo]
    (responseBuffer (InferReadResponseSize entry) buf) (by omega) (by omega)
  rw [if_pos (by omega)] at hchk
  constructor
  · simp [Read, hreq, hrc, hchk, TException.isTransient, TException.isInvalidCRC,
      sent_skipNoiseCalls]
  · simp [ReadRegisterRange, hreq, hrc, hchk, TException.isTransient, TException.isInvalidCRC,
      TException.isMalformedResponse, TPort.SkipNoise, sent_skipNoiseCalls]

set_option maxRecDepth 100000 in
/-- Witness for C8: a read of two coils at address 0 of slave 1 whose response announces
four data bytes in the 6-byte response buffer. -/
theorem Read_length_failure_skips_no_noise_witness :
    (Read CalculateCRC16 0 (TReadFrame.returned 6 [0x01, 0x01, 0x04, 0x00, 0x00, 0x00])
      ⟨[], 0, 0⟩ EQueryStatus.OK 1 ⟨RegisterType.REG_COIL, 0, 2, "coil"⟩
      0).port.skipNoiseCalls = 0 ∧
    (ReadRegisterRange CalculateCRC16 0
      (TReadFrame.returned 6 [0x01, 0x01, 0x04, 0x00, 0x00, 0x00])
      ⟨[], 0, 0⟩ EQueryStatus.OK 1 ⟨RegisterType.REG_COIL, 0, 2, "coil"⟩
      0).port.skipNoiseCalls = 0 + 1 :=
  Read_length_failure_skips_no_noise CalculateCRC16 0 6
    [0x01, 0x01, 0x04, 0x00, 0x00, 0x00] ⟨[], 0, 0⟩ EQueryStatus.OK 1
    ⟨RegisterType.REG_COIL, 0, 2, "coil"⟩ 0 (by decide) (by decide) (by decide)

/-! ## Read request framing -/

theorem shiftedStart_mod (entry : TIRDeviceQueryEntry) (shift : Int) :
    shiftedStart entry shift % 65536 = (((entry.Start : Int) + shift) % 65536).toNat := by
  unfold shiftedStart
  omega

/-- C10: for every slave id (a byte), read entry and shift, `ComposeReadRequest`
produces a frame of 8 bytes: byte 0 is the slave id, byte 1 the read function code of
the entry's type, bytes 2-3 are (start + shift) mod 65536 high byte first, bytes 4-5
are the count mod 65536 high byte first. -/
theorem ComposeReadRequest_frame (crc : List Nat → Nat) (entry : TIRDeviceQueryEntry)
    (slaveId : Nat) (shift : Int) :
    ∃ req, ComposeReadRequest crc entry slaveId shift = some req ∧
      req.length = 8 ∧
      byteAt req 0 = slaveId % 256 ∧
      byteAt req 1 = readFunctionCode entry.RegType ∧
      byteAt req 2 = (((entry.Start : Int) + shift) % 65536).toNat / 256 ∧
      byteAt req 3 = (((entry.Start : Int) + shift) % 65536).toNat % 256 ∧
      byteAt req 4 = (entry.Count % 65536) / 256 ∧
      byteAt req 5 = (entry.Count % 65536) % 256 := by
  obtain ⟨hi, lo, hreq⟩ := ComposeReadRequest_eq crc entry slaveId shift
  refine ⟨_, hreq, rfl, rfl, rfl, ?_, ?_, ?_, rfl⟩
  · show shiftedStart entry shift % 65536 / 256 % 256 = _
    rw [shiftedStart_mod]
    omega
  · show shiftedStart entry shift % 65536 % 256 = _
    rw [shiftedStart_mod]
  · show entry.Count % 65536 / 256 % 256 = _
    omega

/-! ## Write request payloads -/

theorem byteAt_WriteAs2Bytes_hi (buf : List Nat) (dst val : Nat) (h : dst + 1 < buf.length) :
    byteAt (WriteAs2Bytes buf dst val) dst = val % 65536 / 256 := by
  unfold WriteAs2Bytes
  simp only
  rw [byteAt_set_ne _ _ _ _ (by omega), byteAt_set_eq _ _ _ (by omega)]
  omega

theorem byteAt_WriteAs2Bytes_lo (buf : List Nat) (dst val : Nat) (h : dst + 1 < buf.length) :
    byteAt (WriteAs2Bytes buf dst val) (dst + 1) = val % 65536 % 256 := by
  unfold WriteAs2Bytes
  simp only
  rw [byteAt_set_eq _ _ _ (by simp; omega)]

theorem byteAt_WriteAs2Bytes_other (buf : List Nat) (dst val j : Nat) (h1 : j ≠ dst)
    (h2 : j ≠ dst + 1) : byteAt (WriteAs2Bytes buf dst val) j = byteAt buf j := by
  unfold WriteAs2Bytes
  simp only
  rw [byteAt_set_ne _ _ _ _ (by omega), byteAt_set_ne _ _ _ _ (by omega)]

theorem GetFunction_write_isSome (entry : TIRDeviceQueryEntry)
    (h : entry.RegType ≠ RegisterType.REG_INPUT ∧ entry.RegType ≠ RegisterType.REG_DISCRETE) :
    ∃ fn, GetFunction entry OperationType.OP_WRITE = some fn := by
  obtain ⟨h1, h2⟩ := h
  cases ht : entry.RegType <;> simp [GetFunction, ht] <;> simp_all

/-- C11: in a buffer that holds the PDU, `ComposeSingleWriteRequestPDU` on a coil
writes PDU bytes 3-4 as 0xFF 0x00 when the 16-bit value is non-zero and as 0x00 0x00
when it is zero; on a 16-bit register kind it writes the value itself, high byte
first. -/
theorem ComposeSingleWriteRequestPDU_value_field (buf : List Nat) (pdu : Nat)
    (entry : TIRDeviceWriteQueryEntry) (value : Nat) (shift : Int)
    (hlen : pdu + 4 < buf.length) :
    (entry.RegType = RegisterType.REG_COIL →
      ∃ out, ComposeSingleWriteRequestPDU buf pdu entry value shift = some out ∧
        byteAt out (pdu + 3) = (if value % 65536 ≠ 0 then 0xFF else 0x00) ∧
        byteAt out (pdu + 4) = 0x00) ∧
    (entry.RegType = RegisterType.REG_HOLDING ∨
      entry.RegType = RegisterType.REG_HOLDING_SINGLE ∨
      entry.RegType = RegisterType.REG_HOLDING_MULTI →
      ∃ out, ComposeSingleWriteRequestPDU buf pdu entry value shift = some out ∧
        byteAt out (pdu + 3) = value % 65536 / 256 ∧
        byteAt out (pdu + 4) = value % 65536 % 256) := by
  constructor
  · intro ht
    obtain ⟨fn, hfn⟩ := GetFunction_write_isSome entry.toTIRDeviceQueryEntry
      (by rw [ht]; exact ⟨by decide, by decide⟩)
    refine ⟨_, by simp only [ComposeSingleWriteRequestPDU, hfn, ht, if_true]; rfl, ?_, ?_⟩
    · rw [byteAt_WriteAs2Bytes_hi _ _ _ (by simp [WriteAs2Bytes_length]; omega)]
      split <;> rfl
    · rw [byteAt_WriteAs2Bytes_lo _ _ _ (by simp [WriteAs2Bytes_length]; omega)]
      split <;> rfl
  · intro ht
    have hne : entry.RegType ≠ RegisterType.REG_COIL := by
      rcases ht with h | h | h <;> rw [h] <;> decide
    obtain ⟨fn, hfn⟩ := GetFunction_write_isSome entry.toTIRDeviceQueryEntry
      (by rcases ht with h | h | h <;> rw [h] <;> exact ⟨by decide, by decide⟩)
    refine ⟨_, by simp only [ComposeSingleWriteRequestPDU, hfn, hne, if_false]; rfl, ?_, ?_⟩
    · rw [byteAt_WriteAs2Bytes_hi _ _ _ (by simp [WriteAs2Bytes_length]; omega)]
      omega
    · rw [byteAt_WriteAs2Bytes_lo _ _ _ (by simp [WriteAs2Bytes_length]; omega)]
      omega
/-- Witness for C11: the PDU of the write of coil 0 with value 0xFF at offset 1 of an
8-byte request. -/
theorem ComposeSingleWriteRequestPDU_value_field_witness :
    ((⟨⟨RegisterType.REG_COIL, 0, 1, "coil"⟩, [0xFF]⟩ : TIRDeviceWriteQueryEntry).RegType
        = RegisterType.REG_COIL →
      ∃ out, ComposeSingleWriteRequestPDU (List.replicate 8 0) 1
          ⟨⟨RegisterType.REG_COIL, 0, 1, "coil"⟩, [0xFF]⟩ 0xFF 0 = some out ∧
        byteAt out (1 + 3) = (if 0xFF % 65536 ≠ 0 then 0xFF else 0x00) ∧
        byteAt out (1 + 4) = 0x00) ∧
    ((⟨⟨RegisterType.REG_COIL, 0, 1, "coil"⟩, [0xFF]⟩ : TIRDeviceWriteQueryEntry).RegType
        = RegisterType.REG_HOLDING ∨
      (⟨⟨RegisterType.REG_COIL, 0, 1, "coil"⟩, [0xFF]⟩ : TIRDeviceWriteQueryEntry).RegType
        = RegisterType.REG_HOLDING_SINGLE ∨
      (⟨⟨RegisterType.REG_COIL, 0, 1, "coil"⟩, [0xFF]⟩ : TIRDeviceWriteQueryEntry).RegType
        = RegisterType.REG_HOLDING_MULTI →
      ∃ out, ComposeSingleWriteRequestPDU (List.replicate 8 0) 1
          ⟨⟨RegisterType.REG_COIL, 0, 1, "coil"⟩, [0xFF]⟩ 0xFF 0 = some out ∧
        byteAt out (1 + 3) = 0xFF % 65536 / 256 ∧
        byteAt out (1 + 4) = 0xFF % 65536 % 256) :=
  ComposeSingleWriteRequestPDU_value_field (List.replicate 8 0) 1
    ⟨⟨RegisterType.REG_COIL, 0, 1, "coil"⟩, [0xFF]⟩ 0xFF 0 (by decide)

theorem foldl_WriteAs2Bytes_range (f : Nat → Nat) (p : Nat) :
    ∀ (m : Nat) (base : List Nat), p + 2 * m ≤ base.length →
      ((List.range m).foldl (fun b i => WriteAs2Bytes b (p + i * 2) (f i)) base).length
        = base.length ∧
      (∀ i, i < m →
        byteAt ((List.range m).foldl (fun b i => WriteAs2Bytes b (p + i * 2) (f i)) base)
            (p + 2 * i) = f i % 65536 / 256 ∧
        byteAt ((List.range m).foldl (fun b i => WriteAs2Bytes b (p + i * 2) (f i)) base)
            (p + 2 * i + 1) = f i % 65536 % 256) ∧
      (∀ j, j < p ∨ p + 2 * m ≤ j →
        byteAt ((List.range m).foldl (fun b i => WriteAs2Bytes b (p + i * 2) (f i)) base) j
          = byteAt base j) := by
  intro m
  induction m with
  | zero =>
    intro base _
    refine ⟨rfl, ?_, ?_⟩
    · intro i hi
      omega
    · intro j _
      rfl
  | succ m ih =>
    intro base hlen
    obtain ⟨hl, hv, ho⟩ := ih base (by omega)
    rw [List.range_succ, List.foldl_append]
    simp only [List.foldl_cons, List.foldl_nil]
    refine ⟨by rw [WriteAs2Bytes_length, hl], ?_, ?_⟩
    · intro i hi
      by_cases him : i < m
      · rw [byteAt_WriteAs2Bytes_other _ _ _ _ (by omega) (by omega),
          byteAt_WriteAs2Bytes_other _ _ _ _ (by omega) (by omega)]
        exact hv i him
      · have : i = m := by omega
        subst this
        have h1 : p + i * 2 = p + 2 * i := by omega
        rw [← h1]
        exact ⟨byteAt_WriteAs2Bytes_hi _ _ _ (by omega), byteAt_WriteAs2Bytes_lo _ _ _ (by omega)⟩
    · intro j hj
      rw [byteAt_WriteAs2Bytes_other _ _ _ _ (by omega) (by omega)]
      exact ho j (by omega)

theorem IsPacking_not_singleBit (entry : TIRDeviceQueryEntry) (h : IsPacking entry = true) :
    IsSingleBitType entry = false ∧
    GetFunction entry OperationType.OP_WRITE = some FN_WRITE_MULTIPLE_REGISTERS := by
  cases ht : entry.RegType <;> simp_all [IsPacking, IsSingleBitType, GetFunction]

/-- C13: for a multi-register write entry (one for which the multiple-write function is
chosen) of count `n` with exactly `n` values, in a buffer that holds the PDU,
`ComposeMultipleWriteRequestPDU` writes the byte count `2n` at `pdu[5]` (as a byte: `2n`
itself for every `n` below 128, so for every count within the protocol maximum of 123)
and, for every `i < n`, the high and the low byte of value `i` mod 65536 at `pdu[6+2i]`
and `pdu[7+2i]`; the PDU is `InferWriteRequestPDUSize = 6 + 2n` bytes long and no byte
outside it changes. -/
theorem ComposeMultipleWriteRequestPDU_registers (buf : List Nat) (pdu : Nat)
    (entry : TIRDeviceWriteQueryEntry) (shift : Int) (n : Nat)
    (hpack : IsPacking entry.toTIRDeviceQueryEntry = true)
    (hcount : entry.Count = n) (hvals : entry.Values.length = n)
    (hlen : pdu + 6 + 2 * n ≤ buf.length) :
    InferWriteRequestPDUSize entry = 6 + 2 * n ∧
    ∃ out, ComposeMultipleWriteRequestPDU buf pdu entry shift = some out ∧
      out.length = buf.length ∧
      byteAt out (pdu + 5) = 2 * n % 256 ∧
      (n < 128 → byteAt out (pdu + 5) = 2 * n) ∧
      (∀ i, i < n →
        byteAt out (pdu + 6 + 2 * i) = (entry.Values.getD i 0 % 65536) / 256 ∧
        byteAt out (pdu + 7 + 2 * i) = (entry.Values.getD i 0 % 65536) % 256) ∧
      (∀ j, j < pdu ∨ pdu + 6 + 2 * n ≤ j → byteAt out j = byteAt buf j) := by
  obtain ⟨hbit, hfn⟩ := IsPacking_not_singleBit entry.toTIRDeviceQueryEntry hpack
  have hbc : GetByteCount entry = 2 * n := by
    simp [GetByteCount, hbit, hcount]; omega
  refine ⟨by simp [InferWriteRequestPDUSize, hpack, hbc], ?_⟩
  have hbaselen : ((WriteAs2Bytes (WriteAs2Bytes (buf.set pdu FN_WRITE_MULTIPLE_REGISTERS)
      (pdu + 1) (shiftedStart entry.toTIRDeviceQueryEntry shift)) (pdu + 3) entry.Count).set
      (pdu + 5) (GetByteCount entry % 256)).length = buf.length := by
    simp [WriteAs2Bytes_length]
  obtain ⟨hl, hv, ho⟩ := foldl_WriteAs2Bytes_range (fun i => entry.Values.getD i 0 % 65536)
    (pdu + 6) entry.Values.length
    ((WriteAs2Bytes (WriteAs2Bytes (buf.set pdu FN_WRITE_MULTIPLE_REGISTERS)
      (pdu + 1) (shiftedStart entry.toTIRDeviceQueryEntry shift)) (pdu + 3) entry.Count).set
      (pdu + 5) (GetByteCount entry % 256)) (by rw [hbaselen, hvals]; exact hlen)
  refine ⟨_, by simp only [ComposeMultipleWriteRequestPDU, hfn, hbit]; rfl, ?_, ?_, ?_, ?_, ?_⟩
  · rw [hl, hbaselen]
  · rw [ho _ (by omega), byteAt_set_eq _ _ _ (by simp [WriteAs2Bytes_length]; omega), hbc]
  · intro hn
    rw [ho _ (by omega), byteAt_set_eq _ _ _ (by simp [WriteAs2Bytes_length]; omega), hbc]
    omega
  · intro i hi
    obtain ⟨h1, h2⟩ := hv i (by omega)
    simp only [Nat.mod_mod] at h1 h2
    have e2 : pdu + 7 + 2 * i = pdu + 6 + 2 * i + 1 := by omega
    rw [e2]
    exact ⟨h1, h2⟩
  · intro j hj
    rw [ho j (by omega), byteAt_set_ne _ _ _ _ (by omega),
      byteAt_WriteAs2Bytes_other _ _ _ _ (by omega) (by omega),
      byteAt_WriteAs2Bytes_other _ _ _ _ (by omega) (by omega),
      byteAt_set_ne _ _ _ _ (by omega)]

/-- Witness for C13: the write of 0x1234 and 0xABCD to two registers at address 4, the
PDU at offset 1 of a 12-byte buffer. -/
theorem ComposeMultipleWriteRequestPDU_registers_witness :
    InferWriteRequestPDUSize ⟨⟨RegisterType.REG_HOLDING_MULTI, 4, 2, "holding"⟩,
        [0x1234, 0xABCD]⟩ = 6 + 2 * 2 ∧
    ∃ out, ComposeMultipleWriteRequestPDU (List.replicate 12 0) 1
        ⟨⟨RegisterType.REG_HOLDING_MULTI, 4, 2, "holding"⟩, [0x1234, 0xABCD]⟩ 0 = some out ∧
      out.length = (List.replicate 12 0).length ∧
      byteAt out (1 + 5) = 2 * 2 % 256 ∧
      (2 < 128 → byteAt out (1 + 5) = 2 * 2) ∧
      (∀ i, i < 2 →
        byteAt out (1 + 6 + 2 * i)
          = (([0x1234, 0xABCD] : List Nat).getD i 0 % 65536) / 256 ∧
        byteAt out (1 + 7 + 2 * i)
          = (([0x1234, 0xABCD] : List Nat).getD i 0 % 65536) % 256) ∧
      (∀ j, j < 1 ∨ 1 + 6 + 2 * 2 ≤ j → byteAt out j = byteAt (List.replicate 12 0) j) :=
  ComposeMultipleWriteRequestPDU_registers (List.replicate 12 0) 1
    ⟨⟨RegisterType.REG_HOLDING_MULTI, 4, 2, "holding"⟩, [0x1234, 0xABCD]⟩ 0 2
    (by decide) (by decide) (by decide) (by decide)

/-! ## Read response payloads -/

theorem getD_map_range (g : Nat → Nat) (m k : Nat) (h : k < m) :
    ((List.range m).map g).getD k 0 = g k := by
  simp [List.getD_eq_getElem?_getD, List.getElem?_range h]

theorem ParseReadResponse_no_exception (pdu : List Nat) (entry : TIRDeviceQueryEntry)
    (hexc : IsException pdu = false) :
    ParseReadResponse pdu entry =
      (EQueryStatus.OK,
        Except.ok (if IsSingleBitType entry then
            decodeCoils ((List.range (byteAt pdu 1)).map (fun k => byteAt pdu (2 + k)))
              entry.Count
          else decodeWords ((List.range (byteAt pdu 1)).map (fun k => byteAt pdu (2 + k)))
            (byteAt pdu 1))) := by
  have hcode : GetExceptionCode pdu = 0 := by simp [GetExceptionCode, hexc]
  unfold ParseReadResponse
  simp only [hcode]
  have h0 : ThrowIfModbusException 0 = Except.ok () := rfl
  have hs : ToQueryStatus 0 = EQueryStatus.OK := rfl
  rw [h0, hs]
  simp only
  split <;> rfl

/-- C14: for a read response without the exception bit to an entry of a 16-bit kind
whose byte count is `2n`, `ParseReadResponse` yields status OK and `n` words, word `i`
being `256 * data[2i] + data[2i+1]` of the data bytes behind the byte count. -/
theorem ParseReadResponse_words (pdu : List Nat) (entry : TIRDeviceQueryEntry) (n : Nat)
    (hbytes : ∀ b ∈ pdu, b < 256) (hexc : IsException pdu = false)
    (htype : IsSingleBitType entry = false) (hbc : byteAt pdu 1 = 2 * n) :
    ∃ words, ParseReadResponse pdu entry = (EQueryStatus.OK, Except.ok words) ∧
      words.length = n ∧
      ∀ i, i < n →
        words.getD i 0 = 256 * byteAt pdu (2 + 2 * i) + byteAt pdu (2 + (2 * i + 1)) := by
  rw [ParseReadResponse_no_exception pdu entry hexc]
  simp only [htype, Bool.false_eq_true, if_false]
  refine ⟨_, rfl, ?_, ?_⟩
  · simp [decodeWords, hbc]
  · intro i hi
    unfold decodeWords
    rw [getD_map_range _ _ _ (by omega)]
    have e1 : byteAt ((List.range (byteAt pdu 1)).map (fun k => byteAt pdu (2 + k))) (2 * i)
        = byteAt pdu (2 + 2 * i) := by
      unfold byteAt
      exact getD_map_range _ _ _ (by rw [show pdu.getD 1 0 = 2 * n from hbc]; omega)
    have e2 : byteAt ((List.range (byteAt pdu 1)).map (fun k => byteAt pdu (2 + k)))
        (2 * i + 1) = byteAt pdu (2 + (2 * i + 1)) := by
      unfold byteAt
      exact getD_map_range _ _ _ (by rw [show pdu.getD 1 0 = 2 * n from hbc]; omega)
    rw [e1, e2]
    have h1 := byteAt_lt pdu hbytes (2 + 2 * i)
    have h2 := byteAt_lt pdu hbytes (2 + (2 * i + 1))
    have hor := Nat.mul_add_lt_is_or (i := 8) (b := byteAt pdu (2 + (2 * i + 1)))
      (by simpa using h2) (byteAt pdu (2 + 2 * i))
    have e3 : byteAt pdu (2 + 2 * i) * 256 = 2 ^ 8 * byteAt pdu (2 + 2 * i) := by omega
    rw [e3, ← hor]
    omega

/-- Witness for C14: the response to the read of holding@30 with the data bytes
01 02 03 04 05 06 07 08, which are the words of 0x0102030405060708. -/
theorem ParseReadResponse_words_witness :
    (∃ words, ParseReadResponse [0x03, 0x08, 0x01, 0x02, 0x03, 0x04, 0x05, 0x06, 0x07, 0x08]
        ⟨RegisterType.REG_HOLDING, 30, 4, "holding"⟩ = (EQueryStatus.OK, Except.ok words) ∧
      words.length = 4 ∧
      ∀ i, i < 4 →
        words.getD i 0
          = 256 * byteAt [0x03, 0x08, 0x01, 0x02, 0x03, 0x04, 0x05, 0x06, 0x07, 0x08] (2 + 2 * i)
            + byteAt [0x03, 0x08, 0x01, 0x02, 0x03, 0x04, 0x05, 0x06, 0x07, 0x08]
                (2 + (2 * i + 1))) ∧
    ParseReadResponse [0x03, 0x08, 0x01, 0x02, 0x03, 0x04, 0x05, 0x06, 0x07, 0x08]
        ⟨RegisterType.REG_HOLDING, 30, 4, "holding"⟩
      = (EQueryStatus.OK, Except.ok [0x0102, 0x0304, 0x0506, 0x0708]) ∧
    ((0x0102 * 65536 + 0x0304) * 65536 + 0x0506) * 65536 + 0x0708 = 0x0102030405060708 :=
  ⟨ParseReadResponse_words [0x03, 0x08, 0x01, 0x02, 0x03, 0x04, 0x05, 0x06, 0x07, 0x08]
      ⟨RegisterType.REG_HOLDING, 30, 4, "holding"⟩ 4 (by decide) (by decide) (by decide)
      (by decide),
    by rfl, by decide⟩

theorem decodeCoils_spec : ∀ (data : List Nat) (n : Nat),
    (decodeCoils data n).length = min n (8 * data.length) ∧
    ∀ i, i < min n (8 * data.length) →
      (decodeCoils data n).getD i 0
        = if ((byteAt data (i / 8)) % 256).testBit (i % 8) then 1 else 0 := by
  intro data
  induction data with
  | nil =>
    intro n
    refine ⟨by simp [decodeCoils], ?_⟩
    intro i hi
    simp at hi
  | cons b rest ih =>
    intro n
    obtain ⟨hl, hv⟩ := ih (n - min n 8)
    unfold decodeCoils
    simp only
    refine ⟨?_, ?_⟩
    · rw [List.length_append, hl, List.length_map, List.length_range, List.length_cons]
      omega
    · intro i hi
      rw [List.length_cons] at hi
      by_cases hlt : i < min n 8
      · rw [List.getD_append _ _ _ _ (by simpa using hlt), getD_map_range _ _ _ hlt]
        have h8 : i / 8 = 0 := by omega
        have hm : i % 8 = i := by omega
        rw [h8, hm]
        rfl
      · rw [List.getD_append_right _ _ _ _ (by simp; omega)]
        simp only [List.length_map, List.length_range]
        have hk : min n 8 = 8 := by omega
        rw [hk] at hv ⊢
        rw [hv (i - 8) (by omega)]
        have h8 : i / 8 = (i - 8) / 8 + 1 := by omega
        have hm : (i - 8) % 8 = i % 8 := by omega
        rw [h8, hm]
        rfl

/-- C15: for a read response without the exception bit to an entry of a single-bit kind
with count `n` and byte count `m`, `ParseReadResponse` yields status OK and writes
exactly the destination elements below `min(n, 8m)`, none at index `n` or above;
element `i` is bit `i mod 8` of data byte `i div 8`. -/
theorem ParseReadResponse_coils (pdu : List Nat) (entry : TIRDeviceQueryEntry)
    (hbytes : ∀ b ∈ pdu, b < 256) (hexc : IsException pdu = false)
    (htype : IsSingleBitType entry = true) :
    ∃ bits, ParseReadResponse pdu entry = (EQueryStatus.OK, Except.ok bits) ∧
      bits.length = min entry.Count (8 * byteAt pdu 1) ∧
      bits.length ≤ entry.Count ∧
      ∀ i, i < min entry.Count (8 * byteAt pdu 1) →
        bits.getD i 0 = if (byteAt pdu (2 + i / 8)).testBit (i % 8) then 1 else 0 := by
  rw [ParseReadResponse_no_exception pdu entry hexc]
  simp only [htype, if_true]
  obtain ⟨hl, hv⟩ := decodeCoils_spec
    ((List.range (byteAt pdu 1)).map (fun k => byteAt pdu (2 + k))) entry.Count
  simp only [List.length_map, List.length_range] at hl hv
  refine ⟨_, rfl, hl, by rw [hl]; omega, ?_⟩
  intro i hi
  rw [hv i hi]
  have e1 : byteAt ((List.range (byteAt pdu 1)).map (fun k => byteAt pdu (2 + k))) (i / 8)
      = byteAt pdu (2 + i / 8) := by
    unfold byteAt
    exact getD_map_range _ _ _ (by
      have : i < 8 * pdu.getD 1 0 := by
        have := hi
        unfold byteAt at this
        omega
      omega)
  rw [e1, Nat.mod_eq_of_lt (byteAt_lt pdu hbytes _)]

/-- Witness for C15: the response of the test to the read of coil 0 and coil 1, one data
byte 0x02: coil 0 is 0 and coil 1 is 1. -/
theorem ParseReadResponse_coils_witness :
    (∃ bits, ParseReadResponse [0x01, 0x01, 0x02] ⟨RegisterType.REG_COIL, 0, 2, "coil"⟩
        = (EQueryStatus.OK, Except.ok bits) ∧
      bits.length = min 2 (8 * byteAt [0x01, 0x01, 0x02] 1) ∧
      bits.length ≤ 2 ∧
      ∀ i, i < min 2 (8 * byteAt [0x01, 0x01, 0x02] 1) →
        bits.getD i 0
          = if (byteAt [0x01, 0x01, 0x02] (2 + i / 8)).testBit (i % 8) then 1 else 0) ∧
    ParseReadResponse [0x01, 0x01, 0x02] ⟨RegisterType.REG_COIL, 0, 2, "coil"⟩
      = (EQueryStatus.OK, Except.ok [0, 1]) :=
  ⟨ParseReadResponse_coils [0x01, 0x01, 0x02] ⟨RegisterType.REG_COIL, 0, 2, "coil"⟩
      (by decide) (by decide) (by decide),
    by rfl⟩

/-! ## Frame timeout -/

theorem GetFrameTimeout_eq_ceil (fl : ℚ → ℚ) (hfl : IsDoubleRounding fl) (b : Int)
    (hb : 0 < b) (hb31 : b < 2147483648) :
    GetFrameTimeout fl b = ⌈(35000000 : ℚ) / (b : ℚ)⌉ := by
  obtain ⟨herr, hint⟩ := hfl
  have hbq : (0 : ℚ) < (b : ℚ) := by exact_mod_cast hb
  have hb1 : (1 : ℚ) ≤ (b : ℚ) := by exact_mod_cast hb
  have hbu : (b : ℚ) < 2147483648 := by exact_mod_cast hb31
  have hqb : (35000000 : ℚ) / (b : ℚ) * (b : ℚ) = 35000000 := div_mul_cancel₀ _ (ne_of_gt hbq)
  have hqpos : (0 : ℚ) < (35000000 : ℚ) / (b : ℚ) := div_pos (by norm_num) hbq
  obtain ⟨hz1, hz2⟩ := Int.ceil_eq_iff.mp (rfl : ⌈(35000000 : ℚ) / (b : ℚ)⌉ = _)
  -- the ceiling in integers
  have hz2b : (35000000 : ℚ) ≤ (⌈(35000000 : ℚ) / (b : ℚ)⌉ : ℚ) * (b : ℚ) := by
    have := mul_le_mul_of_nonneg_right hz2 (le_of_lt hbq)
    rwa [hqb] at this
  have hz1b : ((⌈(35000000 : ℚ) / (b : ℚ)⌉ : ℚ) - 1) * (b : ℚ) < 35000000 := by
    have := mul_lt_mul_of_pos_right hz1 hbq
    rwa [hqb] at this
  have hz2i : (35000000 : Int) ≤ ⌈(35000000 : ℚ) / (b : ℚ)⌉ * b := by exact_mod_cast hz2b
  have hz1i : (⌈(35000000 : ℚ) / (b : ℚ)⌉ - 1) * b < 35000000 := by exact_mod_cast hz1b
  unfold GetFrameTimeout
  rw [Int.ceil_eq_iff]
  rcases eq_or_lt_of_le hz2i with heq | hlt
  · -- the quotient is an integer, held exactly
    have hqz : (35000000 : ℚ) / (b : ℚ) = (⌈(35000000 : ℚ) / (b : ℚ)⌉ : ℚ) := by
      rw [div_eq_iff (ne_of_gt hbq)]
      exact_mod_cast heq
    have hzpos : 0 < ⌈(35000000 : ℚ) / (b : ℚ)⌉ := Int.ceil_pos.mpr hqpos
    have hzle : ⌈(35000000 : ℚ) / (b : ℚ)⌉ ≤ 35000000 := by nlinarith
    have habs : |⌈(35000000 : ℚ) / (b : ℚ)⌉| < 2 ^ 53 := by
      rw [abs_of_pos hzpos]
      omega
    have hfix := hint _ habs
    rw [← hqz] at hfix
    rw [hfix]
    exact ⟨hz1, hz2⟩
  · -- the quotient is at least 1/b away from both neighbouring integers
    have hlt1 : (35000000 : Int) + 1 ≤ ⌈(35000000 : ℚ) / (b : ℚ)⌉ * b := by omega
    have hlow : (⌈(35000000 : ℚ) / (b : ℚ)⌉ - 1) * b ≤ 35000000 - 1 := by omega
    have hlt1q : (35000000 : ℚ) + 1 ≤ (⌈(35000000 : ℚ) / (b : ℚ)⌉ : ℚ) * (b : ℚ) := by
      exact_mod_cast hlt1
    have hlowq : ((⌈(35000000 : ℚ) / (b : ℚ)⌉ : ℚ) - 1) * (b : ℚ) ≤ 35000000 - 1 := by
      exact_mod_cast hlow
    have habsq : |(35000000 : ℚ) / (b : ℚ)| = (35000000 : ℚ) / (b : ℚ) := abs_of_pos hqpos
    have hqle : (35000000 : ℚ) / (b : ℚ) ≤ 35000000 := by
      rw [div_le_iff₀ hbq]
      nlinarith
    have hqge : (1 : ℚ) / 100 ≤ (35000000 : ℚ) / (b : ℚ) := by
      rw [le_div_iff₀ hbq]
      nlinarith
    have hsmall : (1 : ℚ) / 2 ^ 1022 ≤ 1 / 100 := by
      exact one_div_le_one_div_of_le (by norm_num) (by norm_num)
    have hbig : (35000000 : ℚ) ≤ 2 ^ 1023 := by norm_num
    have he := herr ((35000000 : ℚ) / (b : ℚ)) (by rw [habsq]; linarith) (by rw [habsq]; linarith)
    rw [habsq, abs_le] at he
    obtain ⟨he1, he2⟩ := he
    -- the error, times b, is below 1
    have heb : (35000000 : ℚ) / (b : ℚ) / 2 ^ 53 * (b : ℚ) < 1 := by
      have : (35000000 : ℚ) / (b : ℚ) / 2 ^ 53 * (b : ℚ) = 35000000 / 2 ^ 53 := by
        field_simp
        ring
      rw [this]
      norm_num
    have hup : fl ((35000000 : ℚ) / (b : ℚ)) * (b : ℚ) < 35000000 + 1 := by
      have := mul_le_mul_of_nonneg_right he2 (le_of_lt hbq)
      nlinarith
    have hdn : (35000000 : ℚ) - 1 < fl ((35000000 : ℚ) / (b : ℚ)) * (b : ℚ) := by
      have := mul_le_mul_of_nonneg_right he1 (le_of_lt hbq)
      nlinarith
    constructor
    · by_contra hcon
      push_neg at hcon
      have := mul_le_mul_of_nonneg_right hcon (le_of_lt hbq)
      linarith
    · by_contra hcon
      push_neg at hcon
      have := mul_lt_mul_of_pos_right hcon hbq
      linarith

/-- C19: with `fl` a rounding to the nearest `double`, for every positive baud rate `b`
of type `int`, `GetFrameTimeout(b)` is exactly the ceiling of 35000000 / b, that is the
least number of microseconds `t` with `t * b ≥ 35000000` (3.5 characters of 10 bits);
it is 3646 for 9600 baud and 304 for 115200 baud. -/
theorem GetFrameTimeout_spec (fl : ℚ → ℚ) (hfl : IsDoubleRounding fl) :
    (∀ b : Int, 0 < b → b < 2147483648 →
      GetFrameTimeout fl b = ⌈(35000000 : ℚ) / (b : ℚ)⌉ ∧
      (GetFrameTimeout fl b - 1) * b < 35000000 ∧
      35000000 ≤ GetFrameTimeout fl b * b) ∧
    GetFrameTimeout fl 9600 = 3646 ∧
    GetFrameTimeout fl 115200 = 304 := by
  have key : ∀ b : Int, 0 < b → b < 2147483648 →
      GetFrameTimeout fl b = ⌈(35000000 : ℚ) / (b : ℚ)⌉ ∧
      (GetFrameTimeout fl b - 1) * b < 35000000 ∧
      35000000 ≤ GetFrameTimeout fl b * b := by
    intro b hb hb31
    have hbq : (0 : ℚ) < (b : ℚ) := by exact_mod_cast hb
    have hqb : (35000000 : ℚ) / (b : ℚ) * (b : ℚ) = 35000000 :=
      div_mul_cancel₀ _ (ne_of_gt hbq)
    have heq := GetFrameTimeout_eq_ceil fl hfl b hb hb31
    obtain ⟨hz1, hz2⟩ := Int.ceil_eq_iff.mp heq.symm
    have hz2b : (35000000 : ℚ) ≤ (GetFrameTimeout fl b : ℚ) * (b : ℚ) := by
      have := mul_le_mul_of_nonneg_right hz2 (le_of_lt hbq)
      rwa [hqb] at this
    have hz1b : ((GetFrameTimeout fl b : ℚ) - 1) * (b : ℚ) < 35000000 := by
      have := mul_lt_mul_of_pos_right hz1 hbq
      rwa [hqb] at this
    exact ⟨heq, by exact_mod_cast hz1b, by exact_mod_cast hz2b⟩
  refine ⟨key, ?_, ?_⟩
  · obtain ⟨-, h1, h2⟩ := key 9600 (by norm_num) (by norm_num)
    omega
  · obtain ⟨-, h1, h2⟩ := key 115200 (by norm_num) (by norm_num)
    omega

/-- Witness for C19: exact arithmetic is a rounding with no error. -/
theorem GetFrameTimeout_spec_witness :
    (∀ b : Int, 0 < b → b < 2147483648 →
      GetFrameTimeout id b = ⌈(35000000 : ℚ) / (b : ℚ)⌉ ∧
      (GetFrameTimeout id b - 1) * b < 35000000 ∧
      35000000 ≤ GetFrameTimeout id b * b) ∧
    GetFrameTimeout id 9600 = 3646 ∧
    GetFrameTimeout id 115200 = 304 :=
  GetFrameTimeout_spec id (by
    unfold IsDoubleRounding
    refine ⟨?_, ?_⟩
    · intro q _ _
      rw [id, sub_self, abs_zero]
      exact div_nonneg (abs_nonneg q) (by norm_num)
    · intro n _
      rfl)

/-! ## Count validation, expected sizes and function codes -/

set_option maxRecDepth 100000 in
/-- C16, as stated, fails: a read of 126 holding registers and a read of 2001 coils
each produce a request, with the count 126 = 0x007E and 2001 = 0x07D1 in bytes 4-5. -/
theorem ComposeReadRequest_above_protocol_maximum :
    ComposeReadRequest CalculateCRC16 ⟨RegisterType.REG_HOLDING, 0, 126, "holding"⟩ 1 0
      = some [0x01, 0x03, 0x00, 0x00, 0x00, 0x7E, 0xC5, 0xEA] ∧
    ComposeReadRequest CalculateCRC16 ⟨RegisterType.REG_COIL, 0, 2001, "coil"⟩ 1 0
      = some [0x01, 0x01, 0x00, 0x00, 0x07, 0xD1, 0xFE, 0x66] ∧
    MAX_READ_REGISTERS < 126 ∧ MAX_READ_BITS < 2001 := by
  refine ⟨by rfl, by rfl, by decide, by decide⟩

/-- C16, amended: building a read request validates no element count.  For every entry,
whatever its count (125 or 126 sixteen-bit registers, 2000 or 2001 single-bit elements),
`ComposeReadRequestPDU` and `ComposeReadRequest` produce a request whose count field
holds the count mod 65536; the protocol maxima 125 and 2000 are what
`GetMaxReadRegisters` and `GetMaxReadBits` report. -/
theorem ComposeReadRequest_validates_no_count (crc : List Nat → Nat)
    (entry : TIRDeviceQueryEntry) (slaveId : Nat) (shift : Int) :
    (∀ (buf : List Nat) (pdu : Nat),
      ∃ out, ComposeReadRequestPDU buf pdu entry shift = some out) ∧
    (∃ req, ComposeReadRequest crc entry slaveId shift = some req ∧
      byteAt req 4 = entry.Count % 65536 / 256 ∧
      byteAt req 5 = entry.Count % 65536 % 256) ∧
    GetMaxReadRegisters = 125 ∧ GetMaxReadBits = 2000 := by
  refine ⟨?_, ?_, rfl, rfl⟩
  · intro buf pdu
    simp only [ComposeReadRequestPDU, GetFunction_read]
    exact ⟨_, rfl⟩
  · obtain ⟨hi, lo, hreq⟩ := ComposeReadRequest_eq crc entry slaveId shift
    refine ⟨_, hreq, ?_, rfl⟩
    show entry.Count % 65536 / 256 % 256 = _
    omega

theorem IsException_eq_testBit (pdu : List Nat) :
    IsException pdu = (byteAt pdu 0).testBit 7 := by
  unfold IsException EXCEPTION_BIT
  cases h : (byteAt pdu 0).testBit 7
  · have : byteAt pdu 0 &&& 128 = 0 := by
      apply Nat.eq_of_testBit_eq
      intro i
      rw [Nat.testBit_and, Nat.zero_testBit, show (128 : Nat) = 2 ^ 7 from rfl,
        Nat.testBit_two_pow]
      by_cases hi : 7 = i
      · subst hi
        simp [h]
      · simp [hi]
    simp [this]
  · have : (byteAt pdu 0 &&& 128).testBit 7 = true := by
      rw [Nat.testBit_and, h, show (128 : Nat) = 2 ^ 7 from rfl, Nat.testBit_two_pow_self]
      rfl
    have hne : byteAt pdu 0 &&& 128 ≠ 0 := by
      intro h0
      rw [h0, Nat.zero_testBit] at this
      exact Bool.noConfusion this
    simp [hne]

/-- C17: the predicate of `ExpectNBytes(n)` is false when `size < 2`; from 2 bytes on it
is true exactly when `size ≥ 5` if the function byte has its high bit set, whatever `n`,
and exactly when `size ≥ n` otherwise.  For a fixed buffer content it is monotone in
`size`. -/
theorem ExpectNBytes_spec (n : Int) (buf : List Nat) (size : Int) :
    (size < 2 → ExpectNBytes n buf size = false) ∧
    (2 ≤ size → (byteAt buf 1).testBit 7 = true →
      (ExpectNBytes n buf size = true ↔ 5 ≤ size)) ∧
    (2 ≤ size → (byteAt buf 1).testBit 7 = false →
      (ExpectNBytes n buf size = true ↔ n ≤ size)) ∧
    (∀ size' : Int, size ≤ size' → ExpectNBytes n buf size = true →
      ExpectNBytes n buf size' = true) := by
  have hexc : IsException (PDU buf) = (byteAt buf 1).testBit 7 := by
    rw [IsException_eq_testBit, byteAt_PDU]
  have h5 : ((EXCEPTION_RESPONSE_PDU_SIZE + DATA_SIZE : Nat) : Int) = 5 := rfl
  refine ⟨?_, ?_, ?_, ?_⟩
  · intro h
    simp [ExpectNBytes, h]
  · intro h hb
    simp [ExpectNBytes, not_lt.mpr h, hexc, hb, h5]
  · intro h hb
    simp [ExpectNBytes, not_lt.mpr h, hexc, hb]
  · intro size' hle
    unfold ExpectNBytes
    rw [hexc, h5]
    by_cases h2 : size < 2
    · simp [h2]
    · have h2' : ¬ size' < 2 := by omega
      simp only [h2, h2', if_false]
      cases (byteAt buf 1).testBit 7
      · simp only [Bool.false_eq_true, if_false, decide_eq_true_eq]
        intro h
        omega
      · simp only [if_true, decide_eq_true_eq]
        intro h
        omega

/-- C18: for a read of count `c` within the protocol maximum of its kind, the expected
response PDU size is `2 + 2c` for a 16-bit kind and `2 + ceil(c / 8)` for a single-bit
kind, the expected ADU size is 3 more, the payload length is at most 250, and the PDU
size equals `ReadResponsePDUSize` of a response without the exception bit whose
byte-count byte holds the payload length. -/
theorem InferReadResponsePDUSize_spec (entry : TIRDeviceQueryEntry) (pdu : List Nat)
    (hc1 : 1 ≤ entry.Count)
    (hmax : entry.Count ≤ (if IsSingleBitType entry then MAX_READ_BITS else MAX_READ_REGISTERS))
    (hexc : IsException pdu = false)
    (hbc : byteAt pdu 1 = (InferReadResponsePDUSize entry - 2) % 256) :
    (IsSingleBitType entry = false → InferReadResponsePDUSize entry = 2 + 2 * entry.Count) ∧
    (IsSingleBitType entry = true →
      ∃ k, InferReadResponsePDUSize entry = 2 + k ∧
        entry.Count ≤ 8 * k ∧ 8 * k < entry.Count + 8) ∧
    InferReadResponseSize entry = InferReadResponsePDUSize entry + 3 ∧
    InferReadResponsePDUSize entry - 2 ≤ 250 ∧
    ReadResponsePDUSize pdu = InferReadResponsePDUSize entry := by
  have hsz : InferReadResponsePDUSize entry - 2 ≤ 250 ∧ 2 ≤ InferReadResponsePDUSize entry := by
    unfold InferReadResponsePDUSize
    cases hb : IsSingleBitType entry
    · simp only [hb, Bool.false_eq_true, if_false, MAX_READ_REGISTERS] at hmax ⊢
      omega
    · simp only [hb, if_true, MAX_READ_BITS] at hmax ⊢
      omega
  refine ⟨?_, ?_, rfl, hsz.1, ?_⟩
  · intro hb
    simp only [InferReadResponsePDUSize, hb, Bool.false_eq_true, if_false]
    omega
  · intro hb
    refine ⟨(entry.Count + 7) / 8, by simp only [InferReadResponsePDUSize, hb, if_true], ?_, ?_⟩
    · omega
    · omega
  · simp only [ReadResponsePDUSize, hexc, Bool.false_eq_true, if_false, hbc]
    omega

/-- Witness for C18: the read of the four registers of holding@30 and its response with
byte count 8. -/
theorem InferReadResponsePDUSize_spec_witness :
    (IsSingleBitType ⟨RegisterType.REG_HOLDING, 30, 4, "holding"⟩ = false →
      InferReadResponsePDUSize ⟨RegisterType.REG_HOLDING, 30, 4, "holding"⟩ = 2 + 2 * 4) ∧
    (IsSingleBitType ⟨RegisterType.REG_HOLDING, 30, 4, "holding"⟩ = true →
      ∃ k, InferReadResponsePDUSize ⟨RegisterType.REG_HOLDING, 30, 4, "holding"⟩ = 2 + k ∧
        4 ≤ 8 * k ∧ 8 * k < 4 + 8) ∧
    InferReadResponseSize ⟨RegisterType.REG_HOLDING, 30, 4, "holding"⟩
      = InferReadResponsePDUSize ⟨RegisterType.REG_HOLDING, 30, 4, "holding"⟩ + 3 ∧
    InferReadResponsePDUSize ⟨RegisterType.REG_HOLDING, 30, 4, "holding"⟩ - 2 ≤ 250 ∧
    ReadResponsePDUSize [0x03, 0x08, 0x01, 0x02, 0x03, 0x04, 0x05, 0x06, 0x07, 0x08]
      = InferReadResponsePDUSize ⟨RegisterType.REG_HOLDING, 30, 4, "holding"⟩ :=
  InferReadResponsePDUSize_spec ⟨RegisterType.REG_HOLDING, 30, 4, "holding"⟩
    [0x03, 0x08, 0x01, 0x02, 0x03, 0x04, 0x05, 0x06, 0x07, 0x08]
    (by decide) (by decide) (by decide) (by decide)

/-- C20, as stated, fails: a write entry of the single-write kind covering two elements
gets the single-write function 0x06, not 0x10, and a coil entry covering two elements
gets 0x05, not 0x0F. -/
theorem GetFunction_single_write_for_many_elements :
    GetFunction ⟨RegisterType.REG_HOLDING_SINGLE, 0, 2, "holding"⟩ OperationType.OP_WRITE
      = some 0x06 ∧
    GetFunction ⟨RegisterType.REG_COIL, 0, 2, "coil"⟩ OperationType.OP_WRITE = some 0x05 := by
  decide

/-- C20, amended: reads use 0x03 for the three holding kinds, 0x04 for input, 0x01 for
coil and 0x02 for discrete.  A write uses the multi-write function 0x10 when the kind is
write-multi, or when the kind is the general holding kind and the entry covers more than
one element; it uses the single-write function 0x06 for the general holding kind with
at most one element and for the single-write kind whatever the count, and 0x05 for a
coil entry of at most one element.  A write to an input or discrete entry is rejected. -/
theorem GetFunction_spec (entry : TIRDeviceQueryEntry) :
    GetFunction entry OperationType.OP_READ
      = some (match entry.RegType with
        | RegisterType.REG_HOLDING => 0x03
        | RegisterType.REG_HOLDING_SINGLE => 0x03
        | RegisterType.REG_HOLDING_MULTI => 0x03
        | RegisterType.REG_INPUT => 0x04
        | RegisterType.REG_COIL => 0x01
        | RegisterType.REG_DISCRETE => 0x02) ∧
    (entry.RegType = RegisterType.REG_HOLDING_MULTI →
      GetFunction entry OperationType.OP_WRITE = some 0x10) ∧
    (entry.RegType = RegisterType.REG_HOLDING →
      GetFunction entry OperationType.OP_WRITE
        = some (if entry.Count > 1 then 0x10 else 0x06)) ∧
    (entry.RegType = RegisterType.REG_HOLDING_SINGLE →
      GetFunction entry OperationType.OP_WRITE = some 0x06) ∧
    (entry.RegType = RegisterType.REG_COIL → entry.Count ≤ 1 →
      GetFunction entry OperationType.OP_WRITE = some 0x05) ∧
    (entry.RegType = RegisterType.REG_INPUT ∨ entry.RegType = RegisterType.REG_DISCRETE →
      GetFunction entry OperationType.OP_WRITE = none) := by
  refine ⟨?_, ?_, ?_, ?_, ?_, ?_⟩
  · cases h : entry.RegType <;> simp [GetFunction, h, FN_READ_HOLDING, FN_READ_INPUT,
      FN_READ_COILS, FN_READ_DISCRETE]
  · intro h
    simp [GetFunction, h, IsPacking, FN_WRITE_MULTIPLE_REGISTERS]
  · intro h
    by_cases hc : entry.Count > 1
    · simp [GetFunction, h, IsPacking, hc, FN_WRITE_MULTIPLE_REGISTERS]
    · simp [GetFunction, h, IsPacking, hc, FN_WRITE_SINGLE_REGISTER]
  · intro h
    simp [GetFunction, h, IsPacking, FN_WRITE_SINGLE_REGISTER]
  · intro h _
    simp [GetFunction, h, IsPacking, FN_WRITE_SINGLE_COIL]
  · intro h
    rcases h with h | h <;> simp [GetFunction, h]

/-! ## Word order of single writes -/

theorem ComposeSingleWriteRequestPDU_holding_single (crc : List Nat → Nat)
    (reg : TIRDeviceWriteQueryEntry) (slaveId value : Nat) (shift : Int)
    (ht : reg.RegType = RegisterType.REG_HOLDING_SINGLE) :
    ∃ req, ComposeSingleWriteRequestPDU
        ((List.replicate (InferWriteRequestSize reg) 0).set 0 (slaveId % 256)) 1 reg value shift
        = some req ∧
      WriteAs2Bytes req (req.length - 2) (crc (req.take (req.length - 2)) % 65536) =
        singleRegisterWriteFrame crc slaveId
          ((((reg.Start : Int) + shift) % 65536).toNat) (value % 65536) := by
  have hsz : InferWriteRequestSize reg = 8 := by
    simp [InferWriteRequestSize, InferWriteRequestPDUSize, IsPacking, ht, DATA_SIZE]
  have hfn : GetFunction reg.toTIRDeviceQueryEntry OperationType.OP_WRITE = some 6 := by
    simp [GetFunction, ht, IsPacking, FN_WRITE_SINGLE_REGISTER]
  have hm := shiftedStart_mod reg.toTIRDeviceQueryEntry shift
  refine ⟨_, by rw [ComposeSingleWriteRequestPDU, hfn, hsz], ?_⟩
  have h1 : ∀ x : Nat, x % 65536 / 256 % 256 = x % 65536 / 256 := fun x => by omega
  simp only [ht, hsz]
  simp only [WriteAs2Bytes, singleRegisterWriteFrame, List.replicate, ← hm, List.set_cons_zero,
    List.set_cons_succ, List.length_cons, List.length_nil, List.take, h1, Nat.mod_mod,
    List.cons_append, List.nil_append, Nat.reduceAdd, Nat.reduceSub, List.length_set]
  simp [h1]

theorem composeWriteRequestsFrom_holding_single (crc : List Nat → Nat)
    (reg : TIRDeviceWriteQueryEntry) (slaveId : Nat) (shift : Int) (size : Nat)
    (ht : reg.RegType = RegisterType.REG_HOLDING_SINGLE) :
    ∀ (remaining value : Nat), remaining ≤ size →
      ∃ reqs, composeWriteRequestsFrom crc reg slaveId shift size remaining value = some reqs ∧
        reqs.length = remaining ∧
        ∀ j, j < remaining →
          reqs.getD j [] = singleRegisterWriteFrame crc slaveId
            ((((reg.Start : Int) + shift + (size : Int) - ((size - remaining + j : Nat) : Int) - 1)
              % 65536).toNat)
            (value / 65536 ^ j % 65536) := by
  have hp : IsPackingReg reg.toTIRDeviceQueryEntry = false := by simp [IsPackingReg, ht]
  intro remaining
  induction remaining with
  | zero =>
    intro value _
    exact ⟨[], by simp [composeWriteRequestsFrom], rfl, fun j hj => absurd hj (by omega)⟩
  | succ n ih =>
    intro value hle
    obtain ⟨rest, hrest, hlen, hprop⟩ := ih (value / 65536) (by omega)
    obtain ⟨req, hreq, hframe⟩ := ComposeSingleWriteRequestPDU_holding_single crc reg slaveId
      (value % 65536) (shift + (size : Int) - ((size - (n + 1) : Nat) : Int) - 1) ht
    refine ⟨WriteAs2Bytes req (req.length - 2) (crc (req.take (req.length - 2)) % 65536) :: rest,
      ?_, by simp [hlen], ?_⟩
    · rw [composeWriteRequestsFrom]
      simp only [hp, Bool.false_eq_true, if_false, hreq, hrest]
    · intro j hj
      cases j with
      | zero =>
        simp only [List.getD_cons_zero, hframe, pow_zero, Nat.div_one, Nat.mod_mod, Nat.add_zero]
        congr 2
        omega
      | succ j =>
        simp only [List.getD_cons_succ]
        rw [hprop j (by omega), Nat.div_div_eq_div_mul, pow_succ, Nat.mul_comm]
        congr 2
        omega

set_option maxRecDepth 100000 in
/-- C21 (counterexample): a register of width 2 at address 0 written with single-write
requests, value 0x00010002: the two requests are the same whatever the word order of the
device (`ComposeWriteRequests` has no word-order input), and the request for address 0
carries 0x0001, the big-endian word, where little-endian word order asks for 0x0002. -/
theorem ComposeWriteRequests_ignores_word_order :
    ComposeWriteRequests CalculateCRC16
      { RegType := RegisterType.REG_HOLDING_SINGLE, Start := 0, Count := 2,
        TypeName := "holding", Values := [] } 1 0x00010002 0 =
      some [[1, 6, 0, 1, 0, 2, 0x59, 0xCB], [1, 6, 0, 0, 0, 1, 0x48, 0x0A]] ∧
    wordAtOffset EWordOrder.BigEndian 2 0x00010002 0 = 1 ∧
    wordAtOffset EWordOrder.LittleEndian 2 0x00010002 0 = 2 := by
  refine ⟨by rfl, by decide, by decide⟩

/-- C21 (amended): for a register of the single-write 16-bit kind with width `w`,
`ComposeWriteRequests` produces exactly `w` write-single-register frames, and the frame
for address base + shift + k (the request of index w - 1 - k) carries bits
[16(w-1-k), 16(w-k)) of the 64-bit value: the words always go out in big-endian word
order. -/
theorem ComposeWriteRequests_single_writes_big_endian (crc : List Nat → Nat)
    (reg : TIRDeviceWriteQueryEntry) (slaveId value : Nat) (shift : Int)
    (ht : reg.RegType = RegisterType.REG_HOLDING_SINGLE) :
    ∃ reqs, ComposeWriteRequests crc reg slaveId value shift = some reqs ∧
      reqs.length = reg.Count ∧
      ∀ k, k < reg.Count →
        reqs.getD (reg.Count - 1 - k) [] =
          singleRegisterWriteFrame crc slaveId
            ((((reg.Start : Int) + shift + (k : Int)) % 65536).toNat)
            (wordAtOffset EWordOrder.BigEndian reg.Count (value % 18446744073709551616) k) := by
  have hsize : InferWriteRequestsCount reg = reg.Count := by
    simp [InferWriteRequestsCount, IsPacking, ht]
  obtain ⟨reqs, hreqs, hlen, hprop⟩ := composeWriteRequestsFrom_holding_single crc reg slaveId
    shift reg.Count ht reg.Count (value % 18446744073709551616) (le_refl _)
  refine ⟨reqs, by rw [ComposeWriteRequests, hsize]; exact hreqs, hlen, ?_⟩
  intro k hk
  rw [hprop (reg.Count - 1 - k) (by omega)]
  unfold wordAtOffset
  simp only
  rw [show (65536 : Nat) = 2 ^ 16 by norm_num, ← pow_mul]
  congr 2
  omega

set_option maxRecDepth 100000 in
theorem ComposeWriteRequests_single_writes_big_endian_witness :
    ∃ reqs, ComposeWriteRequests CalculateCRC16
        { RegType := RegisterType.REG_HOLDING_SINGLE, Start := 0, Count := 2,
          TypeName := "holding", Values := [] } 1 0x00010002 0 = some reqs ∧
      reqs.length = 2 ∧
      ∀ k, k < 2 →
        reqs.getD (2 - 1 - k) [] =
          singleRegisterWriteFrame CalculateCRC16 1
            ((((0 : Nat) : Int) + 0 + (k : Int)) % 65536).toNat
            (wordAtOffset EWordOrder.BigEndian 2 (0x00010002 % 18446744073709551616) k) :=
  ComposeWriteRequests_single_writes_big_endian CalculateCRC16
    { RegType := RegisterType.REG_HOLDING_SINGLE, Start := 0, Count := 2,
      TypeName := "holding", Values := [] } 1 0x00010002 0 rfl

/-! ## Register quantity -/

section DeviceQueries

open IR IR.TIRDeviceQuery

theorem construct_eq (memoryBlockRange : List TMemoryBlock)
    (virtualRegisters : List TVirtualRegister) (operation : EQueryOperation)
    (hne : memoryBlockRange ≠ []) (hsame : IsSameTypeAndSize memoryBlockRange = true) :
    construct memoryBlockRange virtualRegisters operation = some
      { MemoryBlockRange := memoryBlockRange
        VirtualRegisters := virtualRegisters
        HasHoles := DetectHoles memoryBlockRange
        Operation := operation
        Status := IR.EQueryStatus.NotExecuted
        AbleToSplit := decide (virtualRegisters.length > 1) } := by
  unfold construct
  rw [if_pos ⟨hne, hsame⟩]

theorem SetStatus_fields (q : TIRDeviceQuery) (status : IR.EQueryStatus) :
    (q.SetStatus status).Status = status ∧
    (q.SetStatus status).AbleToSplit = q.AbleToSplit ∧
    (q.SetStatus status).HasHoles = q.HasHoles ∧
    (q.SetStatus status).Operation = q.Operation ∧
    (q.SetStatus status).MemoryBlockRange = q.MemoryBlockRange := by
  unfold SetStatus
  simp only
  split
  · split <;> exact ⟨rfl, rfl, rfl, rfl, rfl⟩
  · exact ⟨rfl, rfl, rfl, rfl, rfl⟩

/-- C23: a query constructed over a memory block range of one type and size has status
not-executed, `IsExecuted` is false, and it is able to split if and only if it covers
more than one register; a query over a single register is not able to split. -/
theorem construct_status_and_split (memoryBlockRange : List TMemoryBlock)
    (virtualRegisters : List TVirtualRegister) (operation : EQueryOperation)
    (hne : memoryBlockRange ≠ []) (hsame : IsSameTypeAndSize memoryBlockRange = true) :
    ∃ q, construct memoryBlockRange virtualRegisters operation = some q ∧
      q.GetStatus = IR.EQueryStatus.NotExecuted ∧
      q.IsExecuted = false ∧
      (q.IsAbleToSplit = true ↔ 1 < virtualRegisters.length) ∧
      (virtualRegisters.length = 1 → q.IsAbleToSplit = false) := by
  refine ⟨_, construct_eq _ _ _ hne hsame, rfl, rfl, ?_, ?_⟩
  · simp [IsAbleToSplit]
  · intro h
    simp [IsAbleToSplit, h]

theorem construct_status_and_split_witness :
    ∃ q, construct [⟨4, 0, 2⟩, ⟨5, 0, 2⟩]
        [⟨0, [⟨4, 0, 2⟩], 0, 0, false, false, false, true⟩,
         ⟨1, [⟨5, 0, 2⟩], 0, 0, false, false, false, true⟩] EQueryOperation.Read = some q ∧
      q.GetStatus = IR.EQueryStatus.NotExecuted ∧
      q.IsExecuted = false ∧
      (q.IsAbleToSplit = true ↔ 1 < 2) ∧
      (2 = 1 → q.IsAbleToSplit = false) :=
  construct_status_and_split [⟨4, 0, 2⟩, ⟨5, 0, 2⟩]
    [⟨0, [⟨4, 0, 2⟩], 0, 0, false, false, false, true⟩,
     ⟨1, [⟨5, 0, 2⟩], 0, 0, false, false, false, true⟩] EQueryOperation.Read
    (by decide) (by decide)

/-- C24 (counterexample): a read query over two registers at the adjacent addresses 4
and 5 has no address gap, yet after the status of an illegal-address answer (the
permanent error) its splittable flag is set; and a query over registers at 4 and 6, with
a gap, has the flag set after any status, the transient one of other exception codes
included. -/
theorem SetStatus_keeps_split_flag_without_gap :
    (∃ q, construct [⟨4, 0, 2⟩, ⟨5, 0, 2⟩]
        [⟨0, [⟨4, 0, 2⟩], 0, 0, false, false, false, true⟩,
         ⟨1, [⟨5, 0, 2⟩], 0, 0, false, false, false, true⟩] EQueryOperation.Read = some q ∧
      q.HasHoles = false ∧
      (q.SetStatus IR.EQueryStatus.DevicePermanentError).IsAbleToSplit = true) ∧
    (∃ q, construct [⟨4, 0, 2⟩, ⟨6, 0, 2⟩]
        [⟨0, [⟨4, 0, 2⟩], 0, 0, false, false, false, true⟩,
         ⟨1, [⟨6, 0, 2⟩], 0, 0, false, false, false, true⟩] EQueryOperation.Read = some q ∧
      q.HasHoles = true ∧
      (q.SetStatus IR.EQueryStatus.DeviceTransientError).IsAbleToSplit = true) := by
  refine ⟨⟨_, rfl, by decide, by decide⟩, ⟨_, rfl, by decide, by decide⟩⟩

/-- C24 (amended): the splittable flag of a query is fixed at construction to "covers
more than one register"; `SetStatus` with any status, so whatever exception code the
device answered with, leaves it and the `HasHoles` flag as constructed, whether or not
the registers have an address gap between them; only `SetAbleToSplit` changes the flag. -/
theorem SetStatus_keeps_split_flag (memoryBlockRange : List TMemoryBlock)
    (virtualRegisters : List TVirtualRegister) (operation : EQueryOperation)
    (hne : memoryBlockRange ≠ []) (hsame : IsSameTypeAndSize memoryBlockRange = true) :
    ∃ q, construct memoryBlockRange virtualRegisters operation = some q ∧
      ∀ status : IR.EQueryStatus,
        ((q.SetStatus status).IsAbleToSplit = true ↔ 1 < virtualRegisters.length) ∧
        (q.SetStatus status).HasHoles = DetectHoles memoryBlockRange ∧
        ∀ b : Bool, (((q.SetStatus status).SetAbleToSplit b).SetStatus status).IsAbleToSplit = b := by
  refine ⟨_, construct_eq _ _ _ hne hsame, ?_⟩
  intro status
  refine ⟨?_, ?_, ?_⟩
  · unfold IsAbleToSplit
    rw [(SetStatus_fields _ status).2.1]
    simp
  · rw [(SetStatus_fields _ status).2.2.1]
  · intro b
    unfold IsAbleToSplit
    rw [(SetStatus_fields _ status).2.1]
    rfl

theorem SetStatus_keeps_split_flag_witness :
    ∃ q, construct [⟨4, 0, 2⟩, ⟨6, 0, 2⟩]
        [⟨0, [⟨4, 0, 2⟩], 0, 0, false, false, false, true⟩,
         ⟨1, [⟨6, 0, 2⟩], 0, 0, false, false, false, true⟩] EQueryOperation.Write = some q ∧
      ∀ status : IR.EQueryStatus,
        ((q.SetStatus status).IsAbleToSplit = true ↔ 1 < 2) ∧
        (q.SetStatus status).HasHoles = DetectHoles [⟨4, 0, 2⟩, ⟨6, 0, 2⟩] ∧
        ∀ b : Bool, (((q.SetStatus status).SetAbleToSplit b).SetStatus status).IsAbleToSplit = b :=
  SetStatus_keeps_split_flag [⟨4, 0, 2⟩, ⟨6, 0, 2⟩]
    [⟨0, [⟨4, 0, 2⟩], 0, 0, false, false, false, true⟩,
     ⟨1, [⟨6, 0, 2⟩], 0, 0, false, false, false, true⟩] EQueryOperation.Write
    (by decide) (by decide)


theorem detectHolesFrom_spec : ∀ (l : List TMemoryBlock) (prev : Nat),
    l ≠ [] →
    List.Pairwise (fun a b : TMemoryBlock => a.Address < b.Address) l →
    (∀ mb ∈ l, prev < mb.Address) →
    prev + l.length ≤ (l.getLastD default).Address ∧
    (detectHolesFrom (prev : Int) l = true ↔ prev + l.length < (l.getLastD default).Address) := by
  intro l
  induction l with
  | nil => intro prev h; exact absurd rfl h
  | cons a rest ih =>
    intro prev _ hp hprev
    have ha : prev < a.Address := hprev a (List.mem_cons_self _ _)
    rw [List.pairwise_cons] at hp
    cases hrest : rest with
    | nil =>
      simp only [detectHolesFrom, List.length_cons, List.length_nil, List.getLastD_cons,
        List.getLastD_nil]
      constructor
      · omega
      · simp only [ite_eq_left_iff, not_and, not_lt, Bool.false_eq_true, imp_false, Classical.not_imp,
          not_le]
        omega
    | cons b rest2 =>
      subst hrest
      obtain ⟨h1, h2⟩ := ih a.Address (by simp) hp.2 hp.1
      simp only [List.getLastD_cons, List.length_cons] at h1 h2 ⊢
      constructor
      · omega
      · rw [detectHolesFrom]
        by_cases hgap : (prev : Int) ≥ 0 ∧ (a.Address : Int) - (prev : Int) > 1
        · rw [if_pos hgap]
          simp only [true_iff]
          omega
        · rw [if_neg hgap, h2]
          omega

theorem DetectHoles_spec (l : List TMemoryBlock) (hne : l ≠ [])
    (hp : List.Pairwise (fun a b : TMemoryBlock => a.Address < b.Address) l) :
    (l.headD default).Address + l.length ≤ (l.getLastD default).Address + 1 ∧
    (DetectHoles l = true ↔
      (l.headD default).Address + l.length < (l.getLastD default).Address + 1) := by
  cases l with
  | nil => exact absurd rfl hne
  | cons a rest =>
    rw [List.pairwise_cons] at hp
    have h0 : DetectHoles (a :: rest) = detectHolesFrom (a.Address : Int) rest := by
      unfold DetectHoles
      rw [detectHolesFrom, if_neg (by omega)]
    rw [h0]
    cases hrest : rest with
    | nil => simp [detectHolesFrom]
    | cons b rest2 =>
      subst hrest
      obtain ⟨h1, h2⟩ := detectHolesFrom_spec (b :: rest2) a.Address (by simp) hp.2 hp.1
      simp only [List.headD_cons, List.getLastD_cons, List.length_cons] at h1 h2 ⊢
      constructor
      · omega
      · rw [h2]
        omega

/-- C25: for every query whose memory blocks have strictly increasing addresses (as
`int` values, below 2^31), `GetStart` is the first block's address, `GetBlockCount` is
last address - first address + 1, `GetSize` is `GetBlockSize * GetBlockCount` in 32-bit
arithmetic (the product itself when it fits), and the `HasHoles` flag is true if and only
if `GetBlockCount` is greater than the number of memory blocks in the range. -/
theorem TIRDeviceQuery_geometry (memoryBlockRange : List TMemoryBlock)
    (virtualRegisters : List TVirtualRegister) (operation : EQueryOperation)
    (hne : memoryBlockRange ≠ []) (hsame : IsSameTypeAndSize memoryBlockRange = true)
    (hp : List.Pairwise (fun a b : TMemoryBlock => a.Address < b.Address) memoryBlockRange)
    (hb : ∀ mb ∈ memoryBlockRange, mb.Address < 2147483648) :
    ∃ q, construct memoryBlockRange virtualRegisters operation = some q ∧
      q.GetStart = (memoryBlockRange.headD default).Address ∧
      q.GetBlockCount =
        (memoryBlockRange.getLastD default).Address - (memoryBlockRange.headD default).Address + 1 ∧
      q.GetSize = q.GetBlockSize * q.GetBlockCount % 4294967296 ∧
      (q.GetBlockSize * q.GetBlockCount < 4294967296 →
        q.GetSize = q.GetBlockSize * q.GetBlockCount) ∧
      (q.HasHoles = true ↔ memoryBlockRange.length < q.GetBlockCount) := by
  obtain ⟨hle, hholes⟩ := DetectHoles_spec memoryBlockRange hne hp
  have hfirst : (memoryBlockRange.headD default).Address < 2147483648 := by
    cases memoryBlockRange with
    | nil => exact absurd rfl hne
    | cons a rest => exact hb a (List.mem_cons_self _ _)
  have hlast : (memoryBlockRange.getLastD default).Address < 2147483648 := by
    cases memoryBlockRange with
    | nil => exact absurd rfl hne
    | cons a rest =>
      rw [List.getLastD_cons, List.getLastD_eq_getLast?]
      cases hl : rest.getLast? with
      | none => exact hb a (List.mem_cons_self _ _)
      | some x =>
        exact hb x (List.mem_cons_of_mem _ (List.mem_of_getLast?_eq_some hl))
  have hlen : 1 ≤ memoryBlockRange.length := by
    cases memoryBlockRange with
    | nil => exact absurd rfl hne
    | cons a rest => simp
  have hcount : (4294967296 + (memoryBlockRange.getLastD default).Address -
      (memoryBlockRange.headD default).Address + 1) % 4294967296 =
      (memoryBlockRange.getLastD default).Address - (memoryBlockRange.headD default).Address + 1 := by
    omega
  refine ⟨_, construct_eq _ _ _ hne hsame, ?_, hcount, rfl, ?_, ?_⟩
  · show (memoryBlockRange.headD default).Address % 4294967296 = _
    omega
  · intro h
    exact Nat.mod_eq_of_lt h
  · show DetectHoles memoryBlockRange = true ↔ _
    rw [hholes]
    show _ ↔ _ < (4294967296 + (memoryBlockRange.getLastD default).Address -
      (memoryBlockRange.headD default).Address + 1) % 4294967296
    rw [hcount]
    omega

/-- Blocks at addresses {4, 6, 7, 18}: start 4, count 15 and `HasHoles = true`. -/
theorem TIRDeviceQuery_geometry_witness :
    ∃ q, construct [⟨4, 0, 2⟩, ⟨6, 0, 2⟩, ⟨7, 0, 2⟩, ⟨18, 0, 2⟩]
        [⟨0, [⟨4, 0, 2⟩], 0, 0, false, false, false, true⟩,
         ⟨1, [⟨6, 0, 2⟩], 0, 0, false, false, false, true⟩,
         ⟨2, [⟨7, 0, 2⟩], 0, 0, false, false, false, true⟩,
         ⟨3, [⟨18, 0, 2⟩], 0, 0, false, false, false, true⟩] EQueryOperation.Read = some q ∧
      q.GetStart = 4 ∧ q.GetBlockCount = 15 ∧ q.GetBlockSize = 2 ∧ q.GetSize = 30 ∧
      q.HasHoles = true := by
  obtain ⟨q, hq, h1, h2, h3, h4, h5⟩ := TIRDeviceQuery_geometry
    [⟨4, 0, 2⟩, ⟨6, 0, 2⟩, ⟨7, 0, 2⟩, ⟨18, 0, 2⟩]
    [⟨0, [⟨4, 0, 2⟩], 0, 0, false, false, false, true⟩,
     ⟨1, [⟨6, 0, 2⟩], 0, 0, false, false, false, true⟩,
     ⟨2, [⟨7, 0, 2⟩], 0, 0, false, false, false, true⟩,
     ⟨3, [⟨18, 0, 2⟩], 0, 0, false, false, false, true⟩] EQueryOperation.Read
    (by decide) (by decide) (by decide) (by decide)
  have hsize : q.GetBlockSize = 2 := by
    have hq2 := Option.some.inj (hq.symm.trans (construct_eq _ _ EQueryOperation.Read
      (by decide) (by decide)))
    rw [hq2]
    rfl
  refine ⟨q, hq, h1, h2, hsize, ?_, h5.mpr (by rw [h2]; decide)⟩
  rw [h3, hsize, h2]
  rfl


theorem SetStatus_no_error (q : TIRDeviceQuery) (status : IR.EQueryStatus)
    (h : status = IR.EQueryStatus.NotExecuted ∨ status = IR.EQueryStatus.Ok) :
    q.SetStatus status = { q with Status := status } := by
  unfold SetStatus
  rcases h with h | h <;> subst h <;> simp

/-- C26: `SetStatus` with a status other than not-executed and ok sets the read-error
bit of every covered register of a read query and the write-error bit of every covered
register of a write query, and changes nothing else of a register (not the other error
bit, not a value); `SetStatus` with not-executed or ok changes only the status field of
the query. In every case the status becomes the given one and the other fields of the
query stay. -/
theorem SetStatus_register_errors (q : TIRDeviceQuery) (status : IR.EQueryStatus) :
    (status ≠ IR.EQueryStatus.NotExecuted → status ≠ IR.EQueryStatus.Ok →
      q.Operation = EQueryOperation.Read →
      (q.SetStatus status).VirtualRegisters =
        q.VirtualRegisters.map (fun r => { r with ReadError := true })) ∧
    (status ≠ IR.EQueryStatus.NotExecuted → status ≠ IR.EQueryStatus.Ok →
      q.Operation = EQueryOperation.Write →
      (q.SetStatus status).VirtualRegisters =
        q.VirtualRegisters.map (fun r => { r with WriteError := true })) ∧
    (status = IR.EQueryStatus.NotExecuted ∨ status = IR.EQueryStatus.Ok →
      q.SetStatus status = { q with Status := status }) ∧
    (q.SetStatus status).Status = status ∧
    (q.SetStatus status).AbleToSplit = q.AbleToSplit ∧
    (q.SetStatus status).HasHoles = q.HasHoles ∧
    (q.SetStatus status).Operation = q.Operation ∧
    (q.SetStatus status).MemoryBlockRange = q.MemoryBlockRange := by
  refine ⟨?_, ?_, SetStatus_no_error q status, SetStatus_fields q status⟩
  · intro h1 h2 hop
    unfold SetStatus
    simp only [h1, h2, ne_eq, not_false_eq_true, and_self, if_true, hop]
    rfl
  · intro h1 h2 hop
    unfold SetStatus
    simp only [h1, h2, ne_eq, not_false_eq_true, and_self, if_true, hop]
    rfl

/-- A read query over two registers answered with a transient error, and a write query
answered with a permanent error. -/
theorem SetStatus_register_errors_witness :
    ((⟨[⟨4, 0, 2⟩, ⟨5, 0, 2⟩],
        [⟨0, [⟨4, 0, 2⟩], 7, 0, false, false, true, true⟩,
         ⟨1, [⟨5, 0, 2⟩], 9, 0, false, false, true, true⟩],
        false, EQueryOperation.Read, IR.EQueryStatus.NotExecuted, true⟩ : TIRDeviceQuery).SetStatus
        IR.EQueryStatus.DeviceTransientError).VirtualRegisters =
      [⟨0, [⟨4, 0, 2⟩], 7, 0, true, false, true, true⟩,
       ⟨1, [⟨5, 0, 2⟩], 9, 0, true, false, true, true⟩] ∧
    ((⟨[⟨4, 0, 2⟩], [⟨0, [⟨4, 0, 2⟩], 7, 8, false, false, true, true⟩],
        false, EQueryOperation.Write, IR.EQueryStatus.NotExecuted, false⟩ : TIRDeviceQuery).SetStatus
        IR.EQueryStatus.DevicePermanentError).VirtualRegisters =
      [⟨0, [⟨4, 0, 2⟩], 7, 8, false, true, true, true⟩] :=
  ⟨(SetStatus_register_errors _ IR.EQueryStatus.DeviceTransientError).1
      (by decide) (by decide) rfl,
    (SetStatus_register_errors _ IR.EQueryStatus.DevicePermanentError).2.1
      (by decide) (by decide) rfl⟩

theorem FinalizeRead_eq (q : TIRDeviceQuery) (memoryView : TIRDeviceMemoryView)
    (h : q.Operation = EQueryOperation.Read ∧ q.GetStatus = IR.EQueryStatus.NotExecuted ∧
      q.GetSize = memoryView.Size) :
    q.FinalizeRead memoryView = some
      ({ q with
          VirtualRegisters := q.VirtualRegisters.map
            (fun r => r.AcceptDeviceValue (memoryView.ReadValue r))
          Status := IR.EQueryStatus.Ok },
        q.MemoryBlockRange.map (fun mb => (mb, memoryView.bytesOf mb))) := by
  unfold FinalizeRead
  rw [if_pos h]
  simp only [SetStatus_no_error _ _ (Or.inr rfl)]

theorem FinalizeWrite_eq (q : TIRDeviceQuery) (memoryView : TIRDeviceMemoryView)
    (h : q.Operation = EQueryOperation.Write ∧ q.GetStatus = IR.EQueryStatus.NotExecuted) :
    q.FinalizeWrite memoryView = some
      ({ q with
          VirtualRegisters := q.VirtualRegisters.map (fun r => r.AcceptWriteValue)
          Status := IR.EQueryStatus.Ok },
        q.MemoryBlockRange.map (fun mb => (mb, memoryView.bytesOf mb))) := by
  unfold FinalizeWrite
  rw [if_pos h]
  simp only [SetStatus_no_error _ _ (Or.inr rfl)]

theorem Finalize_executed (q : TIRDeviceQuery) (memoryView : TIRDeviceMemoryView)
    (h : q.Status ≠ IR.EQueryStatus.NotExecuted) :
    q.FinalizeRead memoryView = none ∧ q.FinalizeWrite memoryView = none := by
  unfold FinalizeRead FinalizeWrite GetStatus
  constructor
  · rw [if_neg (fun hc => h hc.2.1)]
  · rw [if_neg (fun hc => h hc.2)]


theorem FinalizeRead_some (q q' : TIRDeviceQuery) (memoryView : TIRDeviceMemoryView)
    (cached : List (TMemoryBlock × List Nat))
    (h : q.FinalizeRead memoryView = some (q', cached)) :
    (q.Operation = EQueryOperation.Read ∧ q.GetStatus = IR.EQueryStatus.NotExecuted ∧
      q.GetSize = memoryView.Size) ∧
    q' = { q with
      VirtualRegisters := q.VirtualRegisters.map
        (fun r => r.AcceptDeviceValue (memoryView.ReadValue r))
      Status := IR.EQueryStatus.Ok } := by
  by_cases hc : q.Operation = EQueryOperation.Read ∧ q.GetStatus = IR.EQueryStatus.NotExecuted ∧
      q.GetSize = memoryView.Size
  · rw [FinalizeRead_eq q memoryView hc] at h
    exact ⟨hc, (Prod.mk.inj (Option.some.inj h)).1.symm⟩
  · unfold FinalizeRead at h
    rw [if_neg hc] at h
    cases h

theorem FinalizeWrite_some (q q' : TIRDeviceQuery) (memoryView : TIRDeviceMemoryView)
    (cached : List (TMemoryBlock × List Nat))
    (h : q.FinalizeWrite memoryView = some (q', cached)) :
    (q.Operation = EQueryOperation.Write ∧ q.GetStatus = IR.EQueryStatus.NotExecuted) ∧
    q' = { q with
      VirtualRegisters := q.VirtualRegisters.map (fun r => r.AcceptWriteValue)
      Status := IR.EQueryStatus.Ok } := by
  by_cases hc : q.Operation = EQueryOperation.Write ∧ q.GetStatus = IR.EQueryStatus.NotExecuted
  · rw [FinalizeWrite_eq q memoryView hc] at h
    exact ⟨hc, (Prod.mk.inj (Option.some.inj h)).1.symm⟩
  · unfold FinalizeWrite at h
    rw [if_neg hc] at h
    cases h

/-- C27: `FinalizeRead` completes exactly on a read query whose status is not-executed
and whose byte size equals the size of the memory view, `FinalizeWrite` exactly on a
write query whose status is not-executed. When either completes, the status of the query
is ok, every covered register has accepted its decoded value (read) or its written
value (write), no error bit of a register is set that was not set before, and a second
call of either on the resulting query violates its precondition, until `ResetStatus`
makes the status not-executed again. -/
theorem Finalize_spec (q : TIRDeviceQuery) (memoryView : TIRDeviceMemoryView) :
    ((q.FinalizeRead memoryView).isSome = true ↔
      q.Operation = EQueryOperation.Read ∧ q.GetStatus = IR.EQueryStatus.NotExecuted ∧
        q.GetSize = memoryView.Size) ∧
    ((q.FinalizeWrite memoryView).isSome = true ↔
      q.Operation = EQueryOperation.Write ∧ q.GetStatus = IR.EQueryStatus.NotExecuted) ∧
    (∀ q' cached, q.FinalizeRead memoryView = some (q', cached) →
      q'.VirtualRegisters =
        q.VirtualRegisters.map (fun r => r.AcceptDeviceValue (memoryView.ReadValue r)) ∧
      List.Forall₂ (fun r r' : TVirtualRegister =>
        r'.CurrentValue = memoryView.ReadValue r ∧ r'.ReadError = false ∧
        r'.WriteError = r.WriteError) q.VirtualRegisters q'.VirtualRegisters) ∧
    (∀ q' cached, q.FinalizeWrite memoryView = some (q', cached) →
      q'.VirtualRegisters = q.VirtualRegisters.map (fun r => r.AcceptWriteValue) ∧
      List.Forall₂ (fun r r' : TVirtualRegister =>
        r'.CurrentValue = r.ValueToWrite ∧ r'.WriteError = false ∧
        r'.ReadError = r.ReadError) q.VirtualRegisters q'.VirtualRegisters) ∧
    (∀ q' cached, q.FinalizeRead memoryView = some (q', cached) ∨
        q.FinalizeWrite memoryView = some (q', cached) →
      q'.GetStatus = IR.EQueryStatus.Ok ∧
      (∀ view, q'.FinalizeRead view = none ∧ q'.FinalizeWrite view = none) ∧
      q'.ResetStatus.GetStatus = IR.EQueryStatus.NotExecuted ∧
      q'.ResetStatus.VirtualRegisters = q'.VirtualRegisters) := by
  refine ⟨?_, ?_, ?_, ?_, ?_⟩
  · constructor
    · intro h
      obtain ⟨⟨q', cached⟩, hsome⟩ := Option.isSome_iff_exists.mp h
      exact (FinalizeRead_some q q' memoryView cached hsome).1
    · intro h
      rw [FinalizeRead_eq q memoryView h]
      rfl
  · constructor
    · intro h
      obtain ⟨⟨q', cached⟩, hsome⟩ := Option.isSome_iff_exists.mp h
      exact (FinalizeWrite_some q q' memoryView cached hsome).1
    · intro h
      rw [FinalizeWrite_eq q memoryView h]
      rfl
  · intro q' cached h
    obtain ⟨_, hq'⟩ := FinalizeRead_some q q' memoryView cached h
    subst hq'
    refine ⟨rfl, ?_⟩
    simp only [List.forall₂_map_right_iff]
    exact List.forall₂_same.mpr (fun r _ => ⟨rfl, rfl, rfl⟩)
  · intro q' cached h
    obtain ⟨_, hq'⟩ := FinalizeWrite_some q q' memoryView cached h
    subst hq'
    refine ⟨rfl, ?_⟩
    simp only [List.forall₂_map_right_iff]
    exact List.forall₂_same.mpr (fun r _ => ⟨rfl, rfl, rfl⟩)
  · intro q' cached h
    have hst : q'.Status = IR.EQueryStatus.Ok := by
      rcases h with h | h
      · rw [(FinalizeRead_some q q' memoryView cached h).2]
      · rw [(FinalizeWrite_some q q' memoryView cached h).2]
    refine ⟨hst, fun view => Finalize_executed q' view (by rw [hst]; decide), ?_, ?_⟩
    · exact (SetStatus_fields q' _).1
    · unfold ResetStatus
      rw [SetStatus_no_error _ _ (Or.inl rfl)]

/-- A read query over two registers finalized with the values 17 and 18. -/
theorem Finalize_spec_witness :
    ((⟨[⟨4, 0, 2⟩, ⟨5, 0, 2⟩],
        [⟨0, [⟨4, 0, 2⟩], 7, 0, true, false, true, true⟩,
         ⟨1, [⟨5, 0, 2⟩], 9, 0, false, false, true, true⟩],
        false, EQueryOperation.Read, IR.EQueryStatus.NotExecuted, true⟩ : TIRDeviceQuery).FinalizeRead
        ⟨4, fun _ => [0, 0], fun r => 17 + r.Id⟩).isSome = true :=
  (Finalize_spec _ _).1.mpr ⟨rfl, rfl, rfl⟩

end DeviceQueries

/-! ## Register lists handed to the plan builder -/

theorem sortRegisters_perm (l : List TRegister) : List.Perm (sortRegisters l) l :=
  List.perm_insertionSort _ l

theorem registerLess_false_iff (a b : TRegister) :
    registerLess b a = false ↔ typeAddressLe a b := by
  unfold registerLess typeAddressLe
  simp only [Bool.or_eq_false_iff, Bool.and_eq_false_iff, decide_eq_false_iff_not]
  omega

theorem sortRegisters_sorted (l : List TRegister) :
    List.Pairwise typeAddressLe (sortRegisters l) := by
  haveI : IsTotal TRegister (fun a b => registerLess b a = false) :=
    ⟨fun a b => by
      simp only [registerLess_false_iff]
      unfold typeAddressLe
      omega⟩
  haveI : IsTrans TRegister (fun a b => registerLess b a = false) :=
    ⟨fun a b c => by
      simp only [registerLess_false_iff]
      unfold typeAddressLe
      omega⟩
  have h := List.sorted_insertionSort (fun a b : TRegister => registerLess b a = false) l
  exact List.Pairwise.imp (fun {a b} hab => (registerLess_false_iff a b).mp hab) h

theorem sortRegisters_call (last_slave : Nat) (cur_regs : List TRegister) (hne : cur_regs ≠ [])
    (hslave : ∀ r ∈ cur_regs, r.Slave = last_slave) :
    sortRegisters cur_regs ≠ [] ∧ (∀ r ∈ sortRegisters cur_regs, r.Slave = last_slave) ∧
      List.Pairwise typeAddressLe (sortRegisters cur_regs) := by
  refine ⟨?_, ?_, sortRegisters_sorted cur_regs⟩
  · intro h
    have := (sortRegisters_perm cur_regs).length_eq
    rw [h] at this
    exact hne (List.length_eq_zero.mp this.symm)
  · intro r hr
    exact hslave r ((sortRegisters_perm cur_regs).mem_iff.mp hr)

theorem prepareRegisterRangesFrom_spec : ∀ (l : List TRegister) (last_slave : Nat)
    (cur_regs : List TRegister) (calls : List (Nat × List TRegister)),
    (∀ r ∈ cur_regs, r.Slave = last_slave) →
    ∃ new, prepareRegisterRangesFrom l last_slave cur_regs calls = calls ++ new ∧
      List.Perm (new.map Prod.snd).flatten (cur_regs ++ l) ∧
      ∀ c ∈ new, c.2 ≠ [] ∧ (∀ r ∈ c.2, r.Slave = c.1) ∧ List.Pairwise typeAddressLe c.2 := by
  intro l
  induction l with
  | nil =>
    intro last_slave cur_regs calls hslave
    unfold prepareRegisterRangesFrom
    by_cases hne : cur_regs ≠ []
    · rw [if_pos hne]
      refine ⟨[(last_slave, sortRegisters cur_regs)], rfl, ?_, ?_⟩
      · simpa using sortRegisters_perm cur_regs
      · intro c hc
        rw [List.mem_singleton] at hc
        subst hc
        exact sortRegisters_call last_slave cur_regs hne hslave
    · rw [if_neg hne]
      have : cur_regs = [] := by simpa using hne
      subst this
      exact ⟨[], by simp, by simp, by simp⟩
  | cons reg rest ih =>
    intro last_slave cur_regs calls hslave
    rw [prepareRegisterRangesFrom]
    by_cases hflush : reg.Slave ≠ last_slave ∧ cur_regs ≠ []
    · rw [if_pos hflush]
      obtain ⟨new, hnew, hperm, hprop⟩ := ih reg.Slave [reg]
        (calls ++ [(last_slave, sortRegisters cur_regs)]) (by simp)
      refine ⟨(last_slave, sortRegisters cur_regs) :: new, ?_, ?_, ?_⟩
      · rw [hnew]
        simp
      · simp only [List.map_cons, List.flatten_cons]
        exact List.Perm.append (sortRegisters_perm cur_regs) hperm
      · intro c hc
        rcases List.mem_cons.mp hc with hc | hc
        · subst hc
          exact sortRegisters_call last_slave cur_regs hflush.2 hslave
        · exact hprop c hc
    · rw [if_neg hflush]
      obtain ⟨new, hnew, hperm, hprop⟩ := ih reg.Slave (cur_regs ++ [reg]) calls (by
        intro r hr
        rcases List.mem_append.mp hr with hr | hr
        · have hne : cur_regs ≠ [] := List.ne_nil_of_mem hr
          have : reg.Slave = last_slave := by
            by_contra hc
            exact hflush ⟨hc, hne⟩
          rw [this]
          exact hslave r hr
        · rw [List.mem_singleton] at hr
          rw [hr])
      refine ⟨new, hnew, ?_, hprop⟩
      simpa using hperm

/-- C28: for every list of registered registers, the lists `PrepareRegisterRanges`
passes to `SplitRegisterList`, concatenated, are a permutation of `RegList` (every
register is handed over exactly once); each passed list is not empty and holds registers
of the one slave whose device is called; and each passed list is sorted in
non-decreasing order of (type, address). -/
theorem PrepareRegisterRanges_calls (RegList : List TRegister) :
    List.Perm ((splitRegisterListCalls RegList).map Prod.snd).flatten RegList ∧
    ∀ c ∈ splitRegisterListCalls RegList,
      c.2 ≠ [] ∧ (∀ r ∈ c.2, r.Slave = c.1) ∧ List.Pairwise typeAddressLe c.2 := by
  obtain ⟨new, hnew, hperm, hprop⟩ := prepareRegisterRangesFrom_spec RegList 0 [] [] (by simp)
  unfold splitRegisterListCalls
  rw [hnew]
  simp only [List.nil_append] at hperm ⊢
  exact ⟨hperm, hprop⟩

/-! ## Error events -/

theorem UpdateReadError_reportsTransition (h : TRegisterHandler) (error : Bool) :
    reportsTransition h (h.UpdateReadError error) := by
  obtain ⟨st, p, d⟩ := h
  cases st <;> cases error <;> simp [reportsTransition, TRegisterHandler.UpdateReadError]

theorem UpdateWriteError_reportsTransition (h : TRegisterHandler) (error : Bool) :
    reportsTransition h (h.UpdateWriteError error) := by
  obtain ⟨st, p, d⟩ := h
  cases st <;> cases error <;> simp [reportsTransition, TRegisterHandler.UpdateWriteError]

theorem errorStatesOf_append (reg reg' : Nat) (state : TErrorState)
    (errorCalls : List (Nat × TErrorState)) :
    errorStatesOf reg (errorCalls ++ [(reg', state)]) =
      if reg' = reg then errorStatesOf reg errorCalls ++ [state] else errorStatesOf reg errorCalls := by
  unfold errorStatesOf
  by_cases h : reg' = reg
  · simp [List.filter_append, h]
  · simp [List.filter_append, h]

/-- One handler call followed by `MaybeUpdateErrorState`: with a handler result that
reports transitions, the callback is invoked exactly when the state of the handler
changed, with the new state. -/
theorem handlerResult_step (c : TSerialClient) (reg : Nat)
    (res : TRegisterHandler × TErrorState) (hres : reportsTransition (c.Handlers reg) res) :
    (res.1.ErrorState = (c.Handlers reg).ErrorState ∧
      (({ c with Handlers := Function.update c.Handlers reg res.1 } :
        TSerialClient).MaybeUpdateErrorState reg res.2).errorCalls = c.errorCalls) ∨
    (res.1.ErrorState ≠ (c.Handlers reg).ErrorState ∧
      (({ c with Handlers := Function.update c.Handlers reg res.1 } :
        TSerialClient).MaybeUpdateErrorState reg res.2).errorCalls =
        c.errorCalls ++ [(reg, res.1.ErrorState)]) := by
  unfold TSerialClient.MaybeUpdateErrorState
  rcases hres with ⟨h1, h2⟩ | ⟨h1, h2, h3, h4⟩
  · left
    refine ⟨h2, ?_⟩
    rw [if_neg (fun hc => hc.2 h1)]
  · right
    refine ⟨h2, ?_⟩
    rw [if_pos ⟨h3, h4⟩, h1]

theorem MaybeUpdateErrorState_Handlers (c : TSerialClient) (reg : Nat) (state : TErrorState) :
    (c.MaybeUpdateErrorState reg state).Handlers = c.Handlers := by
  unfold TSerialClient.MaybeUpdateErrorState
  split <;> rfl

theorem handlerResult_keeps (c : TSerialClient) (reg : Nat)
    (res : TRegisterHandler × TErrorState) (hres : reportsTransition (c.Handlers reg) res)
    (hinv : callsFollowHandlers c) :
    callsFollowHandlers (({ c with Handlers := Function.update c.Handlers reg res.1 } :
      TSerialClient).MaybeUpdateErrorState reg res.2) := by
  intro reg'
  obtain ⟨hchain, hlast⟩ := hinv reg'
  rw [MaybeUpdateErrorState_Handlers]
  rcases handlerResult_step c reg res hres with ⟨hsame, hcalls⟩ | ⟨hne, hcalls⟩
  · rw [hcalls]
    refine ⟨hchain, ?_⟩
    intro s hs
    by_cases hr : reg' = reg
    · subst hr
      simp only [Function.update_same]
      rw [hsame]
      exact hlast s hs
    · simp only [Function.update_noteq hr]
      exact hlast s hs
  · rw [hcalls, errorStatesOf_append]
    by_cases hr : reg = reg'
    · subst hr
      rw [if_pos rfl]
      simp only [Function.update_same]
      constructor
      · rw [List.chain'_append]
        refine ⟨hchain, List.chain'_singleton _, ?_⟩
        intro x hx y hy
        simp only [List.head?_cons, Option.mem_def, Option.some.injEq] at hy
        subst hy
        rw [← hlast x hx]
        exact fun h => hne h.symm
      · intro s hs
        rw [List.getLast?_append] at hs
        simpa using hs
    · rw [if_neg hr]
      refine ⟨hchain, ?_⟩
      intro s hs
      simp only [Function.update_noteq (Ne.symm hr)]
      exact hlast s hs


theorem MaybeUpdateErrorState_unchanged (c : TSerialClient) (reg : Nat) :
    c.MaybeUpdateErrorState reg TErrorState.ErrorStateUnchanged = c := by
  unfold TSerialClient.MaybeUpdateErrorState
  rw [if_neg (fun hc => hc.2 rfl)]

theorem callsFollowHandlers_congr (c c' : TSerialClient) (hH : c'.Handlers = c.Handlers)
    (hE : c'.errorCalls = c.errorCalls) (h : callsFollowHandlers c) :
    callsFollowHandlers c' := by
  intro reg
  rw [hH, hE]
  exact h reg

theorem handle_eq (c : TSerialClient) (e : TClientEvent) :
    ∃ res, reportsTransition (c.Handlers e.register) res ∧
      (c.handle e).Handlers = (({ c with Handlers := Function.update c.Handlers e.register res.1 } :
        TSerialClient).MaybeUpdateErrorState e.register res.2).Handlers ∧
      (c.handle e).errorCalls = (({ c with Handlers := Function.update c.Handlers e.register res.1 } :
        TSerialClient).MaybeUpdateErrorState e.register res.2).errorCalls := by
  have hskip : reportsTransition (c.Handlers e.register)
        (c.Handlers e.register, TErrorState.ErrorStateUnchanged) ∧
      c = (({ c with Handlers := Function.update c.Handlers e.register (c.Handlers e.register) } :
        TSerialClient).MaybeUpdateErrorState e.register TErrorState.ErrorStateUnchanged) := by
    refine ⟨Or.inl ⟨rfl, rfl⟩, ?_⟩
    rw [MaybeUpdateErrorState_unchanged, Function.update_eq_self]
  cases e with
  | pollOk reg changed =>
    simp only [TSerialClient.handle, TSerialClient.cycleValue, TClientEvent.register] at hskip ⊢
    by_cases hp : (c.Handlers reg).NeedToPoll = true
    · refine ⟨(c.Handlers reg).AcceptDeviceValue true,
        UpdateReadError_reportsTransition _ _, ?_⟩
      simp only [hp, Bool.not_true, Bool.false_eq_true, if_false]
      split <;> exact ⟨rfl, rfl⟩
    · refine ⟨_, hskip.1, ?_⟩
      simp only [Bool.not_eq_true] at hp
      simp only [hp, Bool.not_false, if_true]
      exact ⟨congrArg _ hskip.2, congrArg _ hskip.2⟩
  | pollFailed reg =>
    simp only [TSerialClient.handle, TSerialClient.cycleError, TClientEvent.register] at hskip ⊢
    by_cases hp : (c.Handlers reg).NeedToPoll = true
    · refine ⟨(c.Handlers reg).AcceptDeviceValue false,
        UpdateReadError_reportsTransition _ _, ?_⟩
      simp [hp]
    · refine ⟨_, hskip.1, ?_⟩
      simp only [Bool.not_eq_true] at hp
      simp only [hp, Bool.not_false, if_true]
      exact ⟨congrArg _ hskip.2, congrArg _ hskip.2⟩
  | flushed reg ok =>
    simp only [TSerialClient.handle, TSerialClient.flushRegister, TClientEvent.register] at hskip ⊢
    by_cases hp : (c.Handlers reg).NeedToFlush = true
    · refine ⟨(c.Handlers reg).Flush ok,
        UpdateWriteError_reportsTransition
          ({ (c.Handlers reg) with Dirty := false } : TRegisterHandler) _, ?_⟩
      simp [hp]
    · refine ⟨_, hskip.1, ?_⟩
      simp only [Bool.not_eq_true] at hp
      simp only [hp, Bool.not_false, if_true]
      exact ⟨congrArg _ hskip.2, congrArg _ hskip.2⟩
  | valueSet reg =>
    simp only [TSerialClient.handle, TSerialClient.SetTextValue, TClientEvent.register]
    refine ⟨((c.Handlers reg).SetTextValue, TErrorState.ErrorStateUnchanged),
      Or.inl ⟨rfl, rfl⟩, ?_⟩
    rw [MaybeUpdateErrorState_unchanged]
    exact ⟨rfl, rfl⟩

theorem run_keeps (events : List TClientEvent) :
    ∀ c : TSerialClient, callsFollowHandlers c → callsFollowHandlers (c.run events) := by
  induction events with
  | nil => intro c h; exact h
  | cons e rest ih =>
    intro c h
    unfold TSerialClient.run
    rw [List.foldl_cons]
    obtain ⟨res, hres, hH, hE⟩ := handle_eq c e
    apply ih
    exact callsFollowHandlers_congr _ _ hH hE (handlerResult_keeps c e.register res hres h)

theorem MaybeUpdateErrorState_errorCalls (c : TSerialClient) (reg : Nat)
    (state : TErrorState) :
    (c.MaybeUpdateErrorState reg state).errorCalls =
      c.errorCalls ++
        (if state = TErrorState.UnknownErrorState ∨ state = TErrorState.ErrorStateUnchanged
          then [] else [(reg, state)]) := by
  unfold TSerialClient.MaybeUpdateErrorState
  by_cases h : state = TErrorState.UnknownErrorState ∨ state = TErrorState.ErrorStateUnchanged
  · rw [if_pos h, if_neg (by tauto), List.append_nil]
  · rw [if_neg h, if_pos (by tauto)]

/-- C30: `MaybeUpdateErrorState` invokes the error callback exactly for a handler result
other than unknown and unchanged, passing that state; with every poll or flush outcome
the callback is invoked exactly when the error state of the handler of the register
changed, with the new state, and the handlers of the other registers stay; and over every
sequence of outcomes, started with no call made, the callback is never invoked twice in
a row for the same register with the identical state. Every outcome goes through the
handler: a flush of a register that needs one stores the handler left by `Flush()` and
invokes the callback exactly when the result of `Flush()` is a state other than unknown
and unchanged, with that state; a good or failed read of a polled register does the same
with the result of `AcceptDeviceValue`; a register that needs no flush, or is not polled,
and a value set from outside make no call. So a failed flush of a register without error
is reported as a write error, a good flush of a register in write error as no error, and
a failed read of a polled register without error as a read error. -/
theorem ErrorCallback_fires_on_transitions (c : TSerialClient) :
    (∀ reg state, (c.MaybeUpdateErrorState reg state).errorCalls =
      if state = TErrorState.UnknownErrorState ∨ state = TErrorState.ErrorStateUnchanged
      then c.errorCalls else c.errorCalls ++ [(reg, state)]) ∧
    (∀ e : TClientEvent,
      (∀ reg, reg ≠ e.register → (c.handle e).Handlers reg = c.Handlers reg) ∧
      ((((c.handle e).Handlers e.register).ErrorState = (c.Handlers e.register).ErrorState ∧
          (c.handle e).errorCalls = c.errorCalls) ∨
        (((c.handle e).Handlers e.register).ErrorState ≠ (c.Handlers e.register).ErrorState ∧
          (c.handle e).errorCalls =
            c.errorCalls ++ [(e.register, ((c.handle e).Handlers e.register).ErrorState)]))) ∧
    (∀ events : List TClientEvent, c.errorCalls = [] →
      ∀ reg, List.Chain' (fun a b => a ≠ b) (errorStatesOf reg (c.run events).errorCalls)) ∧
    (∀ reg ok,
      ((c.Handlers reg).NeedToFlush = false →
        (c.handle (TClientEvent.flushed reg ok)).Handlers = c.Handlers ∧
        (c.handle (TClientEvent.flushed reg ok)).errorCalls = c.errorCalls) ∧
      ((c.Handlers reg).NeedToFlush = true →
        (c.handle (TClientEvent.flushed reg ok)).Handlers reg = ((c.Handlers reg).Flush ok).1 ∧
        (c.handle (TClientEvent.flushed reg ok)).errorCalls =
          c.errorCalls ++
            (if ((c.Handlers reg).Flush ok).2 = TErrorState.UnknownErrorState ∨
                ((c.Handlers reg).Flush ok).2 = TErrorState.ErrorStateUnchanged
              then [] else [(reg, ((c.Handlers reg).Flush ok).2)]))) ∧
    (∀ reg changed,
      ((c.Handlers reg).NeedToPoll = false →
        (c.handle (TClientEvent.pollOk reg changed)).Handlers = c.Handlers ∧
        (c.handle (TClientEvent.pollOk reg changed)).errorCalls = c.errorCalls ∧
        (c.handle (TClientEvent.pollFailed reg)).Handlers = c.Handlers ∧
        (c.handle (TClientEvent.pollFailed reg)).errorCalls = c.errorCalls) ∧
      ((c.Handlers reg).NeedToPoll = true →
        (c.handle (TClientEvent.pollOk reg changed)).Handlers reg =
          ((c.Handlers reg).AcceptDeviceValue true).1 ∧
        (c.handle (TClientEvent.pollOk reg changed)).errorCalls =
          c.errorCalls ++
            (if ((c.Handlers reg).AcceptDeviceValue true).2 = TErrorState.UnknownErrorState ∨
                ((c.Handlers reg).AcceptDeviceValue true).2 = TErrorState.ErrorStateUnchanged
              then [] else [(reg, ((c.Handlers reg).AcceptDeviceValue true).2)]) ∧
        (c.handle (TClientEvent.pollFailed reg)).Handlers reg =
          ((c.Handlers reg).AcceptDeviceValue false).1 ∧
        (c.handle (TClientEvent.pollFailed reg)).errorCalls =
          c.errorCalls ++
            (if ((c.Handlers reg).AcceptDeviceValue false).2 = TErrorState.UnknownErrorState ∨
                ((c.Handlers reg).AcceptDeviceValue false).2 = TErrorState.ErrorStateUnchanged
              then [] else [(reg, ((c.Handlers reg).AcceptDeviceValue false).2)]))) ∧
    (∀ reg, (c.handle (TClientEvent.valueSet reg)).errorCalls = c.errorCalls) ∧
    (∀ reg, (c.Handlers reg).NeedToFlush = true →
      ((c.Handlers reg).ErrorState = TErrorState.NoError →
        (c.handle (TClientEvent.flushed reg false)).errorCalls =
          c.errorCalls ++ [(reg, TErrorState.WriteError)]) ∧
      ((c.Handlers reg).ErrorState = TErrorState.WriteError →
        (c.handle (TClientEvent.flushed reg true)).errorCalls =
          c.errorCalls ++ [(reg, TErrorState.NoError)] ∧
        (c.handle (TClientEvent.flushed reg false)).errorCalls = c.errorCalls)) ∧
    (∀ reg, (c.Handlers reg).NeedToPoll = true →
      (c.Handlers reg).ErrorState = TErrorState.NoError →
        (c.handle (TClientEvent.pollFailed reg)).errorCalls =
          c.errorCalls ++ [(reg, TErrorState.ReadError)]) := by
  have hflush : ∀ reg ok, (c.Handlers reg).NeedToFlush = true →
      (c.handle (TClientEvent.flushed reg ok)).Handlers reg = ((c.Handlers reg).Flush ok).1 ∧
      (c.handle (TClientEvent.flushed reg ok)).errorCalls =
        c.errorCalls ++
          (if ((c.Handlers reg).Flush ok).2 = TErrorState.UnknownErrorState ∨
              ((c.Handlers reg).Flush ok).2 = TErrorState.ErrorStateUnchanged
            then [] else [(reg, ((c.Handlers reg).Flush ok).2)]) := by
    intro reg ok hp
    simp only [TSerialClient.handle, TSerialClient.flushRegister, hp, Bool.not_true,
      Bool.false_eq_true, if_false]
    rw [MaybeUpdateErrorState_Handlers, MaybeUpdateErrorState_errorCalls]
    exact ⟨Function.update_same _ _ _, rfl⟩
  have hfail : ∀ reg, (c.Handlers reg).NeedToPoll = true →
      (c.handle (TClientEvent.pollFailed reg)).Handlers reg =
        ((c.Handlers reg).AcceptDeviceValue false).1 ∧
      (c.handle (TClientEvent.pollFailed reg)).errorCalls =
        c.errorCalls ++
          (if ((c.Handlers reg).AcceptDeviceValue false).2 = TErrorState.UnknownErrorState ∨
              ((c.Handlers reg).AcceptDeviceValue false).2 = TErrorState.ErrorStateUnchanged
            then [] else [(reg, ((c.Handlers reg).AcceptDeviceValue false).2)]) := by
    intro reg hp
    simp only [TSerialClient.handle, TSerialClient.cycleError, hp, Bool.not_true,
      Bool.false_eq_true, if_false]
    rw [MaybeUpdateErrorState_Handlers, MaybeUpdateErrorState_errorCalls]
    exact ⟨Function.update_same _ _ _, rfl⟩
  refine ⟨?_, ?_, ?_, ?_, ?_, ?_, ?_, ?_⟩
  · intro reg state
    unfold TSerialClient.MaybeUpdateErrorState
    by_cases h : state = TErrorState.UnknownErrorState ∨ state = TErrorState.ErrorStateUnchanged
    · rw [if_pos h, if_neg (by tauto)]
    · rw [if_neg h, if_pos (by tauto)]
  · intro e
    obtain ⟨res, hres, hH, hE⟩ := handle_eq c e
    rw [MaybeUpdateErrorState_Handlers] at hH
    have hH2 : (c.handle e).Handlers = Function.update c.Handlers e.register res.1 := hH
    refine ⟨fun reg hr => by rw [hH2, Function.update_noteq hr], ?_⟩
    rw [hH2, Function.update_same, hE]
    exact handlerResult_step c e.register res hres
  · intro events hempty reg
    have hinv : callsFollowHandlers c := by
      intro reg'
      rw [hempty]
      exact ⟨List.chain'_nil, fun s hs => by simp [errorStatesOf] at hs⟩
    exact (run_keeps events c hinv reg).1
  · intro reg ok
    refine ⟨?_, hflush reg ok⟩
    intro hp
    simp [TSerialClient.handle, TSerialClient.flushRegister, hp]
  · intro reg changed
    constructor
    · intro hp
      simp [TSerialClient.handle, TSerialClient.cycleValue, TSerialClient.cycleError, hp]
    · intro hp
      refine ⟨?_, ?_, (hfail reg hp).1, (hfail reg hp).2⟩
      · simp only [TSerialClient.handle, TSerialClient.cycleValue, hp, Bool.not_true,
          Bool.false_eq_true, if_false]
        split
        · show (TSerialClient.MaybeUpdateErrorState _ reg _).Handlers reg = _
          rw [MaybeUpdateErrorState_Handlers]
          exact Function.update_same _ _ _
        · rw [MaybeUpdateErrorState_Handlers]
          exact Function.update_same _ _ _
      · simp only [TSerialClient.handle, TSerialClient.cycleValue, hp, Bool.not_true,
          Bool.false_eq_true, if_false]
        split
        · show (TSerialClient.MaybeUpdateErrorState _ reg _).errorCalls = _
          rw [MaybeUpdateErrorState_errorCalls]
        · rw [MaybeUpdateErrorState_errorCalls]
  · intro reg
    rfl
  · intro reg hp
    refine ⟨?_, ?_⟩
    · intro hs
      rw [(hflush reg false hp).2]
      simp [TRegisterHandler.Flush, TRegisterHandler.UpdateWriteError, hs]
    · intro hs
      rw [(hflush reg true hp).2, (hflush reg false hp).2]
      simp [TRegisterHandler.Flush, TRegisterHandler.UpdateWriteError, hs]
  · intro reg hp hs
    rw [(hfail reg hp).2]
    simp [TRegisterHandler.AcceptDeviceValue, TRegisterHandler.UpdateReadError, hs]

/-- A polled register that fails to read twice, has a value set and the write to the
device fail, is flushed again with nothing waiting, reads well, has a value set and
written well, and fails to read again: five calls, read error, read and write error,
write error, no error, read error; and the first failed flush alone, on the register
without error, is one call with the write error. -/
theorem ErrorCallback_fires_on_transitions_witness :
    errorStatesOf 7 ((⟨fun _ => ⟨TErrorState.UnknownErrorState, true, false⟩, [], []⟩ :
        TSerialClient).run [TClientEvent.pollFailed 7, TClientEvent.pollFailed 7,
          TClientEvent.valueSet 7, TClientEvent.flushed 7 false, TClientEvent.flushed 7 false,
          TClientEvent.pollOk 7 true, TClientEvent.pollOk 3 true, TClientEvent.valueSet 7,
          TClientEvent.flushed 7 true, TClientEvent.pollFailed 7]).errorCalls =
      [TErrorState.ReadError, TErrorState.ReadWriteError, TErrorState.WriteError,
        TErrorState.NoError, TErrorState.ReadError] ∧
    List.Chain' (fun a b => a ≠ b)
      (errorStatesOf 7 ((⟨fun _ => ⟨TErrorState.UnknownErrorState, true, false⟩, [], []⟩ :
        TSerialClient).run [TClientEvent.pollFailed 7, TClientEvent.pollFailed 7,
          TClientEvent.valueSet 7, TClientEvent.flushed 7 false, TClientEvent.flushed 7 false,
          TClientEvent.pollOk 7 true, TClientEvent.pollOk 3 true, TClientEvent.valueSet 7,
          TClientEvent.flushed 7 true, TClientEvent.pollFailed 7]).errorCalls) ∧
    ((⟨fun _ => ⟨TErrorState.NoError, true, true⟩, [], []⟩ : TSerialClient).handle
        (TClientEvent.flushed 7 false)).errorCalls = [(7, TErrorState.WriteError)] :=
  ⟨by decide,
    (ErrorCallback_fires_on_transitions
      ⟨fun _ => ⟨TErrorState.UnknownErrorState, true, false⟩, [], []⟩).2.2.1 _ rfl 7,
    ((ErrorCallback_fires_on_transitions
      ⟨fun _ => ⟨TErrorState.NoError, true, true⟩, [], []⟩).2.2.2.2.2.2.1 7 rfl).1 rfl⟩

/-! ## Plan builder -/

/-- C35: `ThrowIfModbusException` raises an error if and only if the exception code is
not zero, and the error is of the transient kind for every such code (the flag
`is_transient` is never cleared); the codes 0x01, 0x02 and 0x03, which `ToQueryStatus`
classifies as permanent, raise the transient exception with their messages. -/
theorem ThrowIfModbusException_raises_transient (code : Nat) :
    (ThrowIfModbusException code = Except.ok () ↔ code = 0) ∧
    (code ≠ 0 → ∃ message,
      ThrowIfModbusException code =
        Except.error (TException.TSerialDeviceTransientErrorException message) ∧
      (TException.TSerialDeviceTransientErrorException message).isTransient = true) ∧
    (ThrowIfModbusException 0x01 =
        Except.error (TException.TSerialDeviceTransientErrorException "illegal function") ∧
      ToQueryStatus 0x01 = EQueryStatus.DEVICE_PERMANENT_ERROR) ∧
    (ThrowIfModbusException 0x02 =
        Except.error (TException.TSerialDeviceTransientErrorException "illegal data address") ∧
      ToQueryStatus 0x02 = EQueryStatus.DEVICE_PERMANENT_ERROR) ∧
    (ThrowIfModbusException 0x03 =
        Except.error (TException.TSerialDeviceTransientErrorException "illegal data value") ∧
      ToQueryStatus 0x03 = EQueryStatus.DEVICE_PERMANENT_ERROR) := by
  refine ⟨?_, ?_, ⟨by rfl, by decide⟩, ⟨by rfl, by decide⟩, ⟨by rfl, by decide⟩⟩
  · constructor
    · intro h
      by_contra hc
      unfold ThrowIfModbusException at h
      rw [if_neg hc] at h
      cases h
    · intro h
      subst h
      rfl
  · intro hc
    unfold ThrowIfModbusException
    rw [if_neg hc]
    exact ⟨_, rfl, rfl⟩

/-! ## Checksums of request frames -/

theorem take_set_ge (l : List Nat) (n m a : Nat) (h : m ≤ n) :
    (l.set n a).take m = l.take m := by
  rw [List.set_take]
  exact List.set_eq_of_length_le (by rw [List.length_take]; omega)

/-- Writing a 16-bit checksum into the last two bytes of a buffer: the buffer then holds
the checksum there, and the bytes before are the ones of the buffer. -/
theorem WriteAs2Bytes_checksum (buf : List Nat) (v : Nat) (h2 : 2 ≤ buf.length)
    (hv : v < 65536) :
    (WriteAs2Bytes buf (buf.length - 2) v).length = buf.length ∧
    storedChecksum (WriteAs2Bytes buf (buf.length - 2) v) (buf.length - 2) = v ∧
    (WriteAs2Bytes buf (buf.length - 2) v).take (buf.length - 2) = buf.take (buf.length - 2) := by
  refine ⟨WriteAs2Bytes_length _ _ _, ?_, ?_⟩
  · unfold storedChecksum
    rw [byteAt_WriteAs2Bytes_hi _ _ _ (by omega), byteAt_WriteAs2Bytes_lo _ _ _ (by omega)]
    omega
  · unfold WriteAs2Bytes
    simp only
    rw [take_set_ge _ _ _ _ (by omega), take_set_ge _ _ _ _ (by omega)]

/-- A frame closed by `WriteAs2Bytes(&req[size - 2], crc(req, size - 2))` satisfies the
checksum equation. -/
theorem closed_frame_checksum (crc : List Nat → Nat) (hcrc : ∀ data, crc data < 65536)
    (req : List Nat) (h2 : 2 ≤ req.length) :
    satisfiesChecksum crc
      (WriteAs2Bytes req (req.length - 2) (crc (req.take (req.length - 2)) % 65536)) := by
  obtain ⟨hl, hs, ht⟩ := WriteAs2Bytes_checksum req (crc (req.take (req.length - 2)) % 65536) h2
    (Nat.mod_lt _ (by norm_num))
  unfold satisfiesChecksum
  rw [hl, hs, ht, Nat.mod_eq_of_lt (hcrc _)]
  exact ⟨h2, rfl⟩

theorem composeWriteRequestsFrom_checksum (crc : List Nat → Nat)
    (hcrc : ∀ data, crc data < 65536) (reg : TIRDeviceWriteQueryEntry)
    (slaveId : Nat) (shift : Int) (size : Nat) :
    ∀ (remaining value : Nat) (reqs : List (List Nat)),
      composeWriteRequestsFrom crc reg slaveId shift size remaining value = some reqs →
      ∀ r ∈ reqs, satisfiesChecksum crc r := by
  intro remaining
  induction remaining with
  | zero =>
    intro value reqs h r hr
    simp [composeWriteRequestsFrom] at h
    subst h
    cases hr
  | succ k ih =>
    intro value reqs h r hr
    unfold composeWriteRequestsFrom at h
    simp only at h
    split at h
    · cases h
    · rename_i req hcomposed
      split at h
      · cases h
      · rename_i rest hrest
        cases h
        rcases List.mem_cons.mp hr with hr | hr
        · subst hr
          have hsz := InferWriteRequestSize_ge reg
          have hlen : req.length = InferWriteRequestSize reg := by
            have hl : ((List.replicate (InferWriteRequestSize reg) 0).set 0
                (slaveId % 256)).length = InferWriteRequestSize reg := by simp
            split at hcomposed
            · exact (ComposeMultipleWriteRequestPDU_keeps _ _ _ _ hcomposed).1.trans hl
            · exact (ComposeSingleWriteRequestPDU_keeps _ _ _ _ _ hcomposed).1.trans hl
          exact closed_frame_checksum crc hcrc req (by omega)
        · exact ih _ _ hrest r hr

/-- C39: for any checksum function with 16-bit values, `ComposeReadRequest` produces a
frame for every entry, and that frame and every frame `ComposeWriteRequests` produces
satisfy the checksum equation `CheckResponse` applies to responses: for a frame of
length L, (frame[L-2] << 8) + frame[L-1] is the checksum of its first L-2 bytes; a
buffer with that equation whose PDU ends three bytes before its end passes the size and
checksum checks of `CheckResponse`. -/
theorem request_frames_satisfy_checksum (crc : List Nat → Nat)
    (hcrc : ∀ data, crc data < 65536) :
    (∀ (entry : TIRDeviceQueryEntry) (slaveId : Nat) (shift : Int),
      ∃ req, ComposeReadRequest crc entry slaveId shift = some req ∧
        satisfiesChecksum crc req) ∧
    (∀ (reg : TIRDeviceWriteQueryEntry) (slaveId value : Nat) (shift : Int)
        (reqs : List (List Nat)),
      ComposeWriteRequests crc reg slaveId value shift = some reqs →
      ∀ r ∈ reqs, satisfiesChecksum crc r) ∧
    (∀ (kind : TResponseKind) (req res : List Nat),
      satisfiesChecksum crc res → GetResponsePDUSize kind res + 3 = res.length →
      res.length < 18446744073709551616 →
      CheckResponse crc kind req res ≠
        Except.error (TException.TMalformedResponseError "invalid data size") ∧
      CheckResponse crc kind req res ≠ Except.error TException.TInvalidCRCError) := by
  refine ⟨?_, ?_, ?_⟩
  · intro entry slaveId shift
    have hfn := GetFunction_read entry
    unfold ComposeReadRequest ComposeReadRequestPDU
    simp only [hfn]
    refine ⟨_, rfl, ?_⟩
    have h := closed_frame_checksum crc hcrc
      (WriteAs2Bytes (WriteAs2Bytes (((List.replicate 8 0).set 0 (slaveId % 256)).set 1
        (readFunctionCode entry.RegType)) (1 + 1) (shiftedStart entry shift)) (1 + 3) entry.Count)
      (by simp [WriteAs2Bytes_length])
    simpa [WriteAs2Bytes_length] using h
  · intro reg slaveId value shift reqs h
    exact composeWriteRequestsFrom_checksum crc hcrc reg slaveId shift _ _ _ reqs h
  · intro kind req res hsat hsize hlt
    obtain ⟨h2, heq⟩ := hsat
    rw [CheckResponse_eq crc kind req res h2 hlt]
    have hidx : res.length - 2 = GetResponsePDUSize kind res + 1 := by omega
    rw [hidx] at heq
    rw [if_neg (by omega), heq]
    constructor
    · split
      · simp
      · split
        · simp
        · split <;> simp
    · split
      · rename_i hc
        exact absurd rfl hc
      · split
        · simp
        · split <;> simp

/-- The read request for 15 holding registers from address 4 of slave 1, with the CRC-16
of the protocol. -/
theorem request_frames_satisfy_checksum_witness :
    ∃ req, ComposeReadRequest (fun data => CalculateCRC16 data % 65536)
        { RegType := RegisterType.REG_HOLDING, Start := 4, Count := 15, TypeName := "holding" }
        1 0 = some req ∧
      satisfiesChecksum (fun data => CalculateCRC16 data % 65536) req :=
  (request_frames_satisfy_checksum (fun data => CalculateCRC16 data % 65536)
    (fun _ => Nat.mod_lt _ (by norm_num))).1
    { RegType := RegisterType.REG_HOLDING, Start := 4, Count := 15, TypeName := "holding" } 1 0

/-! ## Reads of the response buffer -/

theorem readAt_lt (res : List Nat) (i : Nat) (h : i < res.length) :
    readAt res i = some (byteAt res i) := by
  unfold readAt byteAt
  rw [List.getD_eq_getElem?_getD, List.getElem?_eq_getElem h]
  rfl

theorem readAt_ge (res : List Nat) (i : Nat) (h : res.length ≤ i) : readAt res i = none := by
  unfold readAt
  exact List.getElem?_eq_none h

theorem GetResponsePDUSizeChecked_eq (kind : TResponseKind) (res : List Nat)
    (h3 : 3 ≤ res.length) :
    GetResponsePDUSizeChecked kind res = some (GetResponsePDUSize kind res) := by
  unfold GetResponsePDUSizeChecked
  rw [readAt_lt res 1 (by omega), readAt_lt res 2 (by omega)]
  cases kind <;>
    simp only [GetResponsePDUSize, ReadResponsePDUSize, WriteResponsePDUSize, IsException,
      byteAt_PDU] <;>
    split <;> simp_all

/-- C38: for every response buffer of at least 3 bytes, `CheckResponse` reads only bytes
inside the buffer: run with every read of the response bounds-checked it never reads
outside and gives the result of `CheckResponse`. Whenever the data-size check passes
(PDU size < buffer length - 2) the two checksum byte indices PDU size + 1 and PDU size
+ 2 and the PDU size + 1 bytes of the checksum input lie within the buffer; otherwise
the result is the malformed-response error, before those bytes are read. -/
theorem CheckResponse_reads_inside_buffer (crc : List Nat → Nat) (kind : TResponseKind)
    (req res : List Nat) (h3 : 3 ≤ res.length) (hlt : res.length < 18446744073709551616) :
    CheckResponseChecked crc kind req res = some (CheckResponse crc kind req res) ∧
    (GetResponsePDUSize kind res < res.length - 2 →
      GetResponsePDUSize kind res + 1 < res.length ∧
      GetResponsePDUSize kind res + 2 < res.length ∧
      (res.take (GetResponsePDUSize kind res + 1)).length = GetResponsePDUSize kind res + 1) ∧
    (¬ GetResponsePDUSize kind res < res.length - 2 →
      CheckResponse crc kind req res =
        Except.error (TException.TMalformedResponseError "invalid data size")) := by
  have hwrap := sizeSub_two res.length (by omega) hlt
  refine ⟨?_, ?_, ?_⟩
  · unfold CheckResponseChecked CheckResponse
    rw [GetResponsePDUSizeChecked_eq kind res h3]
    simp only [hwrap]
    by_cases hsize : GetResponsePDUSize kind res ≥ res.length - 2
    · rw [if_pos hsize, if_pos hsize]
    · rw [if_neg hsize, if_neg hsize]
      rw [readAt_lt res _ (by omega), readAt_lt res _ (by omega)]
      simp only
      rw [if_neg (by omega)]
      by_cases hcrc : (byteAt res (GetResponsePDUSize kind res + 1) * 256 +
          byteAt res (GetResponsePDUSize kind res + 2)) % 65536 ≠
          crc (res.take (GetResponsePDUSize kind res + 1)) % 65536
      · rw [if_pos hcrc, if_pos hcrc]
      · rw [if_neg hcrc, if_neg hcrc, readAt_lt res 0 (by omega), readAt_lt res 1 (by omega)]
        simp only [byteAt_PDU]
        split
        · rfl
        · split <;> rfl
  · intro h
    refine ⟨by omega, by omega, ?_⟩
    rw [List.length_take]
    omega
  · intro h
    unfold CheckResponse
    simp only [hwrap]
    rw [if_pos (by omega)]

set_option maxRecDepth 100000 in
/-- A read response of slave 1 with two data bytes and its CRC, and the same buffer cut
to three bytes. -/
theorem CheckResponse_reads_inside_buffer_witness :
    CheckResponseChecked CalculateCRC16 TResponseKind.TReadResponse
        [1, 3, 0, 1, 0, 0, 0, 0] [1, 3, 2, 0, 7, 0xF9, 0x86] =
      some (CheckResponse CalculateCRC16 TResponseKind.TReadResponse
        [1, 3, 0, 1, 0, 0, 0, 0] [1, 3, 2, 0, 7, 0xF9, 0x86]) ∧
    CheckResponse CalculateCRC16 TResponseKind.TReadResponse
        [1, 3, 0, 1, 0, 0, 0, 0] [1, 3, 2] =
      Except.error (TException.TMalformedResponseError "invalid data size") :=
  ⟨(CheckResponse_reads_inside_buffer CalculateCRC16 TResponseKind.TReadResponse
      [1, 3, 0, 1, 0, 0, 0, 0] [1, 3, 2, 0, 7, 0xF9, 0x86] (by decide) (by decide)).1,
    (CheckResponse_reads_inside_buffer CalculateCRC16 TResponseKind.TReadResponse
      [1, 3, 0, 1, 0, 0, 0, 0] [1, 3, 2] (by decide) (by decide)).2.2 (by decide)⟩

/-! ## Memory blocks of a value query -/

theorem foldl_const_acc {α β : Type} (l : List β) (init : α) :
    l.foldl (fun (acc : α) (_ : β) => acc) init = init := by
  induction l with
  | nil => rfl
  | cons x xs ih => exact ih

/-- C40: `GetMemoryBlockSet` returns the empty set for every list of registers, because
the loop fills a set of its own; so the assertion of non-emptiness in the constructor of
`TIRDeviceValueQuery` fails for every list. For the one register with the one memory
block at address 4 the union of the blocks is that block. -/
theorem GetMemoryBlockSet_returns_empty (virtualRegisters : List IR.TVirtualRegister) :
    IR.GetMemoryBlockSet virtualRegisters = [] ∧
    (∀ memoryBlockRange operation,
      IR.TIRDeviceValueQuery.construct memoryBlockRange virtualRegisters operation = none) ∧
    memoryBlockUnion [⟨0, [⟨4, 0, 2⟩], 0, 0, false, false, false, true⟩] = [⟨4, 0, 2⟩] ∧
    IR.GetMemoryBlockSet [⟨0, [⟨4, 0, 2⟩], 0, 0, false, false, false, true⟩] = [] := by
  have hempty : ∀ regs : List IR.TVirtualRegister, IR.GetMemoryBlockSet regs = [] := by
    intro regs
    unfold IR.GetMemoryBlockSet
    exact foldl_const_acc regs []
  refine ⟨hempty _, ?_, by decide, hempty _⟩
  intro memoryBlockRange operation
  unfold IR.TIRDeviceValueQuery.construct
  cases hq : IR.TIRDeviceQuery.construct memoryBlockRange virtualRegisters operation with
  | none => rfl
  | some q =>
    simp only [hempty, ne_eq, not_true_eq_false, if_false]

/-! ## Value-changed events -/

theorem MaybeUpdateErrorState_valueCalls (c : TSerialClient) (reg : Nat) (state : TErrorState) :
    (c.MaybeUpdateErrorState reg state).valueCalls = c.valueCalls := by
  unfold TSerialClient.MaybeUpdateErrorState
  split <;> rfl

theorem cycleValue_valueCalls (c : TSerialClient) (reg : Nat) (changed : Bool) :
    (c.cycleValue reg changed).valueCalls =
      if (c.Handlers reg).NeedToPoll = true ∧ changed = true ∧
          ((c.cycleValue reg changed).Handlers reg).CurrentErrorState ≠ TErrorState.ReadError ∧
          ((c.cycleValue reg changed).Handlers reg).CurrentErrorState ≠
            TErrorState.ReadWriteError
      then c.valueCalls ++ [reg] else c.valueCalls := by
  unfold TSerialClient.cycleValue
  by_cases hp : (c.Handlers reg).NeedToPoll = true
  · simp only [hp, Bool.not_true, Bool.false_eq_true, if_false, true_and]
    generalize (c.Handlers reg).AcceptDeviceValue true = res
    have hv := MaybeUpdateErrorState_valueCalls
      ({ c with Handlers := Function.update c.Handlers reg res.1 } : TSerialClient) reg res.2
    generalize (({ c with Handlers := Function.update c.Handlers reg res.1 } :
      TSerialClient).MaybeUpdateErrorState reg res.2) = c' at hv ⊢
    have hv2 : c'.valueCalls = c.valueCalls := hv
    by_cases hcond : (changed && (c'.Handlers reg).CurrentErrorState != TErrorState.ReadError &&
        (c'.Handlers reg).CurrentErrorState != TErrorState.ReadWriteError) = true
    · rw [if_pos hcond]
      simp only [Bool.and_eq_true, bne_iff_ne, ne_eq] at hcond
      simp only
      rw [if_pos ⟨hcond.1.1, hcond.1.2, hcond.2⟩, hv2]
    · rw [if_neg hcond]
      simp only [Bool.and_eq_true, bne_iff_ne, ne_eq] at hcond
      rw [if_neg (fun h => hcond ⟨⟨h.1, h.2.1⟩, h.2.2⟩), hv2]
  · simp only [Bool.not_eq_true] at hp
    simp only [hp, Bool.not_false, if_true, Bool.false_eq_true, false_and, if_false]

theorem cycleError_valueCalls (c : TSerialClient) (reg : Nat) :
    (c.cycleError reg).valueCalls = c.valueCalls := by
  unfold TSerialClient.cycleError
  simp only
  split
  · rfl
  · rw [MaybeUpdateErrorState_valueCalls]

theorem flushRegister_valueCalls (c : TSerialClient) (reg : Nat) (ok : Bool) :
    (c.flushRegister reg ok).valueCalls = c.valueCalls := by
  unfold TSerialClient.flushRegister
  simp only
  split
  · rfl
  · rw [MaybeUpdateErrorState_valueCalls]

theorem handle_valueCalls (c : TSerialClient) (e : TClientEvent) :
    ∃ added, (c.handle e).valueCalls = c.valueCalls ++ added ∧
      ∀ reg ∈ added, e = TClientEvent.pollOk reg true := by
  cases e with
  | pollOk reg changed =>
    simp only [TSerialClient.handle]
    rw [cycleValue_valueCalls]
    split
    · rename_i h
      refine ⟨[reg], rfl, ?_⟩
      intro r hr
      rw [List.mem_singleton] at hr
      rw [hr, h.2.1]
    · exact ⟨[], by simp, fun r hr => by cases hr⟩
  | pollFailed reg =>
    exact ⟨[], by simp [TSerialClient.handle, cycleError_valueCalls], fun r hr => by cases hr⟩
  | flushed reg ok =>
    exact ⟨[], by simp [TSerialClient.handle, flushRegister_valueCalls], fun r hr => by cases hr⟩
  | valueSet reg =>
    exact ⟨[], by simp [TSerialClient.handle, TSerialClient.SetTextValue],
      fun r hr => by cases hr⟩

theorem run_valueCalls (events : List TClientEvent) :
    ∀ c : TSerialClient, ∃ added, (c.run events).valueCalls = c.valueCalls ++ added ∧
      ∀ reg ∈ added, TClientEvent.pollOk reg true ∈ events := by
  induction events with
  | nil => intro c; exact ⟨[], by simp [TSerialClient.run], fun r hr => by cases hr⟩
  | cons e rest ih =>
    intro c
    obtain ⟨a1, h1, p1⟩ := handle_valueCalls c e
    obtain ⟨a2, h2, p2⟩ := ih (c.handle e)
    refine ⟨a1 ++ a2, ?_, ?_⟩
    · unfold TSerialClient.run at h2 ⊢
      rw [List.foldl_cons, h2, h1, List.append_assoc]
    · intro r hr
      rcases List.mem_append.mp hr with hr | hr
      · rw [← p1 r hr]
        exact List.mem_cons_self _ _
      · exact List.mem_cons_of_mem _ (p2 r hr)

/-- C31: the value callback of a poll cycle invokes the value-changed callback for a
register exactly when the register needs polling, the handler reports the accepted value
as changed and the current error state of the register is then neither read-error nor
read+write-error; the error callback of a failed range and the flush of a write never
invoke it; so over every sequence of outcomes each call of the value-changed callback
comes from a register of a range read without error, with `changed` true. -/
theorem Callback_only_on_changed_value (c : TSerialClient) :
    (∀ reg changed, (c.cycleValue reg changed).valueCalls =
      if (c.Handlers reg).NeedToPoll = true ∧ changed = true ∧
          ((c.cycleValue reg changed).Handlers reg).CurrentErrorState ≠ TErrorState.ReadError ∧
          ((c.cycleValue reg changed).Handlers reg).CurrentErrorState ≠
            TErrorState.ReadWriteError
      then c.valueCalls ++ [reg] else c.valueCalls) ∧
    (∀ reg, (c.cycleError reg).valueCalls = c.valueCalls) ∧
    (∀ reg ok, (c.flushRegister reg ok).valueCalls = c.valueCalls) ∧
    (∀ events : List TClientEvent,
      ∃ added, (c.run events).valueCalls = c.valueCalls ++ added ∧
        ∀ reg ∈ added, TClientEvent.pollOk reg true ∈ events) :=
  ⟨cycleValue_valueCalls c, cycleError_valueCalls c, flushRegister_valueCalls c,
    fun events => run_valueCalls events c⟩

/-! ## Registration and connection -/

section ClientSetup

open TSerialClientSetup

theorem keepsRegistry_refl (c : TSerialClientSetup) : keepsRegistry c c :=
  ⟨rfl, rfl, rfl, fun h => h⟩

theorem keepsRegistry_trans {a b c : TSerialClientSetup} (h1 : keepsRegistry a b)
    (h2 : keepsRegistry b c) : keepsRegistry a c :=
  ⟨h2.1.trans h1.1, h2.2.1.trans h1.2.1, h2.2.2.1.trans h1.2.2.1, fun h => h1.2.2.2 (h2.2.2.2 h)⟩

theorem Disconnect_keepsRegistry (c : TSerialClientSetup) : keepsRegistry c c.Disconnect :=
  ⟨rfl, rfl, rfl, fun h => by simp [Disconnect] at h⟩

theorem GetDevice_keepsRegistry (c : TSerialClientSetup) (factory : Nat → Option String)
    (entry : Nat) : keepsRegistry c (c.GetDevice factory entry).1 := by
  unfold GetDevice
  split
  · exact keepsRegistry_refl c
  · split
    · exact keepsRegistry_refl c
    · split
      · exact ⟨rfl, rfl, rfl, fun h => h⟩
      · exact Disconnect_keepsRegistry c

theorem PrepareToAccessDevice_keepsRegistry (c : TSerialClientSetup) (dev : Nat) :
    keepsRegistry c (c.PrepareToAccessDevice dev) := by
  unfold PrepareToAccessDevice
  split
  · exact ⟨rfl, rfl, rfl, fun h => h⟩
  · exact keepsRegistry_refl c

theorem foldl_keepsRegistry {α : Type} (f : TSerialClientSetup → α → TSerialClientSetup)
    (hf : ∀ c x, keepsRegistry c (f c x)) (l : List α) :
    ∀ c, keepsRegistry c (l.foldl f c) := by
  induction l with
  | nil => intro c; exact keepsRegistry_refl c
  | cons x xs ih =>
    intro c
    exact keepsRegistry_trans (hf c x) (ih (f c x))

theorem Flush_keepsRegistry (c : TSerialClientSetup) (needToFlush : TRegister → Bool) :
    keepsRegistry c (c.Flush needToFlush) := by
  unfold Flush
  exact foldl_keepsRegistry _
    (fun c (reg : TRegister) => PrepareToAccessDevice_keepsRegistry c reg.Slave) _ c

theorem prepareRangesFrom_keepsRegistry (factory : Nat → Option String)
    (SplitRegisterList : Nat → List TRegister → List TRegisterRange) :
    ∀ (calls : List (Nat × List TRegister)) (c : TSerialClientSetup),
      keepsRegistry c (prepareRangesFrom factory SplitRegisterList calls c).1 := by
  intro calls
  induction calls with
  | nil => intro c; exact keepsRegistry_refl c
  | cons call rest ih =>
    intro c
    obtain ⟨last_slave, cur_regs⟩ := call
    rw [prepareRangesFrom]
    have hg := GetDevice_keepsRegistry c factory last_slave
    split
    · rename_i c' e heq
      rw [heq] at hg
      exact hg
    · rename_i c' dev heq
      rw [heq] at hg
      exact keepsRegistry_trans (keepsRegistry_trans hg ⟨rfl, rfl, rfl, fun h => h⟩) (ih _)

theorem cycleRanges_keepsRegistry (factory : Nat → Option String)
    (notified : Nat → List (TRegister → Bool)) :
    ∀ (ranges : List TRegisterRange) (i : Nat) (waits : List Int) (c : TSerialClientSetup),
      keepsRegistry c (cycleRanges factory notified ranges i waits c).1 := by
  intro ranges
  induction ranges with
  | nil => intro i waits c; exact keepsRegistry_refl c
  | cons range rest ih =>
    intro i waits c
    rw [cycleRanges]
    split
    · exact keepsRegistry_refl c
    · simp only
      have hf := foldl_keepsRegistry (fun c needToFlush => Flush c needToFlush)
        Flush_keepsRegistry (notified i) c
      have hg := GetDevice_keepsRegistry
        ((notified i).foldl (fun c needToFlush => Flush c needToFlush) c) factory range.Slave
      split
      · rename_i c' e heq
        rw [heq] at hg
        exact keepsRegistry_trans hf hg
      · rename_i c' dev heq
        rw [heq] at hg
        exact keepsRegistry_trans (keepsRegistry_trans hf hg)
          (keepsRegistry_trans (PrepareToAccessDevice_keepsRegistry c' dev) (ih _ _ _))

theorem registryConsistent_of_keeps {c c' : TSerialClientSetup} (h : keepsRegistry c c')
    (hc : registryConsistent c) : registryConsistent c' := by
  obtain ⟨h1, h2, _, h4⟩ := h
  obtain ⟨n, m, a⟩ := hc
  refine ⟨by rw [h1]; exact n, fun reg => by rw [h1, h2]; exact m reg, fun ha => ?_⟩
  rw [h2]
  exact a (h4 ha)

theorem Connect_registry (c : TSerialClientSetup) (portOpens : Option TException)
    (factory : Nat → Option String)
    (SplitRegisterList : Nat → List TRegister → List TRegisterRange) :
    (c.Connect portOpens factory SplitRegisterList).1.RegList = c.RegList ∧
    (c.Connect portOpens factory SplitRegisterList).1.Handlers = c.Handlers ∧
    (c.Connect portOpens factory SplitRegisterList).1.PollInterval = c.PollInterval ∧
    ((c.Connect portOpens factory SplitRegisterList).1.Active = true →
      c.Active = true ∨ c.Handlers ≠ []) := by
  unfold Connect
  split
  · rename_i ha
    exact ⟨rfl, rfl, rfl, fun _ => Or.inl ha⟩
  · split
    · exact ⟨rfl, rfl, rfl, fun h => Or.inl h⟩
    · rename_i hne
      have hne2 : c.Handlers ≠ [] := fun h => hne (by rw [h]; rfl)
      split
      · exact ⟨rfl, rfl, rfl, fun h => Or.inl h⟩
      · have hk := prepareRangesFrom_keepsRegistry factory SplitRegisterList
          (splitRegisterListCalls c.RegList)
          { ({ c with PortOpen := true } : TSerialClientSetup) with RegRanges := [] }
        unfold TSerialClientSetup.PrepareRegisterRanges
        simp only
        split
        · rename_i c' e heq
          rw [heq] at hk
          exact ⟨hk.1, hk.2.1, hk.2.2.1, fun _ => Or.inr hne2⟩
        · rename_i c' u heq
          rw [heq] at hk
          exact ⟨hk.1, hk.2.1, hk.2.2.1, fun _ => Or.inr hne2⟩

theorem Connect_consistent (c : TSerialClientSetup) (portOpens : Option TException)
    (factory : Nat → Option String)
    (SplitRegisterList : Nat → List TRegister → List TRegisterRange)
    (hc : registryConsistent c) :
    registryConsistent (c.Connect portOpens factory SplitRegisterList).1 := by
  obtain ⟨h1, h2, _, h4⟩ := Connect_registry c portOpens factory SplitRegisterList
  obtain ⟨n, m, a⟩ := hc
  refine ⟨by rw [h1]; exact n, fun reg => by rw [h1, h2]; exact m reg, fun ha => ?_⟩
  rw [h2]
  rcases h4 ha with h | h
  · exact a h
  · exact h

theorem AddRegister_active (c : TSerialClientSetup) (factory : Nat → Option String)
    (reg : TRegister) (h : c.Active = true) :
    c.AddRegister factory reg = (c, Except.error (TException.TSerialDeviceException
      "can\x27t add registers to the active client")) := by
  unfold AddRegister
  rw [if_pos h]

theorem AddRegister_duplicate (c : TSerialClientSetup) (factory : Nat → Option String)
    (reg : TRegister) (h : c.Active = false) (hreg : reg ∈ c.Handlers) :
    c.AddRegister factory reg =
      (c, Except.error (TException.TSerialDeviceException "duplicate register")) := by
  unfold AddRegister
  rw [if_neg (by simp [h]), if_pos hreg]

theorem AddRegister_consistent (c : TSerialClientSetup) (factory : Nat → Option String)
    (reg : TRegister) (hc : registryConsistent c) :
    registryConsistent (c.AddRegister factory reg).1 := by
  unfold AddRegister
  split
  · exact hc
  · rename_i hact
    split
    · exact hc
    · rename_i hnew
      have hg := GetDevice_keepsRegistry c factory reg.Slave
      split
      · rename_i c' e heq
        rw [heq] at hg
        exact registryConsistent_of_keeps hg hc
      · rename_i c' dev heq
        rw [heq] at hg
        obtain ⟨h1, h2, _, h4⟩ := hg
        simp only at h1 h2 h4
        obtain ⟨n, m, a⟩ := hc
        have hnotin : reg ∉ c.RegList := fun h => hnew ((m reg).mp h)
        refine ⟨?_, ?_, ?_⟩
        · show (c'.RegList ++ [reg]).Nodup
          rw [h1]
          exact List.Nodup.append n (List.nodup_singleton reg)
            (by
              intro x hx hx2
              rw [List.mem_singleton] at hx2
              exact hnotin (hx2 ▸ hx))
        · intro r
          show r ∈ c'.RegList ++ [reg] ↔ r ∈ c'.Handlers ++ [reg]
          rw [h1, h2, List.mem_append, List.mem_append, m r]
        · intro ha
          exact absurd (h4 ha) hact

theorem AddDevice_consistent (c : TSerialClientSetup) (slave : Nat)
    (hc : registryConsistent c) : registryConsistent (c.AddDevice slave).1 := by
  unfold AddDevice
  split
  · exact hc
  · exact hc

theorem Cycle_consistent (c : TSerialClientSetup) (portOpens : Option TException)
    (factory : Nat → Option String)
    (SplitRegisterList : Nat → List TRegister → List TRegisterRange)
    (notified : Nat → List (TRegister → Bool)) (hc : registryConsistent c) :
    registryConsistent (c.Cycle portOpens factory SplitRegisterList notified).1 := by
  have hconn := Connect_consistent c portOpens factory SplitRegisterList hc
  unfold TSerialClientSetup.Cycle
  split
  · rename_i c' e heq
    rw [heq] at hconn
    exact hconn
  · rename_i c' u heq
    rw [heq] at hconn
    exact registryConsistent_of_keeps (cycleRanges_keepsRegistry factory notified _ _ _ c') hconn

theorem Reachable_consistent (c : TSerialClientSetup) (h : c.Reachable) :
    registryConsistent c := by
  induction h with
  | create portOpen =>
    exact ⟨List.nodup_nil, fun reg => Iff.rfl, fun h => by simp [create] at h⟩
  | addDevice c slave _ ih => exact AddDevice_consistent c slave ih
  | addRegister c factory reg _ ih => exact AddRegister_consistent c factory reg ih
  | connect c portOpens factory split _ ih => exact Connect_consistent c portOpens factory split ih
  | disconnect c _ ih => exact registryConsistent_of_keeps (Disconnect_keepsRegistry c) ih
  | cycle c portOpens factory split notified _ ih =>
    exact Cycle_consistent c portOpens factory split notified ih

/-- C36: in every state reachable through `AddDevice`, `AddRegister`, `Connect`,
`Disconnect` (and `Cycle`), the register list contains no register twice and the
registers in it are the keys of the handler map; `AddRegister` on an active client fails
with "can't add registers to the active client", `AddRegister` of an already registered
register (on an inactive client) fails with "duplicate register", and in both cases the
client is left as it was. -/
theorem AddRegister_keeps_registry_consistent :
    (∀ c : TSerialClientSetup, c.Reachable →
      c.RegList.Nodup ∧ ∀ reg, reg ∈ c.RegList ↔ reg ∈ c.Handlers) ∧
    (∀ (c : TSerialClientSetup) (factory : Nat → Option String) (reg : TRegister),
      c.Active = true →
      c.AddRegister factory reg = (c, Except.error (TException.TSerialDeviceException
        "can\x27t add registers to the active client"))) ∧
    (∀ (c : TSerialClientSetup) (factory : Nat → Option String) (reg : TRegister),
      c.Active = false → reg ∈ c.Handlers →
      c.AddRegister factory reg =
        (c, Except.error (TException.TSerialDeviceException "duplicate register"))) :=
  ⟨fun c h => ⟨(Reachable_consistent c h).1, (Reachable_consistent c h).2.1⟩,
    AddRegister_active, AddRegister_duplicate⟩


theorem Connect_no_registers (c : TSerialClientSetup) (portOpens : Option TException)
    (factory : Nat → Option String)
    (SplitRegisterList : Nat → List TRegister → List TRegisterRange)
    (hact : c.Active = false) (hh : c.Handlers = []) :
    c.Connect portOpens factory SplitRegisterList =
      (c, Except.error (TException.TSerialDeviceException "no registers defined")) := by
  unfold Connect
  rw [if_neg (by simp [hact]), if_pos (by rw [hh]; rfl)]

theorem Connect_ok (c c' : TSerialClientSetup) (portOpens : Option TException)
    (factory : Nat → Option String)
    (SplitRegisterList : Nat → List TRegister → List TRegisterRange) (u : Unit)
    (h : c.Connect portOpens factory SplitRegisterList = (c', Except.ok u)) :
    c.Active = true ∨ c.Handlers ≠ [] := by
  unfold Connect at h
  split at h
  · rename_i ha
    exact Or.inl ha
  · split at h
    · cases h
    · rename_i hne
      exact Or.inr (fun hh => hne (by rw [hh]; rfl))

theorem cycleRanges_divides (factory : Nat → Option String)
    (notified : Nat → List (TRegister → Bool)) :
    ∀ (ranges : List TRegisterRange) (i : Nat) (waits : List Int) (c : TSerialClientSetup),
      c.RegList ≠ [] →
      (cycleRanges factory notified ranges i waits c).2 ≠ TCycleResult.divisionByZero := by
  intro ranges
  induction ranges with
  | nil =>
    intro i waits c _
    simp [cycleRanges]
  | cons range rest ih =>
    intro i waits c hne
    rw [cycleRanges]
    rw [if_neg (fun h => hne (List.length_eq_zero.mp h))]
    simp only
    have hf := foldl_keepsRegistry (fun c needToFlush => Flush c needToFlush)
      Flush_keepsRegistry (notified i) c
    have hg := GetDevice_keepsRegistry
      ((notified i).foldl (fun c needToFlush => Flush c needToFlush) c) factory range.Slave
    split
    · simp
    · rename_i c' dev heq
      rw [heq] at hg
      apply ih
      have hk := keepsRegistry_trans (keepsRegistry_trans hf hg)
        (PrepareToAccessDevice_keepsRegistry c' dev)
      rw [hk.1]
      exact hne

theorem RegList_ne_nil (c : TSerialClientSetup) (hc : registryConsistent c)
    (h : c.Handlers ≠ []) : c.RegList ≠ [] := by
  cases hh : c.Handlers with
  | nil => exact absurd hh h
  | cons x xs =>
    have hx : x ∈ c.RegList := (hc.2.1 x).mpr (by rw [hh]; exact List.mem_cons_self _ _)
    exact List.ne_nil_of_mem hx

/-- C37: in every reachable state of the client the division of the wait computation of
`Cycle` is never a division by zero. When no register has been added the client is
inactive, `Connect` fails with "no registers defined" and leaves the client as it was
(inactive, the port not touched), and `Cycle` ends with that exception before its loop;
and whenever `Cycle` gets to its loop the register list is not empty, so no run of `Cycle`
ends in a division by zero. -/
theorem Cycle_never_divides_by_zero (c : TSerialClientSetup) (h : c.Reachable) :
    (c.Handlers = [] → c.Active = false ∧ c.RegList = [] ∧
      ∀ portOpens factory SplitRegisterList,
        c.Connect portOpens factory SplitRegisterList =
          (c, Except.error (TException.TSerialDeviceException "no registers defined")) ∧
        ∀ notified, c.Cycle portOpens factory SplitRegisterList notified =
          (c, TCycleResult.raised (TException.TSerialDeviceException "no registers defined"))) ∧
    (∀ portOpens factory SplitRegisterList c' u,
      c.Connect portOpens factory SplitRegisterList = (c', Except.ok u) → c'.RegList ≠ []) ∧
    (∀ portOpens factory SplitRegisterList notified,
      (c.Cycle portOpens factory SplitRegisterList notified).2 ≠ TCycleResult.divisionByZero) := by
  have hc := Reachable_consistent c h
  refine ⟨?_, ?_, ?_⟩
  · intro hh
    have hact : c.Active = false := by
      cases ha : c.Active with
      | false => rfl
      | true => exact absurd hh (hc.2.2 ha)
    have hreg : c.RegList = [] := by
      cases hr : c.RegList with
      | nil => rfl
      | cons x xs =>
        have hx : x ∈ c.Handlers := (hc.2.1 x).mp (by rw [hr]; exact List.mem_cons_self _ _)
        rw [hh] at hx
        cases hx
    refine ⟨hact, hreg, ?_⟩
    intro portOpens factory SplitRegisterList
    have hconn := Connect_no_registers c portOpens factory SplitRegisterList hact hh
    refine ⟨hconn, ?_⟩
    intro notified
    unfold TSerialClientSetup.Cycle
    rw [hconn]
  · intro portOpens factory SplitRegisterList c' u hconn
    have hreg := (Connect_registry c portOpens factory SplitRegisterList).1
    rw [hconn] at hreg
    have hne : c.Handlers ≠ [] := by
      rcases Connect_ok c c' portOpens factory SplitRegisterList u hconn with ha | hn
      · exact hc.2.2 ha
      · exact hn
    show c'.RegList ≠ []
    rw [show c'.RegList = c.RegList from hreg]
    exact RegList_ne_nil c hc hne
  · intro portOpens factory SplitRegisterList notified
    unfold TSerialClientSetup.Cycle
    split
    · simp
    · rename_i c' u heq
      have hreg := (Connect_registry c portOpens factory SplitRegisterList).1
      rw [heq] at hreg
      have hne : c.Handlers ≠ [] := by
        rcases Connect_ok c c' portOpens factory SplitRegisterList u heq with ha | hn
        · exact hc.2.2 ha
        · exact hn
      apply cycleRanges_divides
      rw [show c'.RegList = c.RegList from hreg]
      exact RegList_ne_nil c hc hne

/-- A new client, on which `Connect` fails, and the client after one device and one
register were added, which a cycle runs through with one wait of 20000 microseconds. -/
theorem Cycle_never_divides_by_zero_witness :
    (create false).Connect none (fun _ => none) (fun _ regs => [⟨regs⟩]) =
      (create false,
        Except.error (TException.TSerialDeviceException "no registers defined")) ∧
    ((((create false).AddDevice 1).1.AddRegister (fun _ => none) ⟨1, 0, 4, 1, 20⟩).1.Cycle none
        (fun _ => none) (fun _ regs => [⟨regs⟩]) (fun _ => [])).2 =
      TCycleResult.completed [20000] :=
  ⟨((Cycle_never_divides_by_zero (create false) (Reachable.create false)).1 rfl).2.2
      none (fun _ => none) (fun _ regs => [⟨regs⟩]) |>.1,
    by decide⟩


theorem PrepareToAccessDevice_spec (c : TSerialClientSetup) (dev : Nat) :
    (c.PrepareToAccessDevice dev).LastAccessedDevice = some dev ∧
    (c.PrepareToAccessDevice dev).prepareCalls =
      c.prepareCalls ++ (if c.LastAccessedDevice = some dev then [] else [dev]) := by
  unfold PrepareToAccessDevice
  by_cases h : c.LastAccessedDevice = some dev
  · rw [if_neg (fun hc => hc h.symm), if_pos h]
    exact ⟨h, by simp⟩
  · rw [if_pos (fun hc => h hc.symm), if_neg h]
    exact ⟨rfl, rfl⟩

theorem accesses_prepareCalls (devs : List Nat) :
    ∀ c : TSerialClientSetup,
      (devs.foldl PrepareToAccessDevice c).prepareCalls =
        c.prepareCalls ++ accessesWithPrepare c.LastAccessedDevice devs ∧
      ∀ dev, devs.getLast? = some dev →
        (devs.foldl PrepareToAccessDevice c).LastAccessedDevice = some dev := by
  induction devs with
  | nil =>
    intro c
    exact ⟨by simp [accessesWithPrepare], fun dev h => by simp at h⟩
  | cons d rest ih =>
    intro c
    obtain ⟨h1, h2⟩ := PrepareToAccessDevice_spec c d
    obtain ⟨i1, i2⟩ := ih (c.PrepareToAccessDevice d)
    rw [List.foldl_cons]
    constructor
    · rw [i1, h1, h2, accessesWithPrepare, List.append_assoc]
    · intro dev hlast
      cases rest with
      | nil =>
        simp only [List.getLast?_singleton, Option.some.injEq] at hlast
        rw [← hlast]
        exact h1
      | cons e rest2 =>
        rw [List.getLast?_cons_cons] at hlast
        exact i2 dev hlast

theorem accessesWithPrepare_same (last : Option Nat) (dev : Nat) (n : Nat) :
    accessesWithPrepare last (List.replicate (n + 1) dev) =
      if last = some dev then [] else [dev] := by
  induction n generalizing last with
  | zero => simp [accessesWithPrepare]
  | succ k ih =>
    rw [List.replicate_succ, accessesWithPrepare, ih (some dev)]
    simp

/-- C32: on every access made through `PrepareToAccessDevice` the prepare hook of the
device is called if and only if the device differs from the last accessed one (there is
none on a new client), and afterwards the last accessed device is the accessed one; so
over every sequence of accesses the hook is called exactly on the accesses to a device
other than the one of the access before, and consecutive accesses to the same device
call it once. `Flush` accesses the devices of the registers that need to flush this
way, one after the other. -/
theorem PrepareToAccessDevice_prepares_on_change (c : TSerialClientSetup) :
    (∀ dev, (c.PrepareToAccessDevice dev).LastAccessedDevice = some dev ∧
      (c.PrepareToAccessDevice dev).prepareCalls =
        c.prepareCalls ++ (if c.LastAccessedDevice = some dev then [] else [dev])) ∧
    (∀ devs : List Nat,
      (devs.foldl PrepareToAccessDevice c).prepareCalls =
        c.prepareCalls ++ accessesWithPrepare c.LastAccessedDevice devs ∧
      ∀ dev, devs.getLast? = some dev →
        (devs.foldl PrepareToAccessDevice c).LastAccessedDevice = some dev) ∧
    (∀ dev n, ((List.replicate (n + 1) dev).foldl PrepareToAccessDevice c).prepareCalls =
      c.prepareCalls ++ (if c.LastAccessedDevice = some dev then [] else [dev])) ∧
    (∀ needToFlush, c.Flush needToFlush =
      ((c.RegList.filter needToFlush).map (fun reg => reg.Slave)).foldl
        PrepareToAccessDevice c) ∧
    (∀ portOpen, (create portOpen).LastAccessedDevice = none ∧
      (create portOpen).prepareCalls = []) := by
  refine ⟨PrepareToAccessDevice_spec c, fun devs => accesses_prepareCalls devs c, ?_, ?_,
    fun _ => ⟨rfl, rfl⟩⟩
  · intro dev n
    rw [(accesses_prepareCalls _ c).1, accessesWithPrepare_same]
  · intro needToFlush
    unfold Flush
    rw [List.foldl_map]

theorem Disconnect_keepsAccess (c : TSerialClientSetup) : keepsAccess c c.Disconnect :=
  ⟨rfl, rfl⟩

theorem GetDevice_keepsAccess (c : TSerialClientSetup) (factory : Nat → Option String)
    (entry : Nat) : keepsAccess c (c.GetDevice factory entry).1 := by
  unfold GetDevice
  split
  · exact ⟨rfl, rfl⟩
  · split
    · exact ⟨rfl, rfl⟩
    · split <;> exact ⟨rfl, rfl⟩

theorem prepareRangesFrom_keepsAccess (factory : Nat → Option String)
    (SplitRegisterList : Nat → List TRegister → List TRegisterRange) :
    ∀ (calls : List (Nat × List TRegister)) (c : TSerialClientSetup),
      keepsAccess c (prepareRangesFrom factory SplitRegisterList calls c).1 := by
  intro calls
  induction calls with
  | nil => intro c; exact ⟨rfl, rfl⟩
  | cons call rest ih =>
    intro c
    obtain ⟨last_slave, cur_regs⟩ := call
    rw [prepareRangesFrom]
    have hg := GetDevice_keepsAccess c factory last_slave
    split
    · rename_i c' e heq
      rw [heq] at hg
      exact hg
    · rename_i c' dev heq
      rw [heq] at hg
      have hi := ih { c' with RegRanges := c'.RegRanges ++ SplitRegisterList dev cur_regs }
      exact ⟨hi.1.trans hg.1, hi.2.trans hg.2⟩

theorem Connect_keepsAccess (c : TSerialClientSetup) (portOpens : Option TException)
    (factory : Nat → Option String)
    (SplitRegisterList : Nat → List TRegister → List TRegisterRange) :
    keepsAccess c (c.Connect portOpens factory SplitRegisterList).1 := by
  unfold Connect
  split
  · exact ⟨rfl, rfl⟩
  · split
    · exact ⟨rfl, rfl⟩
    · split
      · exact ⟨rfl, rfl⟩
      · have hk := prepareRangesFrom_keepsAccess factory SplitRegisterList
          (splitRegisterListCalls c.RegList)
          { ({ c with PortOpen := true } : TSerialClientSetup) with RegRanges := [] }
        unfold TSerialClientSetup.PrepareRegisterRanges
        simp only
        split
        · rename_i c' e heq
          rw [heq] at hk
          exact hk
        · rename_i c' u heq
          rw [heq] at hk
          exact hk

/-- C33 (counterexample): a client with one device and one register is connected and
accesses the device, which calls the prepare hook; after `Disconnect` and `Connect` the
client is active again, and the next access to the device does not call the hook: the
calls are still the one made before the disconnect. -/
theorem prepare_not_called_after_reconnect :
    (((((create false).AddDevice 1).1.AddRegister (fun _ => none) ⟨1, 0, 4, 1, 20⟩).1.Connect none
        (fun _ => none) (fun _ regs => [⟨regs⟩])).1.PrepareToAccessDevice 1).prepareCalls = [1] ∧
    ((((((create false).AddDevice 1).1.AddRegister (fun _ => none) ⟨1, 0, 4, 1, 20⟩).1.Connect none
        (fun _ => none) (fun _ regs => [⟨regs⟩])).1.PrepareToAccessDevice 1).Disconnect.Connect none
        (fun _ => none) (fun _ regs => [⟨regs⟩])).1.Active = true ∧
    (((((((create false).AddDevice 1).1.AddRegister (fun _ => none) ⟨1, 0, 4, 1, 20⟩).1.Connect
        none (fun _ => none) (fun _ regs => [⟨regs⟩])).1.PrepareToAccessDevice 1).Disconnect.Connect
        none (fun _ => none) (fun _ regs => [⟨regs⟩])).1.PrepareToAccessDevice 1).prepareCalls =
      [1] := by
  refine ⟨by decide, by decide, by decide⟩

/-- C33 (amended): `Disconnect` and `Connect` leave the last accessed device of the client
as it is, and so does reopening the port: after `Disconnect` followed by `Connect`, the
first access to a device calls the prepare hook of the device if and only if the device
is not the one that was accessed last before the disconnect. There is no prepared state
per device: the client keeps one last accessed device. -/
theorem reconnect_keeps_last_accessed_device (c : TSerialClientSetup)
    (portOpens : Option TException) (factory : Nat → Option String)
    (SplitRegisterList : Nat → List TRegister → List TRegisterRange) (dev : Nat) :
    (c.Disconnect.Connect portOpens factory SplitRegisterList).1.LastAccessedDevice =
      c.LastAccessedDevice ∧
    (c.Disconnect.Connect portOpens factory SplitRegisterList).1.prepareCalls = c.prepareCalls ∧
    ((c.Disconnect.Connect portOpens factory SplitRegisterList).1.PrepareToAccessDevice
        dev).prepareCalls =
      c.prepareCalls ++ (if c.LastAccessedDevice = some dev then [] else [dev]) := by
  have hk := Connect_keepsAccess c.Disconnect portOpens factory SplitRegisterList
  have hd := Disconnect_keepsAccess c
  have h1 := hk.1.trans hd.1
  have h2 := hk.2.trans hd.2
  refine ⟨h1, h2, ?_⟩
  rw [(PrepareToAccessDevice_spec _ dev).2, h1, h2]


end ClientSetup
